import Mathlib

/-!
# Foxops Terraform provider: client and adapter layer

A shallow embedding of `internal/client/client.go` (the HTTP client for the
incarnation API) and of `internal/provider` (the adapter helper
`getIncarnation`, the data source and the resource), followed by theorems
about them.

Conventions of the embedding:

* a Go `error` is a value of `GoError`, `nil` is `none` of `Option GoError`;
* a Go function returning `(inc, err)` returns a pair `Incarnation × Option GoError`;
* the network is a `World` (log of the requests issued, time slept) and the
  generated client `c.impl` is a function giving the transport result of a
  request in a world;
* `encoding/json` and the generated wire types are not part of the sources:
  the decoders are fields of `Lib`, the decoded wire types are modelled
  from their uses;
* a run-time panic is `Outcome.fault`.
-/

namespace Foxops

deriving instance DecidableEq for Except

/-! ## Go errors (`errors`, `github.com/pkg/errors`) -/

/-- Go error values together with the wrappers this program builds around them.
`leaf` is an error of a library without a cause (`context.DeadlineExceeded`,
`strconv.ErrSyntax`, a JSON syntax error), `wrap` a library error with an
`Unwrap` method (`*strconv.NumError`, `*url.Error`), `fundamental` the result
of `pkg/errors.New`, `withStack` and `withMessage` the two wrappers of
`pkg/errors`, `join1` and `join2` the results of `errors.Join` called with two
arguments of which one, respectively two, are not nil. -/
inductive GoError where
  | leaf (msg : String)
  | wrap (pre : String) (cause : GoError)
  | fundamental (msg : String)
  | withStack (cause : GoError)
  | withMessage (cause : GoError) (msg : String)
  | join1 (a : GoError)
  | join2 (a b : GoError)
  deriving DecidableEq, Repr, Inhabited

namespace GoError

/-- The `Error()` method. -/
def Error : GoError → String
  | leaf msg => msg
  | wrap pre cause => pre ++ cause.Error
  | fundamental msg => msg
  | withStack cause => cause.Error
  | withMessage cause msg => msg ++ ": " ++ cause.Error
  | join1 a => a.Error
  | join2 a b => a.Error ++ "\n" ++ b.Error

/-- Every error reachable from an error through `Unwrap`, the error itself
first, in the order `errors.Is` visits them. -/
def chain : GoError → List GoError
  | leaf msg => [leaf msg]
  | wrap pre cause => wrap pre cause :: cause.chain
  | fundamental msg => [fundamental msg]
  | withStack cause => withStack cause :: cause.chain
  | withMessage cause msg => withMessage cause msg :: cause.chain
  | join1 a => join1 a :: a.chain
  | join2 a b => join2 a b :: (a.chain ++ b.chain)

/-- The function `errors.Is(err, target)` for a comparable target. -/
def Is (err target : GoError) : Bool := decide (target ∈ err.chain)

end GoError

/-- The function `errors.New` of `pkg/errors`. -/
def errorsNew (msg : String) : GoError := .fundamental msg

/-- The function `errors.WithStack`: nil stays nil. -/
def WithStack : Option GoError → Option GoError
  | none => none
  | some e => some (.withStack e)

/-- The function `errors.Wrap` (and `errors.Wrapf` once the message is
formatted): nil stays nil, otherwise the message is attached and then the stack. -/
def Wrap : Option GoError → String → Option GoError
  | none, _ => none
  | some e, msg => some (.withStack (.withMessage e msg))

/-- The function `errors.Join` of the standard library for two arguments. -/
def Join : Option GoError → Option GoError → Option GoError
  | none, none => none
  | some a, none => some (.join1 a)
  | none, some b => some (.join1 b)
  | some a, some b => some (.join2 a b)

/-- The sentinel `context.DeadlineExceeded`. -/
def DeadlineExceeded : GoError := .leaf "context deadline exceeded"

/-- The sentinel `strconv.ErrSyntax`. -/
def ErrSyntax : GoError := .leaf "invalid syntax"

/-- The sentinel `strconv.ErrRange`. -/
def ErrRange : GoError := .leaf "value out of range"

/-! ## `strconv.Atoi` and `fmt.Sprintf("%d", _)` -/

/-- Value of a list of decimal digits, most significant first. -/
def digitsValue (ds : List Char) : Nat :=
  ds.foldl (fun acc d => 10 * acc + (d.toNat - 48)) 0

/-- The digits of an identifier once an optional sign is removed. -/
def unsignedPart : List Char → List Char
  | '+' :: ds => ds
  | '-' :: ds => ds
  | ds => ds

/-- A string of the form `[+-]?[0-9]+`. -/
def isDecimalInteger (s : String) : Bool :=
  let ds := unsignedPart s.toList
  !ds.isEmpty && ds.all Char.isDigit

/-- The integer written by a string of the form `[+-]?[0-9]+`. -/
def decimalValue (s : String) : Int :=
  match s.toList with
  | '-' :: ds => - (digitsValue ds : Int)
  | cs => (digitsValue (unsignedPart cs) : Int)

/-- The error `*strconv.NumError` of `Atoi` for an input and a cause; the
input is put between double quotes (the escapes `strconv.Quote` adds for
unprintable characters are left out, no statement depends on them). -/
def numError (s : String) (cause : GoError) : GoError :=
  .wrap ("strconv.Atoi: parsing \"" ++ s ++ "\": ") cause

/-- The function `strconv.Atoi` for a 64-bit `int`: an optional sign and at
least one decimal digit, the value within the range of `int`. -/
def Atoi (s : String) : Except GoError Int :=
  if isDecimalInteger s then
    let v := decimalValue s
    if -(2 : Int) ^ 63 ≤ v ∧ v < (2 : Int) ^ 63 then .ok v else .error (numError s ErrRange)
  else .error (numError s ErrSyntax)

/-- The decimal rendering `fmt.Sprintf("%d", n)`. -/
def sprintfD (n : Int) : String := toString n


/-! ## The model of the provider package (`internal/provider/client.go`) -/

/-- A `float32`/`float64` value, kept as its bit pattern: the program only
moves such values around and formats them. -/
structure GoFloat where
  bits : Nat
  deriving DecidableEq, Repr, Inhabited

/-- The two floating-point types of Go. -/
inductive FloatKind where
  | float32
  | float64
  deriving DecidableEq, Repr, Inhabited

/-- The dynamic values an `interface{}` holds in this program: a `string`, an
`int`, a float of either type, and the other kinds a caller or the JSON
decoder can supply. -/
inductive GoValue where
  | str (s : String)
  | int (n : Int)
  | float (kind : FloatKind) (f : GoFloat)
  | bool (b : Bool)
  | nil
  | other (typeName : String)
  deriving DecidableEq, Repr, Inhabited

/-- The type `IncarnationId`. -/
abbrev IncarnationId := String

/-- The struct `Incarnation`; a Go map is a list of key and value pairs with
distinct keys, read in the order of the list. -/
structure Incarnation where
  Id : IncarnationId
  IncarnationRepository : String
  TargetDirectory : String
  TemplateData : List (String × GoValue)
  TemplateRepository : String
  TemplateRepositoryVersion : String
  MergeRequestUrl : Option String
  CommitSha : String
  CommitUrl : String
  MergeRequestStatus : Option String
  MergeRequestId : Option String
  deriving DecidableEq, Repr

/-- The zero value of `Incarnation`, what a named result holds until assigned. -/
def Incarnation.zero : Incarnation :=
  { Id := "", IncarnationRepository := "", TargetDirectory := "", TemplateData := [],
    TemplateRepository := "", TemplateRepositoryVersion := "", MergeRequestUrl := none,
    CommitSha := "", CommitUrl := "", MergeRequestStatus := none, MergeRequestId := none }

/-- The struct `UpdateIncarnationRequest`. -/
structure UpdateIncarnationRequest where
  AutoMerge : Bool
  TemplateData : List (String × GoValue)
  TemplateRepositoryVersion : String
  deriving DecidableEq, Repr

/-- The struct `CreateIncarnationRequest`, which embeds `UpdateIncarnationRequest`. -/
structure CreateIncarnationRequest extends UpdateIncarnationRequest where
  IncarnationRepository : String
  TargetDirectory : Option String
  TemplateRepository : String
  deriving DecidableEq, Repr

/-- A `context.Context` as this program builds it: the caller's context and
the timeouts put on top of it (in nanoseconds). -/
inductive Context where
  | background
  | withTimeout (parent : Context) (timeout : Int)
  deriving DecidableEq, Repr, Inhabited

/-- Assignment `m[key] = value` on a map kept as a list of pairs. -/
def mapSet {α : Type} : List (String × α) → String → α → List (String × α)
  | [], key, value => [(key, value)]
  | (k, v) :: rest, key, value =>
    if k = key then (key, value) :: rest else (k, v) :: mapSet rest key value

/-! ## The generated wire types (`internal/client/gen`), modelled from their uses -/

/-- Modelled from the spec: the generated struct `ApiError`, the error
object of the server with its `message` field. -/
structure ApiError where
  Message : String
  deriving DecidableEq, Repr

/-- Modelled from the spec: the generated union structs
(`..._TemplateData_AdditionalProperties`), which hold the raw JSON text of one
template-data value; `none` is the union that was never assigned. -/
structure TemplateDataUnion where
  union : Option String
  deriving DecidableEq, Repr

/-- Modelled from the spec: the generated struct `IncarnationWithDetails`
with the fields `mapIncarnation` and the tests use; a pointer field is an
`Option`. -/
structure IncarnationWithDetails where
  Id : Int
  IncarnationRepository : String
  TargetDirectory : String
  CommitSha : String
  CommitUrl : String
  TemplateRepository : Option String
  TemplateRepositoryVersion : Option String
  TemplateData : Option (List (String × TemplateDataUnion))
  MergeRequestId : Option String
  MergeRequestUrl : Option String
  MergeRequestStatus : Option GoValue
  deriving DecidableEq, Repr

/-- Modelled from the spec: the generated JSON body of the POST request
(`CreateIncarnationApiIncarnationsPostJSONRequestBody`). -/
structure CreateBody where
  IncarnationRepository : String
  TargetDirectory : Option String
  TemplateData : List (String × TemplateDataUnion)
  TemplateRepository : String
  TemplateRepositoryVersion : String
  deriving DecidableEq, Repr

/-- Modelled from the spec: the generated JSON body of the PUT request
(`UpdateIncarnationApiIncarnationsIncarnationIdPutJSONRequestBody`), its
pointer fields always set by the client. -/
structure UpdateBody where
  Automerge : Bool
  TemplateData : List (String × TemplateDataUnion)
  TemplateRepositoryVersion : String
  deriving DecidableEq, Repr

/-! ## HTTP: responses, the world, the generated client -/

/-- A response body (`io.Reader`): the bytes it delivers and the error that
ends the reading, `none` for a clean end of file. -/
structure Body where
  content : String
  readErr : Option GoError
  deriving DecidableEq, Repr

/-- The function `io.ReadAll`. -/
def ReadAll (b : Body) : Except GoError String :=
  match b.readErr with
  | some e => .error e
  | none => .ok b.content

/-- The fields of `http.Response` the client reads. -/
structure Response where
  StatusCode : Int
  Body : Body
  deriving DecidableEq, Repr

/-- The four requests the generated client can issue. -/
inductive Request where
  | get (id : Int)
  | post (body : CreateBody)
  | put (id : Int) (body : UpdateBody)
  | delete (id : Int)
  deriving DecidableEq, Repr

/-- What the program has done to the outside: the requests issued, oldest
first, and the number of one-second sleeps. -/
structure World where
  requests : List Request
  sleeps : Nat
  deriving DecidableEq, Repr

/-- Result of a Go call that can panic. -/
inductive Outcome (α : Type) where
  | ret (a : α)
  | fault (msg : String)
  deriving DecidableEq, Repr

/-- The generated `ClientInterface` behind `c.impl`: the result of the round
trip of a request, which may depend on everything done so far and on the
context of the call. -/
structure ClientInterface where
  respond : World → Context → Request → Except GoError Response

/-- One call of a method of `c.impl`: the request is logged and answered. -/
def ClientInterface.call (impl : ClientInterface) (ctx : Context) (req : Request) (w : World) :
    Except GoError Response × World :=
  (impl.respond w ctx req, { w with requests := w.requests ++ [req] })

/-- The call `time.Sleep(time.Second)`. -/
def sleepSecond (w : World) : World := { w with sleeps := w.sleeps + 1 }

/-- What the program uses and the sources do not hold: the functions of
`encoding/json` at the types they are used at, `time.ParseDuration` (in
nanoseconds), the verb `%f` of `fmt.Sprintf`, and the floating-point type the
generated aliases `...TemplateData2` stand for. -/
structure Lib where
  TemplateData2 : FloatKind
  ParseDuration : String → Except GoError Int
  SprintfF : GoFloat → String
  UnmarshalApiError : String → Except GoError ApiError
  DecodeIncarnation : Body → Except GoError IncarnationWithDetails
  UnmarshalString : String → Except GoError String
  UnmarshalInt : String → Except GoError Int
  UnmarshalFloat : String → Except GoError GoFloat
  MarshalString : String → Except GoError String
  MarshalInt : Int → Except GoError String
  MarshalFloat : GoFloat → Except GoError String

/-! ## `internal/client/client.go` -/

/-- The struct `client`. -/
structure client where
  impl : ClientInterface

/-- The constant `http.StatusOK`. -/
def StatusOK : Int := 200

/-- The constant `http.StatusCreated`. -/
def StatusCreated : Int := 201

/-- The constant `http.StatusNoContent`. -/
def StatusNoContent : Int := 204

/-- The method `checkResponseStatus`: nil when the status code is the expected
one; otherwise the body is read and decoded as an `ApiError`. -/
def checkResponseStatus (lib : Lib) (expected : Int) (resp : Response) : Option GoError :=
  if resp.StatusCode ≠ expected then
    match ReadAll resp.Body with
    | .error _ => some (errorsNew "failed to read response body")
    | .ok body =>
      let err : Option GoError :=
        match lib.UnmarshalApiError body with
        | .error e => Wrap (some e) "failed to decode error message"
        | .ok apiError => some (errorsNew apiError.Message)
      Wrap err ("unexpected status code " ++ sprintfD resp.StatusCode ++ ", wants " ++ sprintfD expected)
  else none

/-- Modelled from the spec: the generated accessor
`AsIncarnationWithDetailsTemplateData0`, a `json.Unmarshal` of the raw text
of the union into a `string`. -/
def TemplateDataUnion.AsTemplateData0 (lib : Lib) (t : TemplateDataUnion) : Except GoError String :=
  lib.UnmarshalString (t.union.getD "")

/-- Modelled from the spec: the generated accessor
`AsIncarnationWithDetailsTemplateData1`, a `json.Unmarshal` into an `int`. -/
def TemplateDataUnion.AsTemplateData1 (lib : Lib) (t : TemplateDataUnion) : Except GoError Int :=
  lib.UnmarshalInt (t.union.getD "")

/-- Modelled from the spec: the generated accessor
`AsIncarnationWithDetailsTemplateData2`, a `json.Unmarshal` into a float. -/
def TemplateDataUnion.AsTemplateData2 (lib : Lib) (t : TemplateDataUnion) : Except GoError GoFloat :=
  lib.UnmarshalFloat (t.union.getD "")

/-- Modelled from the spec: the generated setters
`From...TemplateData0/1/2`, which store the `json.Marshal` of the value in the
union and return the error of `json.Marshal`. -/
def TemplateDataUnion.From (marshalled : Except GoError String) : TemplateDataUnion × Option GoError :=
  match marshalled with
  | .ok b => ({ union := some b }, none)
  | .error e => ({ union := none }, some e)

/-- The chain of `if ... else if` of `mapIncarnation` for one entry: the value
of the first accessor without error, and the error of the last accessor tried. -/
def decodeTemplateDatum (lib : Lib) (value : TemplateDataUnion) : Option GoValue × Option GoError :=
  match value.AsTemplateData0 lib with
  | .ok v => (some (.str v), none)
  | .error _ =>
    match value.AsTemplateData1 lib with
    | .ok v => (some (.int v), none)
    | .error _ =>
      match value.AsTemplateData2 lib with
      | .ok v => (some (.float lib.TemplateData2 v), none)
      | .error e => (none, some e)

/-- One turn of the loop over `*data.TemplateData` in `mapIncarnation`. -/
def mapTemplateDataStep (lib : Lib) (acc : List (String × GoValue) × Option GoError)
    (entry : String × TemplateDataUnion) : List (String × GoValue) × Option GoError :=
  match decodeTemplateDatum lib entry.2 with
  | (some templateDatum, newErr) => (mapSet acc.1 entry.1 templateDatum, Join acc.2 newErr)
  | (none, newErr) => (acc.1, Join acc.2 newErr)

/-- The function `mapIncarnation`. The two required pointers are dereferenced
while the struct literal is built, a nil one is a panic. -/
def mapIncarnation (lib : Lib) (body : Body) : Outcome (Incarnation × Option GoError) :=
  match lib.DecodeIncarnation body with
  | .error e => .ret (Incarnation.zero, some (.withStack e))
  | .ok data =>
    match data.TemplateRepository, data.TemplateRepositoryVersion with
    | none, _ => .fault "invalid memory address or nil pointer dereference"
    | some _, none => .fault "invalid memory address or nil pointer dereference"
    | some templateRepository, some templateRepositoryVersion =>
      let inc : Incarnation :=
        { Id := sprintfD data.Id
          IncarnationRepository := data.IncarnationRepository
          TargetDirectory := data.TargetDirectory
          TemplateData := []
          TemplateRepository := templateRepository
          TemplateRepositoryVersion := templateRepositoryVersion
          MergeRequestUrl := data.MergeRequestUrl
          CommitSha := data.CommitSha
          CommitUrl := data.CommitUrl
          MergeRequestStatus := none
          MergeRequestId := data.MergeRequestId }
      let inc : Incarnation :=
        match data.MergeRequestStatus with
        | some (.str status) => { inc with MergeRequestStatus := some status }
        | _ => inc
      match data.TemplateData with
      | none => .ret (inc, none)
      | some templateData =>
        let r := templateData.foldl (mapTemplateDataStep lib) (inc.TemplateData, none)
        .ret ({ inc with TemplateData := r.1 }, r.2)

/-- The method `GetIncarnation`. -/
def client.GetIncarnation (c : client) (lib : Lib) (ctx : Context) (id : IncarnationId)
    (w : World) : Outcome (Incarnation × Option GoError) × World :=
  match Atoi id with
  | .error e => (.ret (Incarnation.zero, WithStack (some e)), w)
  | .ok idInt =>
    match c.impl.call ctx (.get idInt) w with
    | (.error e, w1) => (.ret (Incarnation.zero, WithStack (some e)), w1)
    | (.ok resp, w1) =>
      match WithStack (checkResponseStatus lib StatusOK resp) with
      | some e => (.ret (Incarnation.zero, some e), w1)
      | none => (mapIncarnation lib resp.Body, w1)

/-- The method `GetIncarnationWithMergeRequestStatus`. The loop has no bound
of its own, so the model takes the number of turns it may make and is `none`
when they do not suffice. -/
def client.GetIncarnationWithMergeRequestStatus (c : client) (lib : Lib) (ctx : Context)
    (id : IncarnationId) (status : String) :
    Nat → World → Option (Outcome (Incarnation × Option GoError) × World)
  | 0, _ => none
  | fuel + 1, w =>
    match c.GetIncarnation lib ctx id w with
    | (.fault msg, w1) => some (.fault msg, w1)
    | (.ret (inc, some err), w1) => some (.ret (inc, some err), w1)
    | (.ret (inc, none), w1) =>
      if inc.MergeRequestId = none then some (.ret (inc, none), w1)
      else if inc.MergeRequestStatus = some status then some (.ret (inc, none), w1)
      else client.GetIncarnationWithMergeRequestStatus c lib ctx id status fuel (sleepSecond w1)

/-- One turn of the loop over `req.TemplateData` of `CreateIncarnation` and
`UpdateIncarnation`: the chain of type assertions on the value, the setter of
the first type that matches, its error joined to `err`; a value of another
type leaves the union empty and `err` as it is. -/
def encodeTemplateDataStep (lib : Lib) (acc : List (String × TemplateDataUnion) × Option GoError)
    (entry : String × GoValue) : List (String × TemplateDataUnion) × Option GoError :=
  match entry.2 with
  | .str value =>
    let r := TemplateDataUnion.From (lib.MarshalString value)
    (mapSet acc.1 entry.1 r.1, Join acc.2 r.2)
  | .int value =>
    let r := TemplateDataUnion.From (lib.MarshalInt value)
    (mapSet acc.1 entry.1 r.1, Join acc.2 r.2)
  | .float kind value =>
    if kind = lib.TemplateData2 then
      let r := TemplateDataUnion.From (lib.MarshalFloat value)
      (mapSet acc.1 entry.1 r.1, Join acc.2 r.2)
    else (mapSet acc.1 entry.1 { union := none }, acc.2)
  | _ => (mapSet acc.1 entry.1 { union := none }, acc.2)

/-- The loop over `req.TemplateData` of `CreateIncarnation` and `UpdateIncarnation`. -/
def encodeTemplateData (lib : Lib) (templateData : List (String × GoValue)) :
    List (String × TemplateDataUnion) × Option GoError :=
  templateData.foldl (encodeTemplateDataStep lib) ([], none)

/-- The variable `body` of `CreateIncarnation` once the loop over the
template data has run. -/
def createBody (lib : Lib) (req : CreateIncarnationRequest) : CreateBody :=
  { IncarnationRepository := req.IncarnationRepository
    TargetDirectory := req.TargetDirectory
    TemplateData := (encodeTemplateData lib req.TemplateData).1
    TemplateRepository := req.TemplateRepository
    TemplateRepositoryVersion := req.TemplateRepositoryVersion }

/-- The variable `body` of `UpdateIncarnation` once the loop over the
template data has run. -/
def updateBody (lib : Lib) (req : UpdateIncarnationRequest) : UpdateBody :=
  { Automerge := req.AutoMerge
    TemplateData := (encodeTemplateData lib req.TemplateData).1
    TemplateRepositoryVersion := req.TemplateRepositoryVersion }

/-- The method `CreateIncarnation`. -/
def client.CreateIncarnation (c : client) (lib : Lib) (ctx : Context)
    (req : CreateIncarnationRequest) (w : World) : Outcome (Incarnation × Option GoError) × World :=
  let enc := encodeTemplateData lib req.TemplateData
  let body := createBody lib req
  match enc.2 with
  | some e => (.ret (Incarnation.zero, WithStack (some e)), w)
  | none =>
    match c.impl.call ctx (.post body) w with
    | (.error e, w1) => (.ret (Incarnation.zero, WithStack (some e)), w1)
    | (.ok resp, w1) =>
      match WithStack (checkResponseStatus lib StatusCreated resp) with
      | some e => (.ret (Incarnation.zero, some e), w1)
      | none => (mapIncarnation lib resp.Body, w1)

/-- The method `UpdateIncarnation`: the template data is encoded before the
identifier is converted. -/
def client.UpdateIncarnation (c : client) (lib : Lib) (ctx : Context) (id : IncarnationId)
    (req : UpdateIncarnationRequest) (w : World) : Outcome (Incarnation × Option GoError) × World :=
  let enc := encodeTemplateData lib req.TemplateData
  let body := updateBody lib req
  match enc.2 with
  | some e => (.ret (Incarnation.zero, WithStack (some e)), w)
  | none =>
    match Atoi id with
    | .error e => (.ret (Incarnation.zero, WithStack (some e)), w)
    | .ok idInt =>
      match c.impl.call ctx (.put idInt body) w with
      | (.error e, w1) => (.ret (Incarnation.zero, WithStack (some e)), w1)
      | (.ok resp, w1) =>
        match WithStack (checkResponseStatus lib StatusOK resp) with
        | some e => (.ret (Incarnation.zero, some e), w1)
        | none => (mapIncarnation lib resp.Body, w1)

/-- The method `DeleteIncarnation`. -/
def client.DeleteIncarnation (c : client) (lib : Lib) (ctx : Context) (id : IncarnationId)
    (w : World) : Option GoError × World :=
  match Atoi id with
  | .error e => (WithStack (some e), w)
  | .ok idInt =>
    match c.impl.call ctx (.delete idInt) w with
    | (.error e, w1) => (WithStack (some e), w1)
    | (.ok resp, w1) => (WithStack (checkResponseStatus lib StatusNoContent resp), w1)

/-! ## The plugin framework: diagnostics, attribute values, state -/

/-- Severity of a diagnostic. -/
inductive Severity where
  | error
  | warning
  deriving DecidableEq, Repr

/-- A diagnostic of the framework; an attribute diagnostic also holds the
path of its attribute. -/
structure Diagnostic where
  severity : Severity
  summary : String
  detail : String
  path : Option String := none
  deriving DecidableEq, Repr

/-- The type `diag.Diagnostics`, a slice of diagnostics. -/
abbrev Diagnostics := List Diagnostic

/-- The method `Append`: diagnostics already present are skipped. -/
def Diagnostics.Append (diags : Diagnostics) (more : Diagnostics) : Diagnostics :=
  more.foldl (fun acc d => if d ∈ acc then acc else acc ++ [d]) diags

/-- The method `AddError`. -/
def Diagnostics.AddError (diags : Diagnostics) (summary detail : String) : Diagnostics :=
  Diagnostics.Append diags [{ severity := .error, summary := summary, detail := detail }]

/-- The method `HasError`. -/
def Diagnostics.HasError (diags : Diagnostics) : Bool :=
  diags.any (fun d => d.severity = .error)

/-- The type `types.String`; its zero value is null. -/
inductive TfString where
  | null
  | unknown
  | value (s : String)
  deriving DecidableEq, Repr, Inhabited

/-- The method `ValueString`. -/
def TfString.ValueString : TfString → String
  | .value s => s
  | _ => ""

/-- The method `IsNull`. -/
def TfString.IsNull : TfString → Bool
  | .null => true
  | _ => false

/-- The method `IsUnknown`. -/
def TfString.IsUnknown : TfString → Bool
  | .unknown => true
  | _ => false

/-- The type `types.Bool`. -/
inductive TfBool where
  | null
  | unknown
  | value (b : Bool)
  deriving DecidableEq, Repr, Inhabited

/-- The method `ValueBool`. -/
def TfBool.ValueBool : TfBool → Bool
  | .value b => b
  | _ => false

/-- The method `IsNull` of `types.Bool`. -/
def TfBool.IsNull : TfBool → Bool
  | .null => true
  | _ => false

/-- An element of a map attribute (`attr.Value`): a `types.String` or a
value of another attribute type. -/
inductive AttrValue where
  | string (s : TfString)
  | other (typeName : String)
  deriving DecidableEq, Repr

/-- The type `types.Map`. -/
inductive TfMap where
  | null
  | unknown
  | value (elements : List (String × AttrValue))
  deriving DecidableEq, Repr, Inhabited

/-- The method `IsNull` of `types.Map`. -/
def TfMap.IsNull : TfMap → Bool
  | .null => true
  | _ => false

/-- The method `Elements`. -/
def TfMap.Elements : TfMap → List (String × AttrValue)
  | .value elements => elements
  | _ => []

/-- The call `types.MapValueFrom(ctx, types.StringType, m)` on a
`map[string]string`, which cannot fail: the map of string values and no
diagnostics. -/
def MapValueFrom (m : List (String × String)) : TfMap × Diagnostics :=
  (.value (m.map (fun kv => (kv.1, AttrValue.string (.value kv.2)))), [])

/-- The struct `waitForStatusMRModel`. -/
structure waitForStatusMRModel where
  Status : TfString
  Timeout : TfString
  deriving DecidableEq, Repr

/-- The struct `incarnationDatasourceModel`. -/
structure incarnationDatasourceModel where
  Id : TfString
  IncarnationRepository : TfString
  TargetDirectory : TfString
  TemplateData : TfMap
  TemplateRepository : TfString
  TemplateRepositoryVersion : TfString
  MergeRequestUrl : TfString
  CommitSha : TfString
  CommitUrl : TfString
  MergeRequestStatus : TfString
  MergeRequestId : TfString
  WaitForMRStatus : Option waitForStatusMRModel
  deriving DecidableEq, Repr

/-- The struct `incarnationResourceModel`. -/
structure incarnationResourceModel where
  Id : TfString
  IncarnationRepository : TfString
  TargetDirectory : TfString
  TemplateData : TfMap
  TemplateRepository : TfString
  TemplateRepositoryVersion : TfString
  MergeRequestUrl : TfString
  CommitSha : TfString
  CommitUrl : TfString
  MergeRequestStatus : TfString
  MergeRequestId : TfString
  WaitForMRStatus : Option waitForStatusMRModel
  AutoMerge : TfBool
  deriving DecidableEq, Repr

/-- The state of the framework (`tfsdk.State`) behind a response, for a model
type `μ`: `Set` writes a model and reports diagnostics, `RemoveResource`
drops the resource. -/
structure StateStore (μ τ : Type) where
  Set : μ → τ → Diagnostics × τ
  RemoveResource : τ → τ

/-- The part of a response of the framework the callbacks work on. -/
structure Resp (τ : Type) where
  Diagnostics : Diagnostics
  State : τ

/-- What `req.Config.Get`, `req.State.Get` and `req.Plan.Get` deliver: the
decoded model and the diagnostics of the decoding. -/
structure Decoded (μ : Type) where
  data : μ
  diags : Diagnostics

/-- The interface `FoxopsClient`, for an implementation with a state of type `σ`. -/
structure FoxopsClient (σ : Type) where
  GetIncarnation : Context → IncarnationId → σ → (Incarnation × Option GoError) × σ
  GetIncarnationWithMergeRequestStatus :
    Context → IncarnationId → String → σ → (Incarnation × Option GoError) × σ
  CreateIncarnation : Context → CreateIncarnationRequest → σ → (Incarnation × Option GoError) × σ
  UpdateIncarnation :
    Context → IncarnationId → UpdateIncarnationRequest → σ → (Incarnation × Option GoError) × σ
  DeleteIncarnation : Context → IncarnationId → σ → Option GoError × σ

/-! ## `internal/provider/helpers.go` -/

/-- The constant `time.Second`, in nanoseconds. -/
def Second : Int := 1000000000

/-- The frame of `getIncarnation` when it returns. The function receives
`diags` by value (`diag.Diagnostics` is a slice type, `AddError` has a pointer
receiver and assigns to the variable it is called on), so the diagnostics it
adds are in its own copy, `diags` here; the caller gets `inc` and the effects
on the client, and keeps the slice it passed. -/
structure GetIncarnationFrame (σ : Type) where
  inc : Incarnation
  diags : Diagnostics
  world : σ

/-- The function `getIncarnation` (the calls of `tflog.Info` only log). -/
def getIncarnation {σ : Type} (lib : Lib) (ctx : Context) (client : FoxopsClient σ)
    (diags : Diagnostics) (id : IncarnationId) (waitForStatus : Option waitForStatusMRModel)
    (s : σ) : GetIncarnationFrame σ :=
  match waitForStatus with
  | none =>
    match client.GetIncarnation ctx id s with
    | ((inc, some err), s1) =>
      { inc := inc, diags := diags.AddError "failed to retrieve incarnation" err.Error, world := s1 }
    | ((inc, none), s1) => { inc := inc, diags := diags, world := s1 }
  | some wait =>
    let parsed : Except GoError Int :=
      if !wait.Timeout.IsNull then lib.ParseDuration wait.Timeout.ValueString
      else .ok (10 * Second)
    match parsed with
    | .error err =>
      { inc := Incarnation.zero, diags := diags.AddError "invalid timeout" err.Error, world := s }
    | .ok timeout =>
      let status := wait.Status.ValueString
      let timeoutCtx := Context.withTimeout ctx timeout
      match client.GetIncarnationWithMergeRequestStatus timeoutCtx id status s with
      | ((inc, some err), s1) =>
        if err.Is DeadlineExceeded then
          { inc := inc
            diags := diags.AddError
              "operation timed out before the merge request status reached the expected status"
              err.Error
            world := s1 }
        else
          { inc := inc, diags := diags.AddError "failed to retrieve incarnation" err.Error, world := s1 }
      | ((inc, none), s1) => { inc := inc, diags := diags, world := s1 }

/-! ## `internal/provider/data_incarnation.go` and `resource_incarnation.go` -/

/-- The type switch that fills `templateData` in `setState` and in the
`Read` of the data source: a `string`, an `int` and a `float64` are kept, a
value of another type adds no entry. -/
def templateDataStrings (lib : Lib) (templateData : List (String × GoValue)) : List (String × String) :=
  templateData.foldl
    (fun acc kv =>
      match kv.2 with
      | .str value => mapSet acc kv.1 value
      | .int value => mapSet acc kv.1 (sprintfD value)
      | .float .float64 value => mapSet acc kv.1 (lib.SprintfF value)
      | _ => acc)
    []

/-- The statement `if p != nil { field = types.StringValue(*p) }`. -/
def assignIfSet (p : Option String) (field : TfString) : TfString :=
  match p with
  | some s => .value s
  | none => field

/-- The struct `incarnationDataSource`. -/
structure incarnationDataSource (σ : Type) where
  client : FoxopsClient σ

/-- The struct `incarnationResource`. -/
structure incarnationResource (σ : Type) where
  client : FoxopsClient σ

/-- The method `Read` of the data source. -/
def incarnationDataSource.Read {σ τ : Type} (lib : Lib) (ds : incarnationDataSource σ)
    (store : StateStore incarnationDatasourceModel τ) (ctx : Context)
    (config : Decoded incarnationDatasourceModel) (resp : Resp τ) (s : σ) : Resp τ × σ :=
  let resp : Resp τ := { resp with Diagnostics := resp.Diagnostics.Append config.diags }
  if resp.Diagnostics.HasError then (resp, s)
  else
    let data := config.data
    let id := data.Id.ValueString
    let frame := getIncarnation lib ctx ds.client resp.Diagnostics id data.WaitForMRStatus s
    let inc := frame.inc
    if resp.Diagnostics.HasError then (resp, frame.world)
    else
      let m := MapValueFrom (templateDataStrings lib inc.TemplateData)
      let data : incarnationDatasourceModel :=
        { data with
          Id := .value inc.Id
          IncarnationRepository := .value inc.IncarnationRepository
          TargetDirectory := .value inc.TargetDirectory
          CommitSha := .value inc.CommitSha
          CommitUrl := .value inc.CommitUrl
          TemplateRepository := .value inc.TemplateRepository
          TemplateRepositoryVersion := .value inc.TemplateRepositoryVersion
          MergeRequestId := assignIfSet inc.MergeRequestId data.MergeRequestId
          MergeRequestUrl := assignIfSet inc.MergeRequestUrl data.MergeRequestUrl
          MergeRequestStatus := assignIfSet inc.MergeRequestStatus data.MergeRequestStatus
          TemplateData := m.1 }
      let resp : Resp τ := { resp with Diagnostics := resp.Diagnostics.Append m.2 }
      if resp.Diagnostics.HasError then (resp, frame.world)
      else
        let r := store.Set data resp.State
        ({ Diagnostics := resp.Diagnostics.Append r.1, State := r.2 }, frame.world)

/-- The method `setState` of the resource: the diagnostics it returns and the
state after it. -/
def incarnationResource.setState {τ : Type} (lib : Lib)
    (setter : StateStore incarnationResourceModel τ) (inc : Incarnation) (st : τ) : Diagnostics × τ :=
  let m := MapValueFrom (templateDataStrings lib inc.TemplateData)
  let data : incarnationResourceModel :=
    { Id := .value inc.Id
      IncarnationRepository := .value inc.IncarnationRepository
      TemplateRepositoryVersion := .value inc.TemplateRepositoryVersion
      TemplateRepository := .value inc.TemplateRepository
      TargetDirectory := .value inc.TargetDirectory
      CommitSha := .value inc.CommitSha
      CommitUrl := .value inc.CommitUrl
      MergeRequestId := assignIfSet inc.MergeRequestId .null
      MergeRequestUrl := assignIfSet inc.MergeRequestUrl .null
      MergeRequestStatus := assignIfSet inc.MergeRequestStatus .null
      TemplateData := m.1
      WaitForMRStatus := none
      AutoMerge := .null }
  let diags : Diagnostics := m.2
  let diags := diags.Append diags
  if diags.HasError then (diags, st)
  else
    let r := setter.Set data st
    (diags.Append r.1, r.2)

/-- The method `Read` of the resource. -/
def incarnationResource.Read {σ τ : Type} (lib : Lib) (r : incarnationResource σ)
    (store : StateStore incarnationResourceModel τ) (ctx : Context)
    (state : Decoded incarnationResourceModel) (resp : Resp τ) (s : σ) : Resp τ × σ :=
  let resp : Resp τ := { resp with Diagnostics := resp.Diagnostics.Append state.diags }
  if resp.Diagnostics.HasError then (resp, s)
  else
    let data := state.data
    if data.Id.ValueString = "" then ({ resp with State := store.RemoveResource resp.State }, s)
    else
      let id := data.Id.ValueString
      let frame := getIncarnation lib ctx r.client resp.Diagnostics id data.WaitForMRStatus s
      if resp.Diagnostics.HasError then (resp, frame.world)
      else
        let set := incarnationResource.setState lib store frame.inc resp.State
        ({ Diagnostics := resp.Diagnostics.Append set.1, State := set.2 }, frame.world)

/-- The loop of `Create` and `Update` over the elements of the planned
template data: the `types.String` elements, as Go strings. -/
def planTemplateData (elements : List (String × AttrValue)) : List (String × GoValue) :=
  elements.foldl
    (fun acc kv =>
      match kv.2 with
      | .string value => mapSet acc kv.1 (GoValue.str value.ValueString)
      | _ => acc)
    []

/-- The method `Update` of the resource. -/
def incarnationResource.Update {σ τ : Type} (lib : Lib) (r : incarnationResource σ)
    (store : StateStore incarnationResourceModel τ) (ctx : Context)
    (plan : Decoded incarnationResourceModel) (resp : Resp τ) (s : σ) : Resp τ × σ :=
  let resp : Resp τ := { resp with Diagnostics := resp.Diagnostics.Append plan.diags }
  if resp.Diagnostics.HasError then (resp, s)
  else
    let data := plan.data
    let updateIncarnationRequest : UpdateIncarnationRequest :=
      { AutoMerge := if !data.AutoMerge.IsNull then data.AutoMerge.ValueBool else true
        TemplateData := if !data.TemplateData.IsNull then planTemplateData data.TemplateData.Elements else []
        TemplateRepositoryVersion := data.TemplateRepositoryVersion.ValueString }
    match r.client.UpdateIncarnation ctx data.Id.ValueString updateIncarnationRequest s with
    | ((_, some err), s1) =>
      ({ resp with Diagnostics := resp.Diagnostics.AddError "failed to update incarnation" err.Error }, s1)
    | ((inc, none), s1) =>
      let set := incarnationResource.setState lib store inc resp.State
      let resp : Resp τ := { Diagnostics := resp.Diagnostics.Append set.1, State := set.2 }
      if resp.Diagnostics.HasError then (resp, s1)
      else
        let frame := getIncarnation lib ctx r.client resp.Diagnostics inc.Id data.WaitForMRStatus s1
        let inc := frame.inc
        if resp.Diagnostics.HasError then (resp, frame.world)
        else
          let set := incarnationResource.setState lib store inc resp.State
          ({ Diagnostics := resp.Diagnostics.Append set.1, State := set.2 }, frame.world)

/-- The method `ValueStringPointer`: nil for a null value, a pointer to the
empty string for an unknown one. -/
def TfString.ValueStringPointer : TfString → Option String
  | .null => none
  | .unknown => some ""
  | .value s => some s

/-- The method `Create` of the resource. -/
def incarnationResource.Create {σ τ : Type} (lib : Lib) (r : incarnationResource σ)
    (store : StateStore incarnationResourceModel τ) (ctx : Context)
    (config : Decoded incarnationResourceModel) (resp : Resp τ) (s : σ) : Resp τ × σ :=
  let resp : Resp τ := { resp with Diagnostics := resp.Diagnostics.Append config.diags }
  if resp.Diagnostics.HasError then (resp, s)
  else
    let data := config.data
    let createIncarnationRequest : CreateIncarnationRequest :=
      { IncarnationRepository := data.IncarnationRepository.ValueString
        TargetDirectory := data.TargetDirectory.ValueStringPointer
        TemplateRepository := data.TemplateRepository.ValueString
        AutoMerge := false
        TemplateData := if !data.TemplateData.IsNull then planTemplateData data.TemplateData.Elements else []
        TemplateRepositoryVersion := data.TemplateRepositoryVersion.ValueString }
    match r.client.CreateIncarnation ctx createIncarnationRequest s with
    | ((_, some err), s1) =>
      ({ resp with Diagnostics := resp.Diagnostics.AddError "failed to create incarnation" err.Error }, s1)
    | ((inc, none), s1) =>
      let set := incarnationResource.setState lib store inc resp.State
      ({ Diagnostics := resp.Diagnostics.Append set.1, State := set.2 }, s1)

/-- The method `Delete` of the resource. -/
def incarnationResource.Delete {σ τ : Type} (r : incarnationResource σ) (ctx : Context)
    (state : Decoded incarnationResourceModel) (resp : Resp τ) (s : σ) : Resp τ × σ :=
  let resp : Resp τ := { resp with Diagnostics := resp.Diagnostics.Append state.diags }
  if resp.Diagnostics.HasError then (resp, s)
  else
    let data := state.data
    match r.client.DeleteIncarnation ctx data.Id.ValueString s with
    | (some err, s1) =>
      ({ resp with Diagnostics := resp.Diagnostics.AddError "failed to delete incarnation" err.Error }, s1)
    | (none, s1) => (resp, s1)

/-! ## The validators of the wait block (`waitForSchema`) -/

/-- The part of the syntax of `regexp` the program uses: `\d`, a character
class such as `[smh]`, a sequence of two expressions, and `x+`; a group
`(x)` matches as `x` does. -/
inductive Regexp where
  | digit
  | charClass (cs : List Char)
  | concat (a b : Regexp)
  | plus (a : Regexp)
  deriving Repr

/-- What is left of the input after one or more matches in a row, each
found by `step`; the number of rounds is bounded by the first argument. -/
def plusRests (step : List Char → List (List Char)) : Nat → List Char → List (List Char)
  | 0, _ => []
  | fuel + 1, s => (step s).flatMap (fun r => r :: plusRests step fuel r)

/-- What is left of the input after a match of the expression at its start,
for every such match. -/
def Regexp.rests : Regexp → List Char → List (List Char)
  | .digit, [] => []
  | .digit, c :: cs => if c.isDigit then [cs] else []
  | .charClass _, [] => []
  | .charClass l, c :: cs => if c ∈ l then [cs] else []
  | .concat a b, s => (a.rests s).flatMap (fun r => b.rests r)
  | .plus a, s => plusRests (fun r => a.rests r) (s.length + 1) s

/-- The method `MatchString`: the string contains a match of the expression,
at any place. -/
def Regexp.MatchString (re : Regexp) (s : String) : Bool :=
  s.toList.tails.any (fun t => !(re.rests t).isEmpty)

/-- The validator `stringvalidator.OneOf(values...)`: `true` when it adds no
diagnostic. A null or unknown value is not validated. -/
def OneOf (values : List String) (v : TfString) : Bool :=
  match v with
  | .value s => decide (s ∈ values)
  | _ => true

/-- The validator `stringvalidator.RegexMatches(re, message)`: `true` when it
adds no diagnostic. A null or unknown value is not validated. -/
def RegexMatches (re : Regexp) (v : TfString) : Bool :=
  match v with
  | .value s => re.MatchString s
  | _ => true

/-- The description of the attribute `status` of `waitForSchema`. -/
def waitForSchemaStatusDescription : String :=
  "The expected status for the merge request. Can be one of `open`, `merge`, `closed` or `unknown`."

/-- The validator of the attribute `status` of `waitForSchema`. -/
def waitForSchemaStatusValidator : TfString → Bool :=
  OneOf ["open", "merged", "closed", "unknown"]

/-- The expression `(\d+[smh])+` of the validator of `timeout`. -/
def waitForSchemaTimeoutRegexp : Regexp :=
  .plus (.concat (.plus .digit) (.charClass ['s', 'm', 'h']))

/-- The validator of the attribute `timeout` of `waitForSchema`. -/
def waitForSchemaTimeoutValidator : TfString → Bool :=
  RegexMatches waitForSchemaTimeoutRegexp

/-! ## `internal/provider/provider.go` -/

/-- The plan modifiers of `stringplanmodifier` the schema uses. -/
inductive StringPlanModifier where
  | UseStateForUnknown
  | RequiresReplace
  | RequiresReplaceIfConfigured
  deriving DecidableEq, Repr

/-- A `schema.StringAttribute` of the resource, with the field of the model
its value is decoded into. -/
structure StringAttribute where
  name : String
  Required : Bool
  Optional : Bool
  Computed : Bool
  PlanModifiers : List StringPlanModifier
  get : incarnationResourceModel → TfString
  set : incarnationResourceModel → TfString → incarnationResourceModel

/-- The string attributes of the method `Schema` of the resource. (The other
attributes, `template_data`, `auto_merge_on_update` and
`wait_for_mr_status_on_update`, are optional and have no plan modifier.) -/
def incarnationResource.Schema : List StringAttribute :=
  [ { name := "id", Required := false, Optional := false, Computed := true
      PlanModifiers := [.UseStateForUnknown]
      get := fun m => m.Id, set := fun m v => { m with Id := v } },
    { name := "incarnation_repository", Required := true, Optional := false, Computed := false
      PlanModifiers := [.RequiresReplace]
      get := fun m => m.IncarnationRepository, set := fun m v => { m with IncarnationRepository := v } },
    { name := "target_directory", Required := false, Optional := true, Computed := true
      PlanModifiers := [.RequiresReplaceIfConfigured]
      get := fun m => m.TargetDirectory, set := fun m v => { m with TargetDirectory := v } },
    { name := "template_repository", Required := true, Optional := false, Computed := false
      PlanModifiers := [.RequiresReplace]
      get := fun m => m.TemplateRepository, set := fun m v => { m with TemplateRepository := v } },
    { name := "template_repository_version", Required := true, Optional := false, Computed := false
      PlanModifiers := []
      get := fun m => m.TemplateRepositoryVersion
      set := fun m v => { m with TemplateRepositoryVersion := v } },
    { name := "merge_request_url", Required := false, Optional := false, Computed := true
      PlanModifiers := []
      get := fun m => m.MergeRequestUrl, set := fun m v => { m with MergeRequestUrl := v } },
    { name := "commit_sha", Required := false, Optional := false, Computed := true
      PlanModifiers := []
      get := fun m => m.CommitSha, set := fun m v => { m with CommitSha := v } },
    { name := "commit_url", Required := false, Optional := false, Computed := true
      PlanModifiers := []
      get := fun m => m.CommitUrl, set := fun m v => { m with CommitUrl := v } },
    { name := "merge_request_status", Required := false, Optional := false, Computed := true
      PlanModifiers := []
      get := fun m => m.MergeRequestStatus, set := fun m v => { m with MergeRequestStatus := v } },
    { name := "merge_request_id", Required := false, Optional := false, Computed := true
      PlanModifiers := []
      get := fun m => m.MergeRequestId, set := fun m v => { m with MergeRequestId := v } } ]

/-- The method `PlanModifyString` of a plan modifier, for a resource that
exists and is not destroyed: the plan value it leaves and whether it requires
replacement. `UseStateForUnknown` puts the state value in the place of an
unknown plan value; `RequiresReplace` asks for replacement when plan and state
value differ, `RequiresReplaceIfConfigured` when they differ and the
configuration value is not null. -/
def StringPlanModifier.PlanModifyString (m : StringPlanModifier) (state config plan : TfString) :
    TfString × Bool :=
  match m with
  | .UseStateForUnknown =>
    if state.IsNull then (plan, false)
    else if !plan.IsUnknown then (plan, false)
    else if config.IsUnknown then (plan, false)
    else (state, false)
  | .RequiresReplace => (plan, decide (plan ≠ state))
  | .RequiresReplaceIfConfigured => (plan, decide (plan ≠ state) && !config.IsNull)

/-- The plan modification of the framework for the string attributes of a
schema: the modifiers of each attribute run in their order on the plan; the
result is the plan they leave and whether one of them requires replacement. -/
def modifyPlan (schema : List StringAttribute) (state config plan : incarnationResourceModel) :
    incarnationResourceModel × Bool :=
  schema.foldl
    (fun acc a =>
      a.PlanModifiers.foldl
        (fun acc m =>
          let r := m.PlanModifyString (a.get state) (a.get config) (a.get acc.1)
          (a.set acc.1 r.1, acc.2 || r.2))
        acc)
    (plan, false)

/-- What Terraform does to apply a planned change of an existing resource:
when the plan requires replacement, `Delete` on the prior state and then, if
that reported no error, `Create` on the configuration, with a response of its
own and the resource removed from the state; else `Update` on the plan. -/
def applyChange {σ τ : Type} (lib : Lib) (r : incarnationResource σ)
    (store : StateStore incarnationResourceModel τ) (ctx : Context)
    (state config plan : Decoded incarnationResourceModel) (resp : Resp τ) (s : σ) : Resp τ × σ :=
  let planned := modifyPlan incarnationResource.Schema state.data config.data plan.data
  if planned.2 then
    let deleted := incarnationResource.Delete r ctx state resp s
    if deleted.1.Diagnostics.HasError then deleted
    else
      incarnationResource.Create lib r store ctx config
        { Diagnostics := [], State := store.RemoveResource deleted.1.State } deleted.2
  else incarnationResource.Update lib r store ctx { plan with data := planned.1 } resp s

/-! ## Functions used to state the properties -/

/-- One call of a method of `FoxopsClient`, with its arguments. -/
inductive Call where
  | GetIncarnation (ctx : Context) (id : IncarnationId)
  | GetIncarnationWithMergeRequestStatus (ctx : Context) (id : IncarnationId) (status : String)
  | CreateIncarnation (ctx : Context) (req : CreateIncarnationRequest)
  | UpdateIncarnation (ctx : Context) (id : IncarnationId) (req : UpdateIncarnationRequest)
  | DeleteIncarnation (ctx : Context) (id : IncarnationId)
  deriving DecidableEq, Repr

/-- A call that only reads: one of the two methods that fetch an incarnation. -/
def Call.isRead : Call → Bool
  | .GetIncarnation _ _ => true
  | .GetIncarnationWithMergeRequestStatus _ _ _ => true
  | _ => false

/-- The client that answers as `c` does and keeps the list of the calls made
to it, oldest first, as the mock of the tests does. -/
def FoxopsClient.recording {σ : Type} (c : FoxopsClient σ) : FoxopsClient (σ × List Call) where
  GetIncarnation := fun ctx id s =>
    ((c.GetIncarnation ctx id s.1).1, ((c.GetIncarnation ctx id s.1).2, s.2 ++ [.GetIncarnation ctx id]))
  GetIncarnationWithMergeRequestStatus := fun ctx id status s =>
    ((c.GetIncarnationWithMergeRequestStatus ctx id status s.1).1,
      ((c.GetIncarnationWithMergeRequestStatus ctx id status s.1).2,
        s.2 ++ [.GetIncarnationWithMergeRequestStatus ctx id status]))
  CreateIncarnation := fun ctx req s =>
    ((c.CreateIncarnation ctx req s.1).1,
      ((c.CreateIncarnation ctx req s.1).2, s.2 ++ [.CreateIncarnation ctx req]))
  UpdateIncarnation := fun ctx id req s =>
    ((c.UpdateIncarnation ctx id req s.1).1,
      ((c.UpdateIncarnation ctx id req s.1).2, s.2 ++ [.UpdateIncarnation ctx id req]))
  DeleteIncarnation := fun ctx id s =>
    ((c.DeleteIncarnation ctx id s.1).1,
      ((c.DeleteIncarnation ctx id s.1).2, s.2 ++ [.DeleteIncarnation ctx id]))

/-- The world in which the call number `n + 1` of `GetIncarnation` made by
the polling loop starts, when none of the first `n` calls ended the loop:
each of them was followed by one sleep. -/
def pollWorld (c : client) (lib : Lib) (ctx : Context) (id : IncarnationId) : Nat → World → World
  | 0, w => w
  | n + 1, w => pollWorld c lib ctx id n (sleepSecond (c.GetIncarnation lib ctx id w).2)

/-- The result of the call number `n + 1` of `GetIncarnation` in the polling loop. -/
def pollResult (c : client) (lib : Lib) (ctx : Context) (id : IncarnationId) (n : Nat) (w : World) :
    Outcome (Incarnation × Option GoError) :=
  (c.GetIncarnation lib ctx id (pollWorld c lib ctx id n w)).1

/-- The world after the call number `n + 1` of `GetIncarnation` in the polling loop. -/
def pollWorldAfter (c : client) (lib : Lib) (ctx : Context) (id : IncarnationId) (n : Nat) (w : World) :
    World :=
  (c.GetIncarnation lib ctx id (pollWorld c lib ctx id n w)).2

/-- A result of `GetIncarnation` after which the polling loop sleeps and calls
again: a success that carries a merge-request id and whose merge-request
status is not the desired one. -/
def keepsPolling (status : String) : Outcome (Incarnation × Option GoError) → Bool
  | .ret (inc, none) => inc.MergeRequestId.isSome && decide (inc.MergeRequestStatus ≠ some status)
  | _ => false

/-- A text occurs in another one. -/
def containsText (hay needle : String) : Bool :=
  hay.toList.tails.any (fun t => needle.toList.isPrefixOf t)

/-- The message of the error a status mismatch is reported with. -/
def mismatchText (actual expected : Int) (inner : String) : String :=
  "unexpected status code " ++ sprintfD actual ++ ", wants " ++ sprintfD expected ++ ": " ++ inner

/-- The lookup `m[key]` on a map kept as a list of pairs. -/
def mapGet {α : Type} : List (String × α) → String → Option α
  | [], _ => none
  | (k, v) :: rest, key => if k = key then some v else mapGet rest key

/-- The keys of a map kept as a list of pairs. -/
def mapKeys {α : Type} (m : List (String × α)) : List String := m.map Prod.fst

/-- The union the loop of `CreateIncarnation` and `UpdateIncarnation` stores
for a value: the result of the setter of the first type assertion that holds,
the empty union when none does. -/
def encodedUnion (lib : Lib) : GoValue → TemplateDataUnion
  | .str value => (TemplateDataUnion.From (lib.MarshalString value)).1
  | .int value => (TemplateDataUnion.From (lib.MarshalInt value)).1
  | .float kind value =>
    if kind = lib.TemplateData2 then (TemplateDataUnion.From (lib.MarshalFloat value)).1
    else { union := none }
  | _ => { union := none }

/-- The three accessors of a union all report an error. -/
def failsAllAccessors (lib : Lib) (value : TemplateDataUnion) : Bool :=
  match value.AsTemplateData0 lib, value.AsTemplateData1 lib, value.AsTemplateData2 lib with
  | .error _, .error _, .error _ => true
  | _, _, _ => false

/-- The error of the last accessor of a union, if it reports one. -/
def lastAccessorError (lib : Lib) (value : TemplateDataUnion) : Option GoError :=
  match value.AsTemplateData2 lib with
  | .error e => some e
  | .ok _ => none

/-- The merge-request status a decoded `interface{}` gives: the string it
holds, nil when the pointer is nil or the value is not a string. -/
def stringStatus : Option GoValue → Option String
  | some (.str status) => some status
  | _ => none

/-- The template data and the error the loop of `mapIncarnation` ends with
for the decoded template data (an absent field is an empty loop). -/
def mappedTemplateData (lib : Lib) (data : IncarnationWithDetails) :
    List (String × GoValue) × Option GoError :=
  (data.TemplateData.getD []).foldl (mapTemplateDataStep lib) ([], none)

/-- The errors a joined error holds: the errors under its `join` nodes. -/
def joinLeaves : GoError → List GoError
  | .join1 a => joinLeaves a
  | .join2 a b => joinLeaves a ++ joinLeaves b
  | .leaf msg => [.leaf msg]
  | .wrap pre cause => [.wrap pre cause]
  | .fundamental msg => [.fundamental msg]
  | .withStack cause => [.withStack cause]
  | .withMessage cause msg => [.withMessage cause msg]

/-- The errors an error value holds, none for nil. -/
def heldErrors : Option GoError → List GoError
  | none => []
  | some e => joinLeaves e

/-- A value sent under a key by the loop of `CreateIncarnation` and received
back by the loop of `mapIncarnation`: the template data and the error the
second loop ends with when it reads the unions the first loop wrote. -/
def roundTrip (lib : Lib) (key : String) (v : GoValue) : List (String × GoValue) × Option GoError :=
  (encodeTemplateData lib [(key, v)]).1.foldl (mapTemplateDataStep lib) ([], none)

/-! ## `internal/helpers/transport.go` -/

/-- The fields of `http.Request` that identify a request: the headers are a
map from the key in canonical form to its values, in the order they were added. -/
structure HttpRequest where
  Method : String
  URL : String
  Header : List (String × List String)
  Body : String
  deriving DecidableEq, Repr

/-- The method `Add` of `http.Header`, for a key in canonical form (as
"User-Agent" is): the value goes after the values the key has. -/
def HeaderAdd (h : List (String × List String)) (key value : String) : List (String × List String) :=
  mapSet h key ((mapGet h key).getD [] ++ [value])

/-- The constants `runtime.GOOS` and `runtime.GOARCH` of the build. -/
structure Runtime where
  GOOS : String
  GOARCH : String

/-- The struct `transport`; the inner `http.RoundTripper` gives for a request a
result of type `ρ`, the pair of a response and an error. -/
structure transport (ρ : Type) where
  version : String
  HTTPClient : HttpRequest → ρ

/-- The function `NewTransport`. -/
def NewTransport {ρ : Type} (version : String) (httpClient : HttpRequest → ρ) : transport ρ :=
  { version := version, HTTPClient := httpClient }

/-- The text `fmt.Sprintf("Foxops Terraform Provider/%s (%s; %s)", version, GOOS, GOARCH)`. -/
def userAgent (rt : Runtime) (version : String) : String :=
  "Foxops Terraform Provider/" ++ version ++ " (" ++ rt.GOOS ++ "; " ++ rt.GOARCH ++ ")"

/-- The method `RoundTrip` of `transport`: what it returns, and the request
(which it receives by pointer) as it leaves it. -/
def transport.RoundTrip {ρ : Type} (rt : Runtime) (t : transport ρ) (req : HttpRequest) :
    ρ × HttpRequest :=
  let req : HttpRequest :=
    { req with Header := HeaderAdd req.Header "User-Agent" (userAgent rt t.version) }
  (t.HTTPClient req, req)

/-! ## The retrying HTTP client built by `New` (`github.com/hashicorp/go-retryablehttp`) -/

/-- What one attempt of the retrying client meets: the result of
`c.HTTPClient.Do`, the error of the context when the retry policy runs, whether
the policy takes a transport error for recoverable (it does unless the error
is one of too many redirects, of an unsupported scheme or of a certificate),
and the error of the context if it ends during the wait that follows. -/
structure Attempt where
  result : Except GoError Response
  ctxErr : Option GoError
  recoverable : Bool
  waitErr : Option GoError

/-- The field `RetryMax` of `retryablehttp.NewClient()`. -/
def RetryMax : Nat := 4

/-- The status codes the default policy retries: 429, 0 and the codes from
500 on except 501. -/
def retriedStatus (code : Int) : Bool :=
  code == 429 || code == 0 || (decide (code ≥ 500) && code != 501)

/-- The function `retryablehttp.DefaultRetryPolicy`, the `CheckRetry` of
`retryablehttp.NewClient()`: whether to retry, and the error of the check. -/
def DefaultRetryPolicy (a : Attempt) : Bool × Option GoError :=
  match a.ctxErr with
  | some e => (false, some e)
  | none =>
    match a.result with
    | .error _ => (a.recoverable, none)
    | .ok resp => (retriedStatus resp.StatusCode, none)

/-- The method of a request. -/
def Request.Method : Request → String
  | .get _ => "GET"
  | .post _ => "POST"
  | .put _ _ => "PUT"
  | .delete _ => "DELETE"

/-- The field `Op` of the `*url.Error` of `http.Client.Do` for a request: its
method with the first letter in upper case and the others in lower case. -/
def Request.Op : Request → String
  | .get _ => "Get"
  | .post _ => "Post"
  | .put _ _ => "Put"
  | .delete _ => "Delete"

/-- The `*url.Error` in which `http.Client.Do` returns an error of its
transport: its text is the operation, the URL in quotes and the text of the
error, and it unwraps to the error. -/
def urlError (op url : String) (err : GoError) : GoError :=
  .wrap (op ++ " \"" ++ url ++ "\": ") err

/-- The error the retrying client returns when it does not return a response:
`fmt.Errorf("%s %s giving up after %d attempt(s)", req.Method, req.URL, attempt)`,
followed by `": %w"` and the error of the last attempt when there is one. -/
def giveUp (method url : String) (attempts : Nat) (cause : Option GoError) : GoError :=
  match cause with
  | none => .leaf (method ++ " " ++ url ++ " giving up after " ++ toString attempts ++ " attempt(s)")
  | some e =>
    .wrap (method ++ " " ++ url ++ " giving up after " ++ toString attempts ++ " attempt(s): ") e

/-- The loop of the method `Do` of the retrying client for a request with
the given method and URL, from attempt number `i` (counted from 0) with
`remain = RetryMax - i`: the result of `Do` and the number of round trips made. -/
def retryLoop (method url : String) (attempt : Nat → Attempt) :
    Nat → Nat → Except GoError Response × Nat
  | remain, i =>
    let a := attempt i
    let check := DefaultRetryPolicy a
    let doErr : Option GoError :=
      match a.result with
      | .error e => some e
      | .ok _ => none
    let err : Option GoError :=
      match check.2 with
      | some e => some e
      | none => doErr
    if check.1 then
      match remain with
      | 0 => (.error (giveUp method url (i + 1) err), i + 1)
      | r + 1 =>
        match a.waitErr with
        | some e => (.error e, i + 1)
        | none => retryLoop method url attempt r (i + 1)
    else
      match a.result, check.2 with
      | .ok resp, none => (.ok resp, i + 1)
      | _, _ => (.error (giveUp method url (i + 1) err), i + 1)

/-- The method `Do` of the client `retryablehttp.NewClient()`. -/
def retryablehttpDo (method url : String) (attempt : Nat → Attempt) : Except GoError Response × Nat :=
  retryLoop method url attempt RetryMax 0

/-- The function `New`: the client whose `impl` sends each request through
the `http.Client` that `StandardClient()` puts around the retrying client, so
that an error of the retrying client comes back inside a `*url.Error` (the
errors of the retrying client are no `*url.Error`s themselves, so that its
`RoundTrip` passes them on as they are). `url`
stands for the URL the generated client builds from the endpoint for a
request; `attempts` stands for the HTTP client under the retrying one (the
transport that stamps the User-Agent, the logging transport and the base
transport) and gives what each attempt at a request meets. -/
def New (url : Request → String) (attempts : World → Context → Request → Nat → Attempt) : client where
  impl :=
    { respond := fun w ctx req =>
        match (retryablehttpDo req.Method (url req) (attempts w ctx req)).1 with
        | .ok resp => .ok resp
        | .error e => .error (urlError req.Op (url req) e) }

/-- The number of HTTP round trips one call of `impl` makes for a request. -/
def roundTrips (url : Request → String) (attempts : World → Context → Request → Nat → Attempt)
    (w : World) (ctx : Context) (req : Request) : Nat :=
  (retryablehttpDo req.Method (url req) (attempts w ctx req)).2

/-- The whole string is a match of the expression. -/
def Regexp.matchesWhole (re : Regexp) (s : String) : Bool :=
  (re.rests s.toList).any (fun r => r.isEmpty)

/-- The string the type switch of `setState` and of the `Read` of the data
source stores for a value, `none` for a value that matches none of its cases. -/
def switchString (lib : Lib) : GoValue → Option String
  | .str value => some value
  | .int value => some (sprintfD value)
  | .float .float64 value => some (lib.SprintfF value)
  | _ => none

/-! ## Example values

`exampleLib` agrees with the Go library on the inputs the examples below
use: the error object `{"message": m}` for a message without escapes, the
bodies of `exampleBody`, the duration "30s", strings without escapes,
integers, the `float32` values 0, 3 and 3.5, and the `float32` value `NaN`,
which `json.Marshal` refuses. On other inputs it reports an error or gives a
fixed answer. -/

/-- The bits of the `float32` value `NaN`. -/
def float32NaN : GoFloat := { bits := 0x7fc00000 }

/-- The bits of the `float32` value 3.0, which `json.Marshal` writes as `3`. -/
def float32Three : GoFloat := { bits := 0x40400000 }

/-- The bits of the `float32` value 3.5, which `json.Marshal` writes as `3.5`. -/
def float32ThreeAndHalf : GoFloat := { bits := 0x40600000 }

/-- Decoding of `{"message":"..."}` for a message without quote or backslash. -/
def exampleUnmarshalApiError (s : String) : Except GoError ApiError :=
  let pre := "\x7b\"message\":\"".toList
  let suf := "\"\x7d".toList
  let cs := s.toList
  let mid := (cs.drop pre.length).take (cs.length - pre.length - suf.length)
  if pre.isPrefixOf cs && suf.isSuffixOf cs && decide (pre.length + suf.length ≤ cs.length)
      && mid.all (fun ch => ch.toNat != 34 && ch.toNat != 92) then
    .ok { Message := String.mk mid }
  else .error (.leaf "invalid character in error object")

/-- The incarnation of the tests of the client, as the server sends it:
without merge request, or with the merge request 1234 in the given status. -/
def exampleDetails (mergeRequestStatus : Option String) : IncarnationWithDetails :=
  { Id := 1234
    IncarnationRepository := "inc/repo"
    TargetDirectory := "."
    CommitSha := "12345678"
    CommitUrl := "template/repo/commit"
    TemplateRepository := some "template/repo"
    TemplateRepositoryVersion := some "template/repo/version"
    TemplateData := some []
    MergeRequestId := mergeRequestStatus.map (fun _ => "1234")
    MergeRequestUrl := none
    MergeRequestStatus := mergeRequestStatus.map GoValue.str }

/-- The JSON text of `exampleDetails`. -/
def exampleBodyText (mergeRequestStatus : Option String) : String :=
  "\x7b\"commit_sha\":\"12345678\",\"commit_url\":\"template/repo/commit\",\"id\":1234," ++
  "\"incarnation_repository\":\"inc/repo\"," ++
  (match mergeRequestStatus with
   | some status => "\"merge_request_id\":\"1234\",\"merge_request_status\":\"" ++ status ++ "\","
   | none => "") ++
  "\"target_directory\":\".\",\"template_data\":\x7b\x7d,\"template_repository\":\"template/repo\"," ++
  "\"template_repository_version\":\"template/repo/version\"\x7d"

/-- A body with the JSON text of `exampleDetails`, read without error. -/
def exampleBody (mergeRequestStatus : Option String) : Body :=
  { content := exampleBodyText mergeRequestStatus, readErr := none }

/-- The library of the examples. -/
def exampleLib : Lib where
  TemplateData2 := .float32
  ParseDuration := fun s =>
    if s = "30s" then .ok (30 * Second)
    else .error (.leaf ("time: invalid duration \"" ++ s ++ "\""))
  SprintfF := fun f => if f.bits = 0 then "0.000000" else "NaN"
  UnmarshalApiError := exampleUnmarshalApiError
  DecodeIncarnation := fun b =>
    match b.readErr with
    | some e => .error e
    | none =>
      if b.content = exampleBodyText none then .ok (exampleDetails none)
      else if b.content = exampleBodyText (some "open") then .ok (exampleDetails (some "open"))
      else if b.content = exampleBodyText (some "merged") then .ok (exampleDetails (some "merged"))
      else .error (.leaf "unexpected end of JSON input")
  UnmarshalString := fun raw =>
    match raw.toList with
    | ch :: rest =>
      if ch.toNat = 34 ∧ rest.getLast? = some ch ∧
          rest.dropLast.all (fun x => x.toNat != 34 && x.toNat != 92) then
        .ok (String.mk rest.dropLast)
      else .error (.leaf "json: cannot unmarshal into Go value of type string")
    | [] => .error (.leaf "unexpected end of JSON input")
  UnmarshalInt := fun raw =>
    match Atoi raw with
    | .ok n => .ok n
    | .error _ => .error (.leaf "json: cannot unmarshal into Go value of type int")
  UnmarshalFloat := fun raw =>
    if raw = "0" then .ok { bits := 0 }
    else if raw = "3" then .ok float32Three
    else if raw = "3.5" then .ok float32ThreeAndHalf
    else .error (.leaf "json: cannot unmarshal into Go value of type float32")
  MarshalString := fun v => .ok ("\"" ++ v ++ "\"")
  MarshalInt := fun v => .ok (sprintfD v)
  MarshalFloat := fun f =>
    if f = float32NaN then .error (.leaf "json: unsupported value: NaN")
    else if f = float32Three then .ok "3"
    else if f = float32ThreeAndHalf then .ok "3.5"
    else .ok "0"

/-- A server that answers the first request with a merge request that is
open and every later one with a merge request that is merged. -/
def openThenMerged : client where
  impl :=
    { respond := fun w _ _ =>
        match w.requests with
        | [] => .ok { StatusCode := 200, Body := exampleBody (some "open") }
        | _ :: _ => .ok { StatusCode := 200, Body := exampleBody (some "merged") } }

/-- The error of the HTTP client for a request made after the deadline of its
context: a `*url.Error` around `context.DeadlineExceeded`. -/
def exampleDeadlineError : GoError :=
  .wrap "Get \"http://localhost/api/incarnations/1234\": " DeadlineExceeded

/-- A server that answers the first request with a merge request that is
open; the deadline of the context has passed when the second request is made. -/
def openThenDeadline : client where
  impl :=
    { respond := fun w _ _ =>
        match w.requests with
        | [] => .ok { StatusCode := 200, Body := exampleBody (some "open") }
        | _ :: _ => .error exampleDeadlineError }

/-- A server that always answers with the incarnation without merge request. -/
def noMergeRequest : client where
  impl := { respond := fun _ _ _ => .ok { StatusCode := 200, Body := exampleBody none } }

/-- The incarnation the client returns for `exampleDetails`. -/
def exampleIncarnation (mergeRequestStatus : Option String) : Incarnation :=
  { Id := "1234"
    IncarnationRepository := "inc/repo"
    TargetDirectory := "."
    TemplateData := []
    TemplateRepository := "template/repo"
    TemplateRepositoryVersion := "template/repo/version"
    MergeRequestUrl := none
    CommitSha := "12345678"
    CommitUrl := "template/repo/commit"
    MergeRequestStatus := mergeRequestStatus
    MergeRequestId := mergeRequestStatus.map (fun _ => "1234") }

/-- An implementation of `FoxopsClient` that counts the calls made to it:
every read and the deletion fail with the given error and return the zero
incarnation, a creation or an update succeeds with the incarnation 1234. -/
def readsFail (err : GoError) : FoxopsClient Nat where
  GetIncarnation := fun _ _ n => ((Incarnation.zero, some err), n + 1)
  GetIncarnationWithMergeRequestStatus := fun _ _ _ n => ((Incarnation.zero, some err), n + 1)
  CreateIncarnation := fun _ _ n => ((exampleIncarnation none, none), n + 1)
  UpdateIncarnation := fun _ _ _ n => ((exampleIncarnation (some "open"), none), n + 1)
  DeleteIncarnation := fun _ _ n => (some err, n + 1)

/-- A state that keeps every model written to it, oldest first. -/
def recordingStore (μ : Type) : StateStore μ (List μ) where
  Set := fun data st => ([], st ++ [data])
  RemoveResource := fun _ => []

/-- A configuration of the data source: the identifier 1234 and the given
wait block, every computed attribute null. -/
def exampleConfig (wait : Option waitForStatusMRModel) : incarnationDatasourceModel :=
  { Id := .value "1234", IncarnationRepository := .null, TargetDirectory := .null,
    TemplateData := .null, TemplateRepository := .null, TemplateRepositoryVersion := .null,
    MergeRequestUrl := .null, CommitSha := .null, CommitUrl := .null, MergeRequestStatus := .null,
    MergeRequestId := .null, WaitForMRStatus := wait }

/-- A state or plan of the resource for the incarnation 1234 with the given
wait block. -/
def examplePlan (wait : Option waitForStatusMRModel) : incarnationResourceModel :=
  { Id := .value "1234", IncarnationRepository := .value "inc/repo", TargetDirectory := .value ".",
    TemplateData := .null, TemplateRepository := .value "template/repo",
    TemplateRepositoryVersion := .value "template/repo/version", MergeRequestUrl := .null,
    CommitSha := .value "12345678", CommitUrl := .value "template/repo/commit",
    MergeRequestStatus := .null, MergeRequestId := .null, WaitForMRStatus := wait, AutoMerge := .null }

/-- The response of the `Read` of the data source for `exampleConfig`, run
with a client whose reads fail, on a response without diagnostics and an
empty state. -/
def failedDataSourceRead (wait : Option waitForStatusMRModel) :
    Resp (List incarnationDatasourceModel) :=
  (incarnationDataSource.Read exampleLib { client := readsFail exampleDeadlineError }
    (recordingStore incarnationDatasourceModel) .background
    { data := exampleConfig wait, diags := [] } { Diagnostics := [], State := [] } 0).1

/-- The response of the `Read` of the resource for `examplePlan`, run in the
same way. -/
def failedResourceRead (wait : Option waitForStatusMRModel) : Resp (List incarnationResourceModel) :=
  (incarnationResource.Read exampleLib { client := readsFail exampleDeadlineError }
    (recordingStore incarnationResourceModel) .background
    { data := examplePlan wait, diags := [] } { Diagnostics := [], State := [] } 0).1

/-- The response of the `Update` of the resource for `examplePlan`, run in
the same way: the update succeeds, the read that follows it fails. -/
def failedResourceUpdate (wait : Option waitForStatusMRModel) : Resp (List incarnationResourceModel) :=
  (incarnationResource.Update exampleLib { client := readsFail exampleDeadlineError }
    (recordingStore incarnationResourceModel) .background
    { data := examplePlan wait, diags := [] } { Diagnostics := [], State := [] } 0).1

/-- The three wait blocks of the examples: none, one whose timeout does not
parse, one without timeout. -/
def exampleWaits : List (Option waitForStatusMRModel) :=
  [none, some { Status := .value "merged", Timeout := .value "abc" },
    some { Status := .value "merged", Timeout := .null }]

/-- A server that gives the same answer to every request. -/
def answering (r : Except GoError Response) : client where
  impl := { respond := fun _ _ _ => r }

/-- A response with the status 500 whose body cannot be read: the deadline of
the context passes while the client reads it. -/
def unreadableResponse : Response :=
  { StatusCode := 500, Body := { content := "", readErr := some DeadlineExceeded } }

/-- A response with the status 404 and the error object of the server. -/
def notFoundResponse : Response :=
  { StatusCode := 404
    Body := { content := "\x7b\"message\":\"incarnation not found\"\x7d", readErr := none } }

/-- A response with the status 502 and a body that is not JSON. -/
def badGatewayResponse : Response :=
  { StatusCode := 502, Body := { content := "<html>Bad Gateway</html>", readErr := none } }

/-- A response with the given status and an empty body. -/
def emptyResponse (code : Int) : Response :=
  { StatusCode := code, Body := { content := "", readErr := none } }

/-- An update whose template data holds a `float32` that is `NaN`. -/
def nanRequest : UpdateIncarnationRequest :=
  { AutoMerge := true
    TemplateData := [("ratio", .float .float32 float32NaN)]
    TemplateRepositoryVersion := "v2" }

/-- The world before anything was done. -/
def World.initial : World := { requests := [], sleeps := 0 }

/-- Template data with one value of each of the three scalar kinds. -/
def exampleTemplateData : List (String × GoValue) :=
  [("name", .str "demo"), ("replicas", .int 3), ("ratio", .float .float32 float32ThreeAndHalf)]

/-- Template data with values of types outside the three type assertions: a
`bool`, nil, a nested map and an `int64`. -/
def otherTypesTemplateData : List (String × GoValue) :=
  [("flag", .bool true), ("nothing", .nil), ("nested", .other "map[string]interface {}"),
    ("big", .other "int64")]

/-- A request to create an incarnation with the given template data. -/
def exampleCreateRequest (templateData : List (String × GoValue)) : CreateIncarnationRequest :=
  { AutoMerge := false
    TemplateData := templateData
    TemplateRepositoryVersion := "template/repo/version"
    IncarnationRepository := "inc/repo"
    TargetDirectory := some "."
    TemplateRepository := "template/repo" }

/-- A request to update an incarnation with the given template data. -/
def exampleUpdateRequest (templateData : List (String × GoValue)) : UpdateIncarnationRequest :=
  { AutoMerge := true
    TemplateData := templateData
    TemplateRepositoryVersion := "template/repo/version" }

/-- A server that answers every request with the given status and the
incarnation 1234, without merge request or with one in the given status. -/
def answeringIncarnation (code : Int) (mergeRequestStatus : Option String) : client :=
  answering (.ok { StatusCode := code, Body := exampleBody mergeRequestStatus })

/-- The library of the examples with a decoder that gives the same decoded
body for every body: what `encoding/json` gives for the JSON text of `data`. -/
def decodingTo (data : IncarnationWithDetails) : Lib :=
  { exampleLib with DecodeIncarnation := fun _ => .ok data }

/-- Template data as the server sends it: a string, an integer, a number with
a fraction and a boolean, which none of the three accessors accepts. -/
def exampleWireTemplateData : List (String × TemplateDataUnion) :=
  [("name", { union := some "\"demo\"" }), ("replicas", { union := some "3" }),
    ("flag", { union := some "true" }), ("ratio", { union := some "3.5" })]

/-- The incarnation 1234 without merge request, with `exampleWireTemplateData`. -/
def exampleDetailsWithData : IncarnationWithDetails :=
  { exampleDetails none with TemplateData := some exampleWireTemplateData }

/-- A body read without error, whatever its text. -/
def someBody : Body := { content := "", readErr := none }

/-- The runtime of a Linux build for amd64. -/
def linuxAmd64 : Runtime := { GOOS := "linux", GOARCH := "amd64" }

/-- A GET request with the bearer token, as the generated client builds it. -/
def exampleHttpRequest : HttpRequest :=
  { Method := "GET"
    URL := "http://localhost/api/incarnations/1234"
    Header := [("Authorization", ["Bearer dev-token"])]
    Body := "" }

/-- An attempt that meets the given response, under a context that goes on. -/
def attemptAnswered (resp : Response) : Attempt :=
  { result := .ok resp, ctxErr := none, recoverable := true, waitErr := none }

/-- A response with the given status and the error object of the server. -/
def errorResponse (code : Int) : Response :=
  { StatusCode := code
    Body := { content := "\x7b\"message\":\"incarnation not found\"\x7d", readErr := none } }

/-- An HTTP client under the retrying client that meets the same response at
every attempt at every request. -/
def alwaysAnswering (resp : Response) : World → Context → Request → Nat → Attempt :=
  fun _ _ _ _ => attemptAnswered resp

/-- The URL of a request for the endpoint "http://localhost". -/
def localhostURL : Request → String
  | .get id => "http://localhost/api/incarnations/" ++ sprintfD id
  | .post _ => "http://localhost/api/incarnations"
  | .put id _ => "http://localhost/api/incarnations/" ++ sprintfD id
  | .delete id => "http://localhost/api/incarnations/" ++ sprintfD id

/-- The incarnation 1234 as a server sends it that reports the merge request
1234 without a status. -/
def detailsWithoutStatus : IncarnationWithDetails :=
  { exampleDetails (some "open") with MergeRequestStatus := none }

/-- The incarnation the client returns for `detailsWithoutStatus`. -/
def incarnationWithoutStatus : Incarnation :=
  { exampleIncarnation (some "open") with MergeRequestStatus := none }

/-- An implementation of `FoxopsClient` whose calls all succeed: the reads and
the update return the incarnation 1234 with its merge request merged, a
creation returns the incarnation 1234 without merge request. Its state is the
number of calls made. -/
def callsSucceed : FoxopsClient Nat where
  GetIncarnation := fun _ _ n => ((exampleIncarnation (some "merged"), none), n + 1)
  GetIncarnationWithMergeRequestStatus := fun _ _ _ n =>
    ((exampleIncarnation (some "merged"), none), n + 1)
  CreateIncarnation := fun _ _ n => ((exampleIncarnation none, none), n + 1)
  UpdateIncarnation := fun _ _ _ n => ((exampleIncarnation (some "merged"), none), n + 1)
  DeleteIncarnation := fun _ _ n => (none, n + 1)

/-- The plan `examplePlan` without wait block, with the given value of
`auto_merge_on_update`. -/
def examplePlanAutoMerge (autoMerge : TfBool) : Decoded incarnationResourceModel :=
  { data := { examplePlan none with AutoMerge := autoMerge }, diags := [] }

/-- The incarnation 1234 as the server sends it, with template data of the
three kinds: a string, an integer and a number with a fraction. -/
def threeKindsDetails : IncarnationWithDetails :=
  { exampleDetails none with
    TemplateData := some [("name", { union := some "\"demo\"" }), ("replicas", { union := some "3" }),
      ("ratio", { union := some "3.5" })] }

/-- The incarnation the client returns for `threeKindsDetails`. -/
def threeKindsIncarnation : Incarnation :=
  { exampleIncarnation none with TemplateData := exampleTemplateData }

/-- An implementation of `FoxopsClient` whose every call succeeds with the
given incarnation. -/
def returning (inc : Incarnation) : FoxopsClient Nat where
  GetIncarnation := fun _ _ n => ((inc, none), n + 1)
  GetIncarnationWithMergeRequestStatus := fun _ _ _ n => ((inc, none), n + 1)
  CreateIncarnation := fun _ _ n => ((inc, none), n + 1)
  UpdateIncarnation := fun _ _ _ n => ((inc, none), n + 1)
  DeleteIncarnation := fun _ _ n => (none, n + 1)

/-- A server behind an HTTP client that honours the timeout of the context:
a request made when the time slept so far has reached the timeout fails on
the deadline, an earlier one is answered with a merge request that is open.
(The requests themselves take no time.) -/
def openUntilDeadline : client where
  impl :=
    { respond := fun w ctx _ =>
        match ctx with
        | .withTimeout _ timeout =>
          if timeout ≤ (w.sleeps : Int) * Second then .error exampleDeadlineError
          else .ok { StatusCode := 200, Body := exampleBody (some "open") }
        | .background => .ok { StatusCode := 200, Body := exampleBody (some "open") } }

/-- The context with a timeout of half a second. -/
def halfSecondContext : Context := .withTimeout .background 500000000

/-- The configuration of the resource for the incarnation of `examplePlan`:
the computed attributes are null. -/
def exampleResourceConfig : incarnationResourceModel :=
  { examplePlan none with
    Id := .null, TargetDirectory := .null, CommitSha := .null, CommitUrl := .null }

/-- The plan Terraform proposes for a configuration: its values, the computed
attributes unknown. -/
def proposedPlan (config : incarnationResourceModel) : incarnationResourceModel :=
  { config with
    Id := .unknown, TargetDirectory := .unknown, CommitSha := .unknown, CommitUrl := .unknown,
    MergeRequestUrl := .unknown, MergeRequestStatus := .unknown, MergeRequestId := .unknown }

/-- The incarnation the server creates in another repository, under the id 2. -/
def recreatedIncarnation : Incarnation :=
  { exampleIncarnation none with Id := "0002", IncarnationRepository := "other/repo" }

/-- The configuration of the example with another incarnation repository. -/
def replacingConfig : incarnationResourceModel :=
  { exampleResourceConfig with IncarnationRepository := .value "other/repo" }

/-- The configuration of the example with another version and template data. -/
def updatingConfig : incarnationResourceModel :=
  { exampleResourceConfig with
    TemplateRepositoryVersion := .value "v2"
    TemplateData := .value [("name", .string (.value "demo"))] }

/-- The change of the example applied with a recording client whose calls
return the given incarnation, on the state of `examplePlan`. -/
def appliedChange (inc : Incarnation) (config : incarnationResourceModel) :
    Resp (List incarnationResourceModel) × (Nat × List Call) :=
  applyChange exampleLib { client := (returning inc).recording }
    (recordingStore incarnationResourceModel) .background
    { data := examplePlan none, diags := [] } { data := config, diags := [] }
    { data := proposedPlan config, diags := [] }
    { Diagnostics := [], State := [examplePlan none] } (0, [])

/-- A response with the status 404 whose body cannot be read: the deadline of
the context passes while the client reads it. -/
def unreadableNotFound : Response :=
  { StatusCode := 404, Body := { content := "", readErr := some DeadlineExceeded } }

/-- A server that answers the first request with a merge request that is
open; the second request is answered with the status 404, and the deadline of
the context passes while the body of that response is read. -/
def openThenUnreadable : client where
  impl :=
    { respond := fun w _ _ =>
        match w.requests with
        | [] => .ok { StatusCode := 200, Body := exampleBody (some "open") }
        | _ :: _ => .ok unreadableNotFound }

/-- The bits of the `float64` value 3.5. -/
def float64ThreeAndHalf : GoFloat := { bits := 0x400C000000000000 }

/-- Template data with a `float64` and an `int64`, the types of a Go float
literal and of a 64-bit integer. -/
def wideTemplateData : List (String × GoValue) :=
  [("ratio", .float .float64 float64ThreeAndHalf), ("big", .other "int64")]

/-! ## Lemmas on the client -/

theorem GetIncarnation_world (c : client) (lib : Lib) (ctx : Context) (id : IncarnationId)
    (w : World) :
    (c.GetIncarnation lib ctx id w).2 =
      { requests := w.requests ++ (match Atoi id with | .ok n => [Request.get n] | .error _ => []),
        sleeps := w.sleeps } := by
  unfold client.GetIncarnation
  cases hA : Atoi id with
  | error e => simp
  | ok n =>
    simp only [ClientInterface.call]
    cases c.impl.respond w ctx (Request.get n) with
    | error e => simp
    | ok resp =>
      simp only
      cases WithStack (checkResponseStatus lib StatusOK resp) <;> simp

theorem GetIncarnation_success_parses (c : client) (lib : Lib) (ctx : Context) (id : IncarnationId)
    (w : World) (inc : Incarnation)
    (h : (c.GetIncarnation lib ctx id w).1 = .ret (inc, none)) : ∃ n, Atoi id = .ok n := by
  unfold client.GetIncarnation at h
  cases hA : Atoi id with
  | error e => simp [hA, WithStack] at h
  | ok n => exact ⟨n, rfl⟩

theorem keepsPolling_iff (status : String) (r : Outcome (Incarnation × Option GoError)) :
    keepsPolling status r = true ↔
      ∃ inc, r = .ret (inc, none) ∧ inc.MergeRequestId ≠ none ∧ inc.MergeRequestStatus ≠ some status := by
  cases r with
  | fault msg => simp [keepsPolling]
  | ret a =>
    obtain ⟨inc, err⟩ := a
    cases err with
    | some e => simp [keepsPolling]
    | none =>
      simp only [keepsPolling, Bool.and_eq_true, decide_eq_true_eq, Option.isSome_iff_ne_none]
      constructor
      · intro h
        exact ⟨inc, rfl, h.1, h.2⟩
      · rintro ⟨inc2, h1, h2, h3⟩
        cases h1
        exact ⟨h2, h3⟩

/-- One turn of the loop on a result after which it goes on. -/
theorem poll_step (c : client) (lib : Lib) (ctx : Context) (id : IncarnationId) (status : String)
    (fuel : Nat) (w : World) (h : keepsPolling status (c.GetIncarnation lib ctx id w).1 = true) :
    c.GetIncarnationWithMergeRequestStatus lib ctx id status (fuel + 1) w =
      c.GetIncarnationWithMergeRequestStatus lib ctx id status fuel
        (sleepSecond (c.GetIncarnation lib ctx id w).2) := by
  obtain ⟨inc, h1, h2, h3⟩ := (keepsPolling_iff status _).1 h
  rw [client.GetIncarnationWithMergeRequestStatus]
  rcases hg : c.GetIncarnation lib ctx id w with ⟨r, w1⟩
  rw [hg] at h1
  simp only at h1
  subst h1
  simp [h2, h3]

/-- The loop after `n` results after which it goes on. -/
theorem poll_skip (c : client) (lib : Lib) (ctx : Context) (id : IncarnationId) (status : String)
    (n : Nat) : ∀ (fuel : Nat) (w : World),
      (∀ i, i < n → keepsPolling status (pollResult c lib ctx id i w) = true) →
      c.GetIncarnationWithMergeRequestStatus lib ctx id status (fuel + n) w =
        c.GetIncarnationWithMergeRequestStatus lib ctx id status fuel (pollWorld c lib ctx id n w) := by
  induction n with
  | zero => intro fuel w _; rfl
  | succ n ih =>
    intro fuel w h
    have h0 : keepsPolling status (c.GetIncarnation lib ctx id w).1 = true := by
      have := h 0 (Nat.succ_pos n)
      simpa [pollResult, pollWorld] using this
    rw [← Nat.add_assoc, poll_step c lib ctx id status (fuel + n) w h0]
    rw [ih fuel (sleepSecond (c.GetIncarnation lib ctx id w).2)]
    · rfl
    · intro i hi
      have := h (i + 1) (Nat.succ_lt_succ hi)
      simpa [pollResult, pollWorld] using this

/-- One turn of the loop on a result that ends it. -/
theorem poll_stop (c : client) (lib : Lib) (ctx : Context) (id : IncarnationId) (status : String)
    (fuel : Nat) (w : World) (inc : Incarnation) (err : Option GoError)
    (hr : (c.GetIncarnation lib ctx id w).1 = .ret (inc, err))
    (h : err ≠ none ∨ inc.MergeRequestId = none ∨ inc.MergeRequestStatus = some status) :
    c.GetIncarnationWithMergeRequestStatus lib ctx id status (fuel + 1) w =
      some (.ret (inc, err), (c.GetIncarnation lib ctx id w).2) := by
  rw [client.GetIncarnationWithMergeRequestStatus]
  rcases hg : c.GetIncarnation lib ctx id w with ⟨r, w1⟩
  rw [hg] at hr
  simp only at hr
  subst hr
  cases err with
  | some e => rfl
  | none =>
    rcases h with h | h | h
    · exact absurd rfl h
    · simp [h]
    · simp [h]

theorem pollWorld_sleeps (c : client) (lib : Lib) (ctx : Context) (id : IncarnationId) (n : Nat) :
    ∀ w : World, (pollWorld c lib ctx id n w).sleeps = w.sleeps + n := by
  induction n with
  | zero => intro w; rfl
  | succ n ih =>
    intro w
    rw [pollWorld, ih, GetIncarnation_world]
    simp only [sleepSecond]
    omega

theorem pollWorld_requests (c : client) (lib : Lib) (ctx : Context) (id : IncarnationId) (idInt : Int)
    (hid : Atoi id = .ok idInt) (n : Nat) :
    ∀ w : World, (pollWorld c lib ctx id n w).requests =
      w.requests ++ List.replicate n (Request.get idInt) := by
  induction n with
  | zero => intro w; simp [pollWorld]
  | succ n ih =>
    intro w
    rw [pollWorld, ih, GetIncarnation_world]
    simp [sleepSecond, hid, List.replicate_succ]

theorem Is_withStack (e target : GoError) (h : e.Is target = true) :
    (GoError.withStack e).Is target = true := by
  simp only [GoError.Is, decide_eq_true_eq] at h ⊢
  simp [GoError.chain, h]

theorem GetIncarnation_transport_error (c : client) (lib : Lib) (ctx : Context) (id : IncarnationId)
    (w : World) (idInt : Int) (e : GoError) (hid : Atoi id = .ok idInt)
    (he : c.impl.respond w ctx (.get idInt) = .error e) :
    (c.GetIncarnation lib ctx id w).1 = .ret (Incarnation.zero, some (.withStack e)) := by
  simp [client.GetIncarnation, hid, ClientInterface.call, he, WithStack]

theorem checkResponseStatus_expected (lib : Lib) (expected : Int) (resp : Response)
    (h : resp.StatusCode = expected) : checkResponseStatus lib expected resp = none := by
  simp [checkResponseStatus, h]

theorem checkResponseStatus_mismatch (lib : Lib) (expected : Int) (resp : Response)
    (h : resp.StatusCode ≠ expected) : ∃ e, checkResponseStatus lib expected resp = some e := by
  unfold checkResponseStatus
  rw [if_pos h]
  cases ReadAll resp.Body with
  | error e => exact ⟨_, rfl⟩
  | ok body =>
    simp only
    cases lib.UnmarshalApiError body with
    | error e => exact ⟨_, rfl⟩
    | ok apiError => exact ⟨_, rfl⟩

theorem containsText_mid (a x b : String) : containsText (a ++ x ++ b) x = true := by
  unfold containsText
  rw [List.any_eq_true]
  refine ⟨x.toList ++ b.toList, ?_, ?_⟩
  · rw [List.mem_tails]
    exact ⟨a.toList, by simp [String.toList, String.data_append, List.append_assoc]⟩
  · rw [List.isPrefixOf_iff_prefix]
    exact List.prefix_append _ _

/-! ## The polling loop -/

set_option maxRecDepth 100000

/-- C2: if the first `k - 1` results of `GetIncarnation` are successes with a
merge-request id and a status other than the desired one, and the `k`-th is a
success whose merge-request status is the desired one, then
`GetIncarnationWithMergeRequestStatus` returns (whenever it may make `k` turns)
the `k`-th incarnation without error, after exactly `k` GET requests and
`k - 1` sleeps. -/
theorem C2_poll_returns_kth_result (c : client) (lib : Lib) (ctx : Context) (id : IncarnationId)
    (status : String) (k : Nat) (w : World) (inc : Incarnation) (hk : 0 < k)
    (hearlier : ∀ i, i + 1 < k → keepsPolling status (pollResult c lib ctx id i w) = true)
    (hlast : pollResult c lib ctx id (k - 1) w = .ret (inc, none))
    (hstatus : inc.MergeRequestStatus = some status)
    (fuel : Nat) (hfuel : k ≤ fuel) :
    ∃ idInt, Atoi id = .ok idInt ∧
      c.GetIncarnationWithMergeRequestStatus lib ctx id status fuel w =
        some (.ret (inc, none),
          { requests := w.requests ++ List.replicate k (Request.get idInt),
            sleeps := w.sleeps + (k - 1) }) := by
  obtain ⟨n, rfl⟩ : ∃ n, k = n + 1 := ⟨k - 1, by omega⟩
  obtain ⟨f, rfl⟩ : ∃ f, fuel = (f + 1) + n := ⟨fuel - (n + 1), by omega⟩
  simp only [Nat.add_sub_cancel] at hlast ⊢
  obtain ⟨idInt, hid⟩ := GetIncarnation_success_parses c lib ctx id _ inc hlast
  refine ⟨idInt, hid, ?_⟩
  rw [poll_skip c lib ctx id status n (f + 1) w (fun i hi => hearlier i (by omega))]
  rw [poll_stop c lib ctx id status f _ inc none hlast (Or.inr (Or.inr hstatus))]
  rw [GetIncarnation_world, pollWorld_sleeps, pollWorld_requests c lib ctx id idInt hid]
  simp [hid, List.replicate_succ', List.append_assoc]

/-- C2, the scenario of the test: the statuses "open" then "merged" with the
desired status "merged" give two GET requests, one sleep, and the incarnation
with the status "merged". -/
theorem C2_poll_open_then_merged :
    openThenMerged.GetIncarnationWithMergeRequestStatus exampleLib .background "1234" "merged" 2
        World.initial =
      some (.ret (exampleIncarnation (some "merged"), none),
        { requests := [Request.get 1234, Request.get 1234], sleeps := 1 }) := by
  obtain ⟨idInt, hid, h⟩ :=
    C2_poll_returns_kth_result openThenMerged exampleLib .background "1234" "merged" 2
      World.initial (exampleIncarnation (some "merged")) (by decide)
      (fun i hi => by
        have hi0 : i = 0 := by omega
        subst hi0
        decide)
      (by decide) (by decide) 2 (by decide)
  have h1234 : idInt = 1234 := by
    have : Atoi "1234" = .ok 1234 := by decide
    rw [this] at hid
    cases hid
    rfl
  subst h1234
  exact h

/-- C3: if the first `GetIncarnation` succeeds with an incarnation without
merge-request id, `GetIncarnationWithMergeRequestStatus` returns that
incarnation without error after exactly one GET request and no sleep, for
every desired status and every content of the merge-request status field. -/
theorem C3_poll_no_merge_request (c : client) (lib : Lib) (ctx : Context) (id : IncarnationId)
    (status : String) (w : World) (inc : Incarnation)
    (hfirst : (c.GetIncarnation lib ctx id w).1 = .ret (inc, none))
    (hnone : inc.MergeRequestId = none) (fuel : Nat) (hfuel : 0 < fuel) :
    ∃ idInt, Atoi id = .ok idInt ∧
      c.GetIncarnationWithMergeRequestStatus lib ctx id status fuel w =
        some (.ret (inc, none),
          { requests := w.requests ++ [Request.get idInt], sleeps := w.sleeps }) := by
  obtain ⟨f, rfl⟩ : ∃ f, fuel = f + 1 := ⟨fuel - 1, by omega⟩
  obtain ⟨idInt, hid⟩ := GetIncarnation_success_parses c lib ctx id w inc hfirst
  refine ⟨idInt, hid, ?_⟩
  rw [poll_stop c lib ctx id status f w inc none hfirst (Or.inr (Or.inl hnone))]
  rw [GetIncarnation_world]
  simp [hid]

/-- C3, the scenario of the test: an incarnation without merge request and
the desired status "some-status" give one GET request and no sleep. -/
theorem C3_poll_without_merge_request_example :
    noMergeRequest.GetIncarnationWithMergeRequestStatus exampleLib .background "1234" "some-status" 1
        World.initial =
      some (.ret (exampleIncarnation none, none), { requests := [Request.get 1234], sleeps := 0 }) := by
  obtain ⟨idInt, hid, h⟩ :=
    C3_poll_no_merge_request noMergeRequest exampleLib .background "1234" "some-status"
      World.initial (exampleIncarnation none) (by decide) (by decide) 1 (by decide)
  have h1234 : idInt = 1234 := by
    have : Atoi "1234" = .ok 1234 := by decide
    rw [this] at hid
    cases hid
    rfl
  subst h1234
  exact h

/-- C4: if the `k`-th call of `GetIncarnation` is the first that returns an
error and no earlier result ended the loop, `GetIncarnationWithMergeRequestStatus`
returns (whenever it may make `k` turns) the result of that call, error
included, in the world that call left: `k - 1` sleeps, and `k` GET requests
when the identifier converts, none when it does not. No call follows the
failed one. -/
theorem C4_poll_returns_first_error (c : client) (lib : Lib) (ctx : Context) (id : IncarnationId)
    (status : String) (k : Nat) (w : World) (inc : Incarnation) (err : GoError) (hk : 0 < k)
    (hearlier : ∀ i, i + 1 < k → keepsPolling status (pollResult c lib ctx id i w) = true)
    (hfail : pollResult c lib ctx id (k - 1) w = .ret (inc, some err))
    (fuel : Nat) (hfuel : k ≤ fuel) :
    c.GetIncarnationWithMergeRequestStatus lib ctx id status fuel w =
        some (.ret (inc, some err), pollWorldAfter c lib ctx id (k - 1) w) ∧
      (pollWorldAfter c lib ctx id (k - 1) w).sleeps = w.sleeps + (k - 1) ∧
      (∀ idInt, Atoi id = .ok idInt →
        (pollWorldAfter c lib ctx id (k - 1) w).requests =
          w.requests ++ List.replicate k (Request.get idInt)) ∧
      (∀ e, Atoi id = .error e → (pollWorldAfter c lib ctx id (k - 1) w).requests = w.requests) := by
  obtain ⟨n, rfl⟩ : ∃ n, k = n + 1 := ⟨k - 1, by omega⟩
  obtain ⟨f, rfl⟩ : ∃ f, fuel = (f + 1) + n := ⟨fuel - (n + 1), by omega⟩
  simp only [Nat.add_sub_cancel] at hfail ⊢
  refine ⟨?_, ?_, ?_, ?_⟩
  · rw [poll_skip c lib ctx id status n (f + 1) w (fun i hi => hearlier i (by omega))]
    rw [poll_stop c lib ctx id status f _ inc (some err) hfail (Or.inl (by simp))]
    rfl
  · rw [pollWorldAfter, GetIncarnation_world, pollWorld_sleeps]
  · intro idInt hid
    rw [pollWorldAfter, GetIncarnation_world, pollWorld_requests c lib ctx id idInt hid]
    simp [hid, List.replicate_succ', List.append_assoc]
  · intro e he
    cases n with
    | zero => rw [pollWorldAfter, GetIncarnation_world]; simp [he, pollWorld]
    | succ m =>
      exfalso
      have h0 := hearlier 0 (by omega)
      obtain ⟨inc0, h1, _, _⟩ := (keepsPolling_iff status _).1 h0
      obtain ⟨n0, hn0⟩ := GetIncarnation_success_parses c lib ctx id w inc0 (by simpa [pollResult, pollWorld] using h1)
      rw [he] at hn0
      cases hn0

/-- C4, an example: the first call finds the merge request open, the second
fails on the deadline; the loop returns that error after two GET requests. -/
theorem C4_poll_open_then_deadline :
    openThenDeadline.GetIncarnationWithMergeRequestStatus exampleLib .background "1234" "merged" 5
        World.initial =
      some (.ret (Incarnation.zero, some (.withStack exampleDeadlineError)),
        { requests := [Request.get 1234, Request.get 1234], sleeps := 1 }) := by
  have h := (C4_poll_returns_first_error openThenDeadline exampleLib .background "1234" "merged" 2
      World.initial Incarnation.zero (.withStack exampleDeadlineError) (by decide)
      (fun i hi => by
        have hi0 : i = 0 := by omega
        subst hi0
        decide)
      (by decide) 5 (by decide)).1
  rw [h]
  decide

/-- A deadline reported by the transport: when the deadline of the context
has passed at the `k`-th request of
the polling loop (the transport fails with an error whose chain holds
`context.DeadlineExceeded`) and no earlier result ended the loop,
`GetIncarnationWithMergeRequestStatus` returns that error under one more
wrapper, and `errors.Is` still finds `context.DeadlineExceeded` in it.
The helper `getIncarnation`, for its part, adds to its diagnostics exactly one
of two summaries for an error of the polling operation: the timeout summary
when `errors.Is(err, context.DeadlineExceeded)` holds, the summary "failed to
retrieve incarnation" when it does not; the two summaries differ. -/
theorem transport_deadline_is_recognised_and_classified {σ : Type} (c : client) (lib : Lib)
    (ctx : Context) (id : IncarnationId) (status : String) (k : Nat) (w : World) (idInt : Int)
    (e : GoError) (hk : 0 < k) (hid : Atoi id = .ok idInt)
    (hearlier : ∀ i, i + 1 < k → keepsPolling status (pollResult c lib ctx id i w) = true)
    (hdeadline : c.impl.respond (pollWorld c lib ctx id (k - 1) w) ctx (.get idInt) = .error e)
    (hIs : e.Is DeadlineExceeded = true) (fuel : Nat) (hfuel : k ≤ fuel)
    (fc : FoxopsClient σ) (diags : Diagnostics) (wait : waitForStatusMRModel) (timeout : Int)
    (s s1 : σ) (inc : Incarnation) (err : GoError)
    (hparse : (if !wait.Timeout.IsNull then lib.ParseDuration wait.Timeout.ValueString
        else .ok (10 * Second)) = .ok timeout)
    (hcall : fc.GetIncarnationWithMergeRequestStatus (.withTimeout ctx timeout) id
        wait.Status.ValueString s = ((inc, some err), s1)) :
    (c.GetIncarnationWithMergeRequestStatus lib ctx id status fuel w =
        some (.ret (Incarnation.zero, some (.withStack e)), pollWorldAfter c lib ctx id (k - 1) w) ∧
      (GoError.withStack e).Is DeadlineExceeded = true) ∧
    ((getIncarnation lib ctx fc diags id (some wait) s).diags =
        diags.AddError
          (if err.Is DeadlineExceeded then
            "operation timed out before the merge request status reached the expected status"
          else "failed to retrieve incarnation")
          err.Error ∧
      "operation timed out before the merge request status reached the expected status" ≠
        "failed to retrieve incarnation") := by
  refine ⟨⟨?_, Is_withStack e _ hIs⟩, ?_, by decide⟩
  · have hfail := GetIncarnation_transport_error c lib ctx id _ idInt e hid hdeadline
    obtain ⟨n, rfl⟩ : ∃ n, k = n + 1 := ⟨k - 1, by omega⟩
    obtain ⟨f, rfl⟩ : ∃ f, fuel = (f + 1) + n := ⟨fuel - (n + 1), by omega⟩
    simp only [Nat.add_sub_cancel] at hfail ⊢
    rw [poll_skip c lib ctx id status n (f + 1) w (fun i hi => hearlier i (by omega))]
    rw [poll_stop c lib ctx id status f _ _ _ hfail (Or.inl (by simp))]
    rfl
  · unfold getIncarnation
    simp only [hparse, hcall]
    by_cases h : err.Is DeadlineExceeded = true <;> simp [h]

/-- An example of a deadline reported by the transport: against a server
whose second request fails on the deadline, the loop returns an error in which `errors.Is` finds the deadline,
and `getIncarnation`, given that error by its client, adds the timeout summary
to its diagnostics. -/
theorem transport_deadline_example :
    (openThenDeadline.GetIncarnationWithMergeRequestStatus exampleLib .background "1234" "merged" 2
          World.initial =
        some (.ret (Incarnation.zero, some (.withStack exampleDeadlineError)),
          pollWorldAfter openThenDeadline exampleLib .background "1234" 1 World.initial) ∧
      (GoError.withStack exampleDeadlineError).Is DeadlineExceeded = true) ∧
    ((getIncarnation exampleLib .background (readsFail (.withStack exampleDeadlineError)) []
          "1234" (some { Status := .value "merged", Timeout := .value "30s" }) 0).diags =
        Diagnostics.AddError []
          (if (GoError.withStack exampleDeadlineError).Is DeadlineExceeded then
            "operation timed out before the merge request status reached the expected status"
          else "failed to retrieve incarnation")
          (GoError.withStack exampleDeadlineError).Error ∧
      "operation timed out before the merge request status reached the expected status" ≠
        "failed to retrieve incarnation") :=
  transport_deadline_is_recognised_and_classified openThenDeadline exampleLib .background "1234" "merged" 2
    World.initial 1234 exampleDeadlineError (by decide) (by decide)
    (fun i hi => by
      have hi0 : i = 0 := by omega
      subst hi0
      decide)
    (by decide) (by decide) 2 (by decide)
    (readsFail (.withStack exampleDeadlineError)) [] { Status := .value "merged", Timeout := .value "30s" }
    (30 * Second) 0 1 Incarnation.zero (.withStack exampleDeadlineError) (by decide) (by rfl)

/-! ## The adapter layer -/

/-- C1 (the code departs from it): `getIncarnation` adds its error diagnostic
to its own copy of the diagnostics, so the check `resp.Diagnostics.HasError()`
of the caller does not see it. With a client whose reads fail, and a state
that starts empty: the helper's copy holds an error for a failed
`GetIncarnation`, for a timeout that does not parse and for a failed polling
call, yet the `Read` of the data source ends in each of the three cases
without any diagnostic and with the zero incarnation written to the state; so
does the `Read` of the resource; and `Update` writes the zero incarnation
over the updated one. -/
theorem C1_getIncarnation_error_does_not_reach_caller :
    (∀ wait ∈ exampleWaits,
      (getIncarnation exampleLib .background (readsFail exampleDeadlineError) [] "1234"
        wait 0).diags.HasError = true) ∧
    (∀ wait ∈ exampleWaits,
      (failedDataSourceRead wait).Diagnostics = [] ∧
        (failedDataSourceRead wait).State.map (fun m => m.Id) = [TfString.value ""]) ∧
    (∀ wait ∈ exampleWaits,
      (failedResourceRead wait).Diagnostics = [] ∧
        (failedResourceRead wait).State.map (fun m => m.Id) = [TfString.value ""]) ∧
    (∀ wait ∈ exampleWaits,
      (failedResourceUpdate wait).Diagnostics = [] ∧
        (failedResourceUpdate wait).State.map (fun m => m.Id) =
          [TfString.value "1234", TfString.value ""]) := by
  refine ⟨?_, ?_, ?_, ?_⟩ <;> decide

/-! ## The mapping of responses -/

/-- C6: for `GetIncarnation`, `CreateIncarnation` and `UpdateIncarnation`, when
the request is answered with the expected status, the result is the result of
`mapIncarnation` on the body of the response, whatever the request held; and
an incarnation `mapIncarnation` returns for a body that decodes has the
decimal rendering of the wire id as `Id`, the repositories, directory, version,
commit sha and url, merge-request id and url of the body, and the
merge-request status of the body when that is a string, nil when it is absent. -/
theorem C6_result_is_mapping_of_body (c : client) (lib : Lib) (ctx : Context) (w : World)
    (resp : Response) :
    (∀ id idInt, Atoi id = .ok idInt → c.impl.respond w ctx (.get idInt) = .ok resp →
        resp.StatusCode = 200 →
        (c.GetIncarnation lib ctx id w).1 = mapIncarnation lib resp.Body) ∧
    (∀ req, (encodeTemplateData lib req.TemplateData).2 = none →
        c.impl.respond w ctx (.post (createBody lib req)) = .ok resp → resp.StatusCode = 201 →
        (c.CreateIncarnation lib ctx req w).1 = mapIncarnation lib resp.Body) ∧
    (∀ id idInt req, (encodeTemplateData lib req.TemplateData).2 = none → Atoi id = .ok idInt →
        c.impl.respond w ctx (.put idInt (updateBody lib req)) = .ok resp → resp.StatusCode = 200 →
        (c.UpdateIncarnation lib ctx id req w).1 = mapIncarnation lib resp.Body) ∧
    (∀ data inc err, lib.DecodeIncarnation resp.Body = .ok data →
        mapIncarnation lib resp.Body = .ret (inc, err) →
        inc.Id = sprintfD data.Id ∧
        inc.IncarnationRepository = data.IncarnationRepository ∧
        inc.TargetDirectory = data.TargetDirectory ∧
        some inc.TemplateRepository = data.TemplateRepository ∧
        some inc.TemplateRepositoryVersion = data.TemplateRepositoryVersion ∧
        inc.CommitSha = data.CommitSha ∧
        inc.CommitUrl = data.CommitUrl ∧
        inc.MergeRequestId = data.MergeRequestId ∧
        inc.MergeRequestUrl = data.MergeRequestUrl ∧
        (∀ status, data.MergeRequestStatus = some (.str status) → inc.MergeRequestStatus = some status) ∧
        (data.MergeRequestStatus = none → inc.MergeRequestStatus = none)) := by
  refine ⟨?_, ?_, ?_, ?_⟩
  · intro id idInt hid hresp hcode
    simp [client.GetIncarnation, hid, ClientInterface.call, hresp,
      checkResponseStatus_expected lib StatusOK resp hcode, WithStack]
  · intro req henc hresp hcode
    simp [client.CreateIncarnation, henc, ClientInterface.call, hresp,
      checkResponseStatus_expected lib StatusCreated resp hcode, WithStack]
  · intro id idInt req henc hid hresp hcode
    simp [client.UpdateIncarnation, henc, hid, ClientInterface.call, hresp,
      checkResponseStatus_expected lib StatusOK resp hcode, WithStack]
  · intro data inc err hdec hmap
    unfold mapIncarnation at hmap
    rw [hdec] at hmap
    simp only at hmap
    cases htr : data.TemplateRepository with
    | none => simp [htr] at hmap
    | some tr =>
      cases htv : data.TemplateRepositoryVersion with
      | none => simp [htr, htv] at hmap
      | some tv =>
        simp only [htr, htv] at hmap
        rcases hs : data.MergeRequestStatus with _ | v
        · rcases htd : data.TemplateData with _ | td
            <;> simp only [hs, htd, Outcome.ret.injEq, Prod.mk.injEq] at hmap
            <;> obtain ⟨rfl, _⟩ := hmap
            <;> simp
        · cases v
            <;> rcases htd : data.TemplateData with _ | td
            <;> simp only [hs, htd, Outcome.ret.injEq, Prod.mk.injEq] at hmap
            <;> obtain ⟨rfl, _⟩ := hmap
            <;> simp

/-- C6, the scenario of the specification: the identifier 1234 and a response
200 with the body of the incarnation 1234 without merge request give the
incarnation with `Id` "1234" and nil merge-request fields. -/
theorem C6_get_maps_example_body :
    (noMergeRequest.GetIncarnation exampleLib .background "1234" World.initial).1 =
      .ret (exampleIncarnation none, none) := by
  rw [(C6_result_is_mapping_of_body noMergeRequest exampleLib .background World.initial
    { StatusCode := 200, Body := exampleBody none }).1 "1234" 1234 (by decide) (by rfl) (by decide)]
  decide

/-! ## The status check -/

/-- C7 as stated fails: for a response with the status 500 instead of 200
whose body cannot be read, the error of `checkResponseStatus`, and so the error
`GetIncarnation` returns, has the message "failed to read response body",
in which neither status code occurs. -/
theorem C7_unreadable_body_message_lacks_codes :
    (checkResponseStatus exampleLib 200 unreadableResponse).map GoError.Error =
        some "failed to read response body" ∧
      ((answering (.ok unreadableResponse)).GetIncarnation exampleLib .background "1234"
          World.initial).1 =
        .ret (Incarnation.zero, some (.withStack (errorsNew "failed to read response body"))) ∧
      (GoError.withStack (errorsNew "failed to read response body")).Error =
        "failed to read response body" ∧
      containsText "failed to read response body" "500" = false ∧
      containsText "failed to read response body" "200" = false := by
  refine ⟨?_, ?_, ?_, ?_, ?_⟩ <;> decide

/-- C7, amended: for a response whose status code differs from the expected
one and whose body can be read, `checkResponseStatus` returns an error with
the message "unexpected status code <actual>, wants <expected>: <inner>"; both
codes occur in it; when the body decodes as the error object with the message
`m`, `<inner>` is `m`; and each of the four operations returns that error under
one more stack wrapper, which has the same message. -/
theorem C7_mismatch_message_has_codes_and_server_message (c : client) (lib : Lib) (ctx : Context)
    (w : World) (resp : Response) (expected : Int) (body : String)
    (hcode : resp.StatusCode ≠ expected) (hread : ReadAll resp.Body = .ok body) :
    ∃ err inner : GoError, checkResponseStatus lib expected resp = some err ∧
      err.Error = mismatchText resp.StatusCode expected inner.Error ∧
      (GoError.withStack err).Error = err.Error ∧
      containsText err.Error (sprintfD resp.StatusCode) = true ∧
      containsText err.Error (sprintfD expected) = true ∧
      (∀ m, lib.UnmarshalApiError body = .ok { Message := m } → inner.Error = m) ∧
      (expected = 200 → ∀ id idInt, Atoi id = .ok idInt →
        c.impl.respond w ctx (.get idInt) = .ok resp →
        (c.GetIncarnation lib ctx id w).1 = .ret (Incarnation.zero, some (.withStack err))) ∧
      (expected = 201 → ∀ req, (encodeTemplateData lib req.TemplateData).2 = none →
        c.impl.respond w ctx (.post (createBody lib req)) = .ok resp →
        (c.CreateIncarnation lib ctx req w).1 = .ret (Incarnation.zero, some (.withStack err))) ∧
      (expected = 200 → ∀ id idInt req, (encodeTemplateData lib req.TemplateData).2 = none →
        Atoi id = .ok idInt → c.impl.respond w ctx (.put idInt (updateBody lib req)) = .ok resp →
        (c.UpdateIncarnation lib ctx id req w).1 = .ret (Incarnation.zero, some (.withStack err))) ∧
      (expected = 204 → ∀ id idInt, Atoi id = .ok idInt →
        c.impl.respond w ctx (.delete idInt) = .ok resp →
        (c.DeleteIncarnation lib ctx id w).1 = some (.withStack err)) := by
  have hcheck : ∃ inner : GoError,
      checkResponseStatus lib expected resp =
        some (.withStack (.withMessage inner
          ("unexpected status code " ++ sprintfD resp.StatusCode ++ ", wants " ++ sprintfD expected))) ∧
      (∀ m, lib.UnmarshalApiError body = .ok { Message := m } → inner.Error = m) := by
    unfold checkResponseStatus
    rw [if_pos hcode, hread]
    simp only
    cases hu : lib.UnmarshalApiError body with
    | error e =>
      refine ⟨.withStack (.withMessage e "failed to decode error message"), rfl, ?_⟩
      intro m hm
      cases hm
    | ok apiError =>
      refine ⟨errorsNew apiError.Message, rfl, ?_⟩
      intro m hm
      cases hm
      rfl
  obtain ⟨inner, hc, hm⟩ := hcheck
  have hmsg : (GoError.withStack (.withMessage inner
      ("unexpected status code " ++ sprintfD resp.StatusCode ++ ", wants " ++ sprintfD expected))).Error =
      mismatchText resp.StatusCode expected inner.Error := by
    simp [GoError.Error, mismatchText, String.append_assoc]
  refine ⟨_, inner, hc, hmsg, rfl, ?_, ?_, hm, ?_, ?_, ?_, ?_⟩
  · rw [hmsg, mismatchText]
    have := containsText_mid "unexpected status code " (sprintfD resp.StatusCode)
      (", wants " ++ sprintfD expected ++ ": " ++ inner.Error)
    simpa [String.append_assoc] using this
  · rw [hmsg, mismatchText]
    have := containsText_mid ("unexpected status code " ++ sprintfD resp.StatusCode ++ ", wants ")
      (sprintfD expected) (": " ++ inner.Error)
    simpa [String.append_assoc] using this
  · intro he id idInt hid hresp
    subst he
    simp [client.GetIncarnation, hid, ClientInterface.call, hresp, StatusOK, hc, WithStack]
  · intro he req henc hresp
    subst he
    simp [client.CreateIncarnation, henc, ClientInterface.call, hresp, StatusCreated, hc, WithStack]
  · intro he id idInt req henc hid hresp
    subst he
    simp [client.UpdateIncarnation, henc, hid, ClientInterface.call, hresp, StatusOK, hc, WithStack]
  · intro he id idInt hid hresp
    subst he
    simp [client.DeleteIncarnation, hid, ClientInterface.call, hresp, StatusNoContent, hc, WithStack]

/-- C7, an example: the status 404 instead of 200 with the error object
`{"message":"incarnation not found"}` gives the message
"unexpected status code 404, wants 200: incarnation not found". -/
theorem C7_not_found_example :
    (checkResponseStatus exampleLib 200 notFoundResponse).map GoError.Error =
      some "unexpected status code 404, wants 200: incarnation not found" := by
  obtain ⟨err, inner, hc, hmsg, _, _, _, hm, _⟩ :=
    C7_mismatch_message_has_codes_and_server_message (answering (.ok notFoundResponse)) exampleLib
      .background World.initial notFoundResponse 200 notFoundResponse.Body.content
      (by decide) (by decide)
  rw [hc, Option.map_some', hmsg, hm "incarnation not found" (by decide)]
  decide

/-- C8 (the code departs from it): when the body of a response with an
unexpected status cannot be read, `checkResponseStatus` returns a fresh error
made by `errors.New`; its chain holds nothing but itself, so the cause of the
read failure (here `context.DeadlineExceeded`) cannot be found in the error
`checkResponseStatus` or `GetIncarnation` returns. The branch next to it, for a
body that does not decode, wraps its cause and keeps it in the chain. -/
theorem C8_read_failure_replaces_cause :
    checkResponseStatus exampleLib 200 unreadableResponse =
        some (errorsNew "failed to read response body") ∧
      (errorsNew "failed to read response body").chain = [errorsNew "failed to read response body"] ∧
      (errorsNew "failed to read response body").Is DeadlineExceeded = false ∧
      ((answering (.ok unreadableResponse)).GetIncarnation exampleLib .background "1234"
          World.initial).1 =
        .ret (Incarnation.zero, some (.withStack (errorsNew "failed to read response body"))) ∧
      (GoError.withStack (errorsNew "failed to read response body")).Is DeadlineExceeded = false ∧
      (checkResponseStatus exampleLib 200 badGatewayResponse).map
          (fun e => e.Is (.leaf "invalid character in error object")) = some true := by
  refine ⟨?_, ?_, ?_, ?_, ?_, ?_⟩ <;> decide

/-- C9: when the transport answers the request, `DeleteIncarnation` returns
no error exactly when the status code is 204; `GetIncarnation` and
`UpdateIncarnation` go on to map the body exactly when it is 200 and
`CreateIncarnation` exactly when it is 201, and return an error with the zero
incarnation for every other code; `checkResponseStatus` returns nil exactly
when the code is the expected one. -/
theorem C9_status_check_is_exact (c : client) (lib : Lib) (ctx : Context) (w : World)
    (resp : Response) :
    (∀ expected, checkResponseStatus lib expected resp = none ↔ resp.StatusCode = expected) ∧
    (∀ id idInt, Atoi id = .ok idInt → c.impl.respond w ctx (.delete idInt) = .ok resp →
      ((c.DeleteIncarnation lib ctx id w).1 = none ↔ resp.StatusCode = 204)) ∧
    (∀ id idInt, Atoi id = .ok idInt → c.impl.respond w ctx (.get idInt) = .ok resp →
      (resp.StatusCode = 200 → (c.GetIncarnation lib ctx id w).1 = mapIncarnation lib resp.Body) ∧
      (resp.StatusCode ≠ 200 →
        ∃ e, (c.GetIncarnation lib ctx id w).1 = .ret (Incarnation.zero, some e))) ∧
    (∀ id idInt req, (encodeTemplateData lib req.TemplateData).2 = none → Atoi id = .ok idInt →
      c.impl.respond w ctx (.put idInt (updateBody lib req)) = .ok resp →
      (resp.StatusCode = 200 → (c.UpdateIncarnation lib ctx id req w).1 = mapIncarnation lib resp.Body) ∧
      (resp.StatusCode ≠ 200 →
        ∃ e, (c.UpdateIncarnation lib ctx id req w).1 = .ret (Incarnation.zero, some e))) ∧
    (∀ req, (encodeTemplateData lib req.TemplateData).2 = none →
      c.impl.respond w ctx (.post (createBody lib req)) = .ok resp →
      (resp.StatusCode = 201 → (c.CreateIncarnation lib ctx req w).1 = mapIncarnation lib resp.Body) ∧
      (resp.StatusCode ≠ 201 →
        ∃ e, (c.CreateIncarnation lib ctx req w).1 = .ret (Incarnation.zero, some e))) := by
  have hiff : ∀ expected, checkResponseStatus lib expected resp = none ↔ resp.StatusCode = expected := by
    intro expected
    constructor
    · intro h
      by_contra hne
      obtain ⟨e, he⟩ := checkResponseStatus_mismatch lib expected resp hne
      rw [he] at h
      cases h
    · exact checkResponseStatus_expected lib expected resp
  refine ⟨hiff, ?_, ?_, ?_, ?_⟩
  · intro id idInt hid hresp
    rw [← hiff 204]
    simp only [client.DeleteIncarnation, hid, ClientInterface.call, hresp, StatusNoContent]
    cases checkResponseStatus lib 204 resp <;> simp [WithStack]
  · intro id idInt hid hresp
    constructor
    · intro hcode
      simp [client.GetIncarnation, hid, ClientInterface.call, hresp,
        checkResponseStatus_expected lib StatusOK resp hcode, WithStack]
    · intro hcode
      obtain ⟨e, he⟩ := checkResponseStatus_mismatch lib StatusOK resp hcode
      exact ⟨.withStack e, by simp [client.GetIncarnation, hid, ClientInterface.call, hresp, he, WithStack]⟩
  · intro id idInt req henc hid hresp
    constructor
    · intro hcode
      simp [client.UpdateIncarnation, henc, hid, ClientInterface.call, hresp,
        checkResponseStatus_expected lib StatusOK resp hcode, WithStack]
    · intro hcode
      obtain ⟨e, he⟩ := checkResponseStatus_mismatch lib StatusOK resp hcode
      exact ⟨.withStack e,
        by simp [client.UpdateIncarnation, henc, hid, ClientInterface.call, hresp, he, WithStack]⟩
  · intro req henc hresp
    constructor
    · intro hcode
      simp [client.CreateIncarnation, henc, ClientInterface.call, hresp,
        checkResponseStatus_expected lib StatusCreated resp hcode, WithStack]
    · intro hcode
      obtain ⟨e, he⟩ := checkResponseStatus_mismatch lib StatusCreated resp hcode
      exact ⟨.withStack e,
        by simp [client.CreateIncarnation, henc, ClientInterface.call, hresp, he, WithStack]⟩

/-- C9, examples: a deletion answered with 204 returns no error, one answered
with 200 returns an error. -/
theorem C9_delete_examples :
    ((answering (.ok (emptyResponse 204))).DeleteIncarnation exampleLib .background "1234"
        World.initial).1 = none ∧
      ((answering (.ok (emptyResponse 200))).DeleteIncarnation exampleLib .background "1234"
        World.initial).1 ≠ none :=
  ⟨((C9_status_check_is_exact (answering (.ok (emptyResponse 204))) exampleLib .background
      World.initial (emptyResponse 204)).2.1 "1234" 1234 (by decide) (by rfl)).2 (by decide),
    fun h => absurd
      (((C9_status_check_is_exact (answering (.ok (emptyResponse 200))) exampleLib .background
        World.initial (emptyResponse 200)).2.1 "1234" 1234 (by decide) (by rfl)).1 h)
      (by decide)⟩

/-! ## The conversion of the identifier -/

/-- C10 as stated fails for `UpdateIncarnation`: with the identifier "abc" and
a template-data value `json.Marshal` refuses, the error returned is the stack
wrapper of the joined encoding error, in whose chain the error of the
identifier conversion does not occur. No request is issued. -/
theorem C10_update_returns_encoding_error_first :
    Atoi "abc" = .error (numError "abc" ErrSyntax) ∧
      (answering (.ok (emptyResponse 200))).UpdateIncarnation exampleLib .background "abc" nanRequest
          World.initial =
        (.ret (Incarnation.zero, some (.withStack (.join1 (.leaf "json: unsupported value: NaN")))),
          World.initial) ∧
      (GoError.withStack (.join1 (.leaf "json: unsupported value: NaN"))).Is
          (numError "abc" ErrSyntax) = false := by
  refine ⟨?_, ?_, ?_⟩ <;> decide

/-- C10, amended: for an identifier `strconv.Atoi` rejects (every string that
is not an optional sign followed by decimal digits is rejected, with a syntax
error), `GetIncarnation` and `DeleteIncarnation` return the error of the
conversion under a stack wrapper, and so does `UpdateIncarnation` when the
encoding of the template data raised no error; when it raised one,
`UpdateIncarnation` returns that error. In every case no request is issued and
the incarnation returned is the zero value. -/
theorem C10_malformed_identifier_is_reported_without_request (c : client) (lib : Lib)
    (ctx : Context) (id : IncarnationId) (w : World) (e : GoError) (hid : Atoi id = .error e) :
    (isDecimalInteger id = false → e = numError id ErrSyntax) ∧
    (GoError.withStack e).Is e = true ∧
    c.GetIncarnation lib ctx id w = (.ret (Incarnation.zero, some (.withStack e)), w) ∧
    c.DeleteIncarnation lib ctx id w = (some (.withStack e), w) ∧
    (∀ req, (encodeTemplateData lib req.TemplateData).2 = none →
      c.UpdateIncarnation lib ctx id req w = (.ret (Incarnation.zero, some (.withStack e)), w)) ∧
    (∀ req e2, (encodeTemplateData lib req.TemplateData).2 = some e2 →
      c.UpdateIncarnation lib ctx id req w = (.ret (Incarnation.zero, some (.withStack e2)), w)) := by
  refine ⟨?_, ?_, ?_, ?_, ?_, ?_⟩
  · intro hdec
    simp only [Atoi, hdec] at hid
    cases hid
    rfl
  · apply Is_withStack
    cases e <;> simp [GoError.Is, GoError.chain]
  · simp [client.GetIncarnation, hid, WithStack]
  · simp [client.DeleteIncarnation, hid, WithStack]
  · intro req henc
    simp [client.UpdateIncarnation, henc, hid, WithStack]
  · intro req e2 henc
    simp [client.UpdateIncarnation, henc, WithStack]

/-- C10, an example: the identifier "abc" makes `GetIncarnation` return the
zero incarnation and the syntax error of `strconv.Atoi`, without any request. -/
theorem C10_get_abc_example :
    (answering (.ok (emptyResponse 200))).GetIncarnation exampleLib .background "abc" World.initial =
      (.ret (Incarnation.zero, some (.withStack (numError "abc" ErrSyntax))), World.initial) :=
  (C10_malformed_identifier_is_reported_without_request (answering (.ok (emptyResponse 200)))
    exampleLib .background "abc" World.initial (numError "abc" ErrSyntax) (by decide)).2.2.1

/-! ## Lemmas on maps kept as lists -/

theorem mapGet_mapSet_self {α : Type} (m : List (String × α)) (k : String) (v : α) :
    mapGet (mapSet m k v) k = some v := by
  induction m with
  | nil => simp [mapSet, mapGet]
  | cons kv rest ih =>
    obtain ⟨k0, v0⟩ := kv
    by_cases h : k0 = k
    · simp [mapSet, mapGet, h]
    · simp [mapSet, mapGet, h, ih]

theorem mapGet_mapSet_ne {α : Type} (m : List (String × α)) (k k2 : String) (v : α) (h : k2 ≠ k) :
    mapGet (mapSet m k v) k2 = mapGet m k2 := by
  induction m with
  | nil => simp [mapSet, mapGet, Ne.symm h]
  | cons kv rest ih =>
    obtain ⟨k0, v0⟩ := kv
    by_cases h0 : k0 = k
    · subst h0
      simp [mapSet, mapGet, Ne.symm h]
    · by_cases h1 : k0 = k2
      · subst h1
        simp [mapSet, mapGet, h0]
      · simp [mapSet, mapGet, h0, h1, ih]

theorem mapKeys_mapSet_new {α : Type} (m : List (String × α)) (k : String) (v : α)
    (h : k ∉ mapKeys m) : mapKeys (mapSet m k v) = mapKeys m ++ [k] := by
  induction m with
  | nil => simp [mapSet, mapKeys]
  | cons kv rest ih =>
    obtain ⟨k0, v0⟩ := kv
    simp only [mapKeys, List.map_cons, List.mem_cons, not_or] at h
    have h0 : k0 ≠ k := fun e => h.1 e.symm
    have := ih (by simpa [mapKeys] using h.2)
    simp only [mapKeys] at this
    simp [mapSet, mapKeys, h0, this]

/-- A loop whose turn stores under the key of the entry the value a function
gives for it, when it gives one: a key all of whose entries give none keeps
what it had. -/
theorem foldl_set_unchanged {α β ε : Type}
    (step : List (String × α) × ε → String × β → List (String × α) × ε) (g : β → Option α)
    (hstep : ∀ acc e, (step acc e).1 = match g e.2 with
      | some v => mapSet acc.1 e.1 v
      | none => acc.1)
    (k : String) :
    ∀ (l : List (String × β)) (acc : List (String × α) × ε),
      (∀ u, (k, u) ∈ l → g u = none) → mapGet (l.foldl step acc).1 k = mapGet acc.1 k := by
  intro l
  induction l with
  | nil => intro acc _; rfl
  | cons e rest ih =>
    intro acc h
    obtain ⟨k0, u0⟩ := e
    simp only [List.foldl_cons]
    rw [ih _ (fun u hu => h u (List.mem_cons_of_mem _ hu)), hstep]
    cases hg : g u0 with
    | none => rfl
    | some v =>
      simp only
      apply mapGet_mapSet_ne
      intro hk
      subst hk
      have := h u0 (List.mem_cons_self _ _)
      rw [hg] at this
      cases this

/-- In such a loop over distinct keys, a key whose entry gives a value holds
that value at the end. -/
theorem foldl_set_get {α β ε : Type}
    (step : List (String × α) × ε → String × β → List (String × α) × ε) (g : β → Option α)
    (hstep : ∀ acc e, (step acc e).1 = match g e.2 with
      | some v => mapSet acc.1 e.1 v
      | none => acc.1)
    (k : String) (u : β) (v : α) :
    ∀ (l : List (String × β)) (acc : List (String × α) × ε),
      (mapKeys l).Nodup → (k, u) ∈ l → g u = some v → mapGet (l.foldl step acc).1 k = some v := by
  intro l
  induction l with
  | nil => intro acc _ hmem; cases hmem
  | cons e rest ih =>
    intro acc hnd hmem hg
    obtain ⟨k0, u0⟩ := e
    simp only [mapKeys, List.map_cons, List.nodup_cons] at hnd
    simp only [List.foldl_cons]
    rcases List.mem_cons.1 hmem with heq | hin
    · cases heq
      rw [foldl_set_unchanged step g hstep k rest, hstep]
      · simp only [hg]
        exact mapGet_mapSet_self _ _ _
      · intro u2 hu2
        exact absurd (List.mem_map_of_mem Prod.fst hu2) hnd.1
    · exact ih _ (by simpa [mapKeys] using hnd.2) hin hg

/-- In such a loop that stores a value for every entry, over distinct keys
that are new to the map, the keys at the end are the old ones followed by
those of the entries. -/
theorem foldl_set_keys {α β ε : Type}
    (step : List (String × α) × ε → String × β → List (String × α) × ε) (g : β → α)
    (hstep : ∀ acc e, (step acc e).1 = mapSet acc.1 e.1 (g e.2)) :
    ∀ (l : List (String × β)) (acc : List (String × α) × ε),
      (mapKeys acc.1 ++ mapKeys l).Nodup →
      mapKeys (l.foldl step acc).1 = mapKeys acc.1 ++ mapKeys l := by
  intro l
  induction l with
  | nil => intro acc _; simp [mapKeys]
  | cons e rest ih =>
    intro acc hnd
    obtain ⟨k0, u0⟩ := e
    have hnew : k0 ∉ mapKeys acc.1 := by
      intro hin
      have := List.nodup_append.1 hnd
      exact this.2.2 hin (by simp [mapKeys])
    have hkeys : mapKeys (step acc (k0, u0)).1 = mapKeys acc.1 ++ [k0] := by
      rw [hstep]
      exact mapKeys_mapSet_new _ _ _ hnew
    simp only [List.foldl_cons]
    rw [ih (step acc (k0, u0)), hkeys]
    · simp [mapKeys]
    · rw [hkeys]
      simpa [mapKeys, List.append_assoc] using hnd

/-! ## Lemmas on the two loops over template data -/

theorem encodeTemplateDataStep_fst (lib : Lib) (acc : List (String × TemplateDataUnion) × Option GoError)
    (e : String × GoValue) :
    (encodeTemplateDataStep lib acc e).1 = mapSet acc.1 e.1 (encodedUnion lib e.2) := by
  obtain ⟨k, v⟩ := e
  cases v with
  | float kind f =>
    by_cases h : kind = lib.TemplateData2 <;> simp [encodeTemplateDataStep, encodedUnion, h]
  | _ => simp [encodeTemplateDataStep, encodedUnion]

theorem encodeTemplateData_get (lib : Lib) (templateData : List (String × GoValue))
    (hkeys : (mapKeys templateData).Nodup) (key : String) (v : GoValue)
    (hmem : (key, v) ∈ templateData) :
    mapGet (encodeTemplateData lib templateData).1 key = some (encodedUnion lib v) :=
  foldl_set_get (encodeTemplateDataStep lib) (fun v => some (encodedUnion lib v))
    (fun acc e => encodeTemplateDataStep_fst lib acc e) key v (encodedUnion lib v)
    templateData ([], none) hkeys hmem rfl

theorem encodeTemplateData_keys (lib : Lib) (templateData : List (String × GoValue))
    (hkeys : (mapKeys templateData).Nodup) :
    mapKeys (encodeTemplateData lib templateData).1 = mapKeys templateData := by
  have := foldl_set_keys (encodeTemplateDataStep lib) (encodedUnion lib)
    (fun acc e => encodeTemplateDataStep_fst lib acc e) templateData ([], none)
    (by simpa [mapKeys] using hkeys)
  simpa [encodeTemplateData, mapKeys] using this

/-! ## The encoding of template data -/

/-- C12 as stated fails: with `float32` for the type of variant 2, a
`float64` and an `int64` match none of the three type assertions. The entries
written under their keys are unions that no variant built, without any
error, and `CreateIncarnation` sends the body with them. -/
theorem C12_float64_is_built_by_no_variant :
    exampleLib.TemplateData2 = .float32 ∧
    encodeTemplateData exampleLib wideTemplateData =
      ([("ratio", { union := none }), ("big", { union := none })], none) ∧
    (TemplateDataUnion.From (exampleLib.MarshalFloat float32ThreeAndHalf)).1 =
      { union := some "3.5" } ∧
    ((answeringIncarnation 201 none).CreateIncarnation exampleLib .background
        (exampleCreateRequest wideTemplateData) World.initial).2.requests =
      [.post
        { IncarnationRepository := "inc/repo"
          TargetDirectory := some "."
          TemplateData := [("ratio", { union := none }), ("big", { union := none })]
          TemplateRepository := "template/repo"
          TemplateRepositoryVersion := "template/repo/version" }] := by
  refine ⟨?_, ?_, ?_, ?_⟩ <;> decide

/-- C12, amended: for a request whose template data has distinct keys (a Go map), the
body of `CreateIncarnation` and of `UpdateIncarnation` has the keys of the
template data, and under the key of a string the union set by the setter of
variant 0, under the key of an `int` that of variant 1, under the key of a
float of the type of variant 2 that of variant 2; this body is the one sent
when the encoding raised no error. -/
theorem C12_body_entries_follow_runtime_type (c : client) (lib : Lib) (ctx : Context) (w : World)
    (templateData : List (String × GoValue)) (hkeys : (mapKeys templateData).Nodup) :
    mapKeys (encodeTemplateData lib templateData).1 = mapKeys templateData ∧
    (∀ key s, (key, GoValue.str s) ∈ templateData →
      mapGet (encodeTemplateData lib templateData).1 key =
        some (TemplateDataUnion.From (lib.MarshalString s)).1) ∧
    (∀ key n, (key, GoValue.int n) ∈ templateData →
      mapGet (encodeTemplateData lib templateData).1 key =
        some (TemplateDataUnion.From (lib.MarshalInt n)).1) ∧
    (∀ key f, (key, GoValue.float lib.TemplateData2 f) ∈ templateData →
      mapGet (encodeTemplateData lib templateData).1 key =
        some (TemplateDataUnion.From (lib.MarshalFloat f)).1) ∧
    (∀ req : CreateIncarnationRequest, req.TemplateData = templateData →
      (createBody lib req).TemplateData = (encodeTemplateData lib templateData).1 ∧
      ((encodeTemplateData lib templateData).2 = none →
        (c.CreateIncarnation lib ctx req w).2.requests = w.requests ++ [.post (createBody lib req)])) ∧
    (∀ (req : UpdateIncarnationRequest) id idInt, req.TemplateData = templateData →
      (updateBody lib req).TemplateData = (encodeTemplateData lib templateData).1 ∧
      ((encodeTemplateData lib templateData).2 = none → Atoi id = .ok idInt →
        (c.UpdateIncarnation lib ctx id req w).2.requests =
          w.requests ++ [.put idInt (updateBody lib req)])) := by
  refine ⟨encodeTemplateData_keys lib templateData hkeys, ?_, ?_, ?_, ?_, ?_⟩
  · intro key s hmem
    rw [encodeTemplateData_get lib templateData hkeys key _ hmem]
    rfl
  · intro key n hmem
    rw [encodeTemplateData_get lib templateData hkeys key _ hmem]
    rfl
  · intro key f hmem
    rw [encodeTemplateData_get lib templateData hkeys key _ hmem]
    simp [encodedUnion]
  · intro req hreq
    subst hreq
    refine ⟨rfl, ?_⟩
    intro henc
    simp only [client.CreateIncarnation, henc, ClientInterface.call]
    cases c.impl.respond w ctx (.post (createBody lib req)) with
    | error e => rfl
    | ok resp =>
      simp only
      cases WithStack (checkResponseStatus lib StatusCreated resp) <;> rfl
  · intro req id idInt hreq
    subst hreq
    refine ⟨rfl, ?_⟩
    intro henc hid
    simp only [client.UpdateIncarnation, henc, hid, ClientInterface.call]
    cases c.impl.respond w ctx (.put idInt (updateBody lib req)) with
    | error e => rfl
    | ok resp =>
      simp only
      cases WithStack (checkResponseStatus lib StatusOK resp) <;> rfl

/-- C12, an example: a string, an `int` and a `float32` are sent as the JSON
texts of variant 0, 1 and 2, under their three keys. -/
theorem C12_example_body :
    mapKeys (encodeTemplateData exampleLib exampleTemplateData).1 = ["name", "replicas", "ratio"] ∧
    mapGet (encodeTemplateData exampleLib exampleTemplateData).1 "name" =
      some { union := some "\"demo\"" } ∧
    mapGet (encodeTemplateData exampleLib exampleTemplateData).1 "replicas" =
      some { union := some "3" } ∧
    mapGet (encodeTemplateData exampleLib exampleTemplateData).1 "ratio" =
      some { union := some "3.5" } :=
  have h := C12_body_entries_follow_runtime_type (answering (.ok (emptyResponse 201))) exampleLib
    .background World.initial exampleTemplateData (by decide)
  ⟨h.1.trans (by decide), (h.2.1 "name" "demo" (by decide)).trans (by decide),
    (h.2.2.1 "replicas" 3 (by decide)).trans (by decide),
    (h.2.2.2.1 "ratio" float32ThreeAndHalf (by decide)).trans (by decide)⟩

/-- C13 (the code departs from it): the chain of type assertions of
`CreateIncarnation` and `UpdateIncarnation` has no final `else`. For template
data holding a `bool`, nil, a nested map and an `int64`, the loop raises no
error, the request is sent, and its body holds under each of the four keys a
union that was never set; both operations go on and return the incarnation of
the response without error. -/
theorem C13_other_types_are_sent_as_empty_unions :
    (encodeTemplateData exampleLib otherTypesTemplateData).2 = none ∧
    ((answeringIncarnation 201 none).CreateIncarnation exampleLib .background
        (exampleCreateRequest otherTypesTemplateData) World.initial) =
      (.ret (exampleIncarnation none, none),
        { requests := [.post
            { IncarnationRepository := "inc/repo"
              TargetDirectory := some "."
              TemplateData := [("flag", { union := none }), ("nothing", { union := none }),
                ("nested", { union := none }), ("big", { union := none })]
              TemplateRepository := "template/repo"
              TemplateRepositoryVersion := "template/repo/version" }],
          sleeps := 0 }) ∧
    ((answeringIncarnation 200 none).UpdateIncarnation exampleLib .background "1234"
        (exampleUpdateRequest otherTypesTemplateData) World.initial) =
      (.ret (exampleIncarnation none, none),
        { requests := [.put 1234
            { Automerge := true
              TemplateData := [("flag", { union := none }), ("nothing", { union := none }),
                ("nested", { union := none }), ("big", { union := none })]
              TemplateRepositoryVersion := "template/repo/version" }],
          sleeps := 0 }) := by
  refine ⟨?_, ?_, ?_⟩ <;> decide

/-! ## Lemmas on `mapIncarnation` -/

theorem mapIncarnation_ret (lib : Lib) (body : Body) (data : IncarnationWithDetails)
    (tr tv : String) (hdec : lib.DecodeIncarnation body = .ok data)
    (htr : data.TemplateRepository = some tr) (htv : data.TemplateRepositoryVersion = some tv) :
    mapIncarnation lib body =
      .ret ({ Id := sprintfD data.Id
              IncarnationRepository := data.IncarnationRepository
              TargetDirectory := data.TargetDirectory
              TemplateData := (mappedTemplateData lib data).1
              TemplateRepository := tr
              TemplateRepositoryVersion := tv
              MergeRequestUrl := data.MergeRequestUrl
              CommitSha := data.CommitSha
              CommitUrl := data.CommitUrl
              MergeRequestStatus := stringStatus data.MergeRequestStatus
              MergeRequestId := data.MergeRequestId }, (mappedTemplateData lib data).2) := by
  unfold mapIncarnation
  rw [hdec]
  simp only [htr, htv, mappedTemplateData]
  rcases hs : data.MergeRequestStatus with _ | v
  · rcases htd : data.TemplateData with _ | td <;> simp [stringStatus]
  · cases v <;> rcases htd : data.TemplateData with _ | td <;> simp [stringStatus]

theorem mapIncarnation_fault (lib : Lib) (body : Body) (data : IncarnationWithDetails)
    (hdec : lib.DecodeIncarnation body = .ok data)
    (hnil : data.TemplateRepository = none ∨ data.TemplateRepositoryVersion = none) :
    mapIncarnation lib body = .fault "invalid memory address or nil pointer dereference" := by
  unfold mapIncarnation
  rw [hdec]
  simp only
  rcases htr : data.TemplateRepository with _ | tr
  · simp
  · rcases htv : data.TemplateRepositoryVersion with _ | tv
    · simp
    · rcases hnil with h | h
      · rw [htr] at h; cases h
      · rw [htv] at h; cases h

theorem decodeTemplateDatum_fails (lib : Lib) (value : TemplateDataUnion)
    (h : failsAllAccessors lib value = true) :
    decodeTemplateDatum lib value = (none, lastAccessorError lib value) ∧
      (lastAccessorError lib value).isSome = true := by
  unfold failsAllAccessors at h
  unfold decodeTemplateDatum lastAccessorError
  cases h0 : value.AsTemplateData0 lib <;> cases h1 : value.AsTemplateData1 lib <;>
    cases h2 : value.AsTemplateData2 lib <;> simp_all

theorem decodeTemplateDatum_succeeds (lib : Lib) (value : TemplateDataUnion)
    (h : failsAllAccessors lib value = false) :
    ∃ v, decodeTemplateDatum lib value = (some v, none) := by
  unfold failsAllAccessors at h
  unfold decodeTemplateDatum
  cases h0 : value.AsTemplateData0 lib <;> cases h1 : value.AsTemplateData1 lib <;>
    cases h2 : value.AsTemplateData2 lib <;> simp_all

theorem mapTemplateDataStep_fst (lib : Lib) (acc : List (String × GoValue) × Option GoError)
    (e : String × TemplateDataUnion) :
    (mapTemplateDataStep lib acc e).1 =
      match (decodeTemplateDatum lib e.2).1 with
      | some v => mapSet acc.1 e.1 v
      | none => acc.1 := by
  unfold mapTemplateDataStep
  rcases hd : decodeTemplateDatum lib e.2 with ⟨_ | v, newErr⟩ <;> rfl

theorem mapTemplateDataStep_snd (lib : Lib) (acc : List (String × GoValue) × Option GoError)
    (e : String × TemplateDataUnion) :
    (mapTemplateDataStep lib acc e).2 = Join acc.2 (decodeTemplateDatum lib e.2).2 := by
  unfold mapTemplateDataStep
  rcases hd : decodeTemplateDatum lib e.2 with ⟨_ | v, newErr⟩ <;> rfl

theorem heldErrors_Join (a b : Option GoError) :
    heldErrors (Join a b) = heldErrors a ++ heldErrors b := by
  cases a <;> cases b <;> simp [Join, heldErrors, joinLeaves]

/-- The errors the loop of `mapIncarnation` holds at its end: those it held
before, then the error of the last accessor for each entry that fails all
accessors, in the order of the loop. -/
theorem mapTemplateData_heldErrors (lib : Lib) :
    ∀ (td : List (String × TemplateDataUnion)) (acc : List (String × GoValue) × Option GoError),
      (∀ ku ∈ td, ∀ e, ku.2.AsTemplateData2 lib = .error e → joinLeaves e = [e]) →
      heldErrors (td.foldl (mapTemplateDataStep lib) acc).2 =
        heldErrors acc.2 ++
          (td.filter (fun ku => failsAllAccessors lib ku.2)).filterMap
            (fun ku => lastAccessorError lib ku.2) := by
  intro td
  induction td with
  | nil => intro acc _; simp
  | cons ku rest ih =>
    intro acc hleaf
    simp only [List.foldl_cons]
    rw [ih _ (fun x hx => hleaf x (List.mem_cons_of_mem _ hx)), mapTemplateDataStep_snd,
      heldErrors_Join]
    cases hf : failsAllAccessors lib ku.2 with
    | false =>
      obtain ⟨v, hv⟩ := decodeTemplateDatum_succeeds lib ku.2 hf
      simp [hv, hf, heldErrors]
    | true =>
      obtain ⟨hd, hsome⟩ := decodeTemplateDatum_fails lib ku.2 hf
      obtain ⟨e, he⟩ := Option.isSome_iff_exists.1 hsome
      have hlast : ku.2.AsTemplateData2 lib = .error e := by
        unfold lastAccessorError at he
        cases h2 : ku.2.AsTemplateData2 lib with
        | error e2 => rw [h2] at he; cases he; rfl
        | ok v => rw [h2] at he; cases he
      have := hleaf ku (List.mem_cons_self _ _) e hlast
      simp [hd, hf, he, heldErrors, this]

theorem mapTemplateData_get (lib : Lib) (key : String) (value : TemplateDataUnion) (v : GoValue)
    (td : List (String × TemplateDataUnion)) (acc : List (String × GoValue) × Option GoError)
    (hkeys : (mapKeys td).Nodup) (hmem : (key, value) ∈ td)
    (hv : (decodeTemplateDatum lib value).1 = some v) :
    mapGet (td.foldl (mapTemplateDataStep lib) acc).1 key = some v := by
  refine foldl_set_get (mapTemplateDataStep lib) (fun u => (decodeTemplateDatum lib u).1) ?_
    key value v td acc hkeys hmem hv
  intro acc e
  rw [mapTemplateDataStep_fst]
  rcases hd : (decodeTemplateDatum lib e.2).1 with _ | v0 <;> simp [hd]

theorem mapTemplateData_absent (lib : Lib) (key : String)
    (td : List (String × TemplateDataUnion)) (acc : List (String × GoValue) × Option GoError)
    (hfail : ∀ u, (key, u) ∈ td → (decodeTemplateDatum lib u).1 = none) :
    mapGet (td.foldl (mapTemplateDataStep lib) acc).1 key = mapGet acc.1 key := by
  refine foldl_set_unchanged (mapTemplateDataStep lib) (fun u => (decodeTemplateDatum lib u).1) ?_
    key td acc hfail
  intro acc e
  rw [mapTemplateDataStep_fst]
  rcases hd : (decodeTemplateDatum lib e.2).1 with _ | v0 <;> simp [hd]

theorem joinLeaves_ne_nil (e : GoError) : joinLeaves e ≠ [] := by
  induction e with
  | join1 a ih => simpa [joinLeaves] using ih
  | join2 a b iha _ => simp [joinLeaves, iha]
  | _ => simp [joinLeaves]

theorem heldErrors_eq_nil (err : Option GoError) : heldErrors err = [] ↔ err = none := by
  cases err with
  | none => simp [heldErrors]
  | some e => simp [heldErrors, joinLeaves_ne_nil]

theorem failing_filterMap_length (lib : Lib) (td : List (String × TemplateDataUnion)) :
    ((td.filter (fun ku => failsAllAccessors lib ku.2)).filterMap
      (fun ku => lastAccessorError lib ku.2)).length =
      (td.filter (fun ku => failsAllAccessors lib ku.2)).length := by
  induction td with
  | nil => rfl
  | cons ku rest ih =>
    cases hf : failsAllAccessors lib ku.2 with
    | false => simpa [List.filter_cons, hf] using ih
    | true =>
      obtain ⟨e, he⟩ := Option.isSome_iff_exists.1 (decodeTemplateDatum_fails lib ku.2 hf).2
      simp [List.filter_cons, hf, List.filterMap_cons, he, ih]

theorem mem_unique_of_nodup_keys {α : Type} (k : String) (u u2 : α) :
    ∀ l : List (String × α), (mapKeys l).Nodup → (k, u) ∈ l → (k, u2) ∈ l → u2 = u := by
  intro l
  induction l with
  | nil => intro _ h; cases h
  | cons e rest ih =>
    intro hnd h1 h2
    simp only [mapKeys, List.map_cons, List.nodup_cons] at hnd
    rcases List.mem_cons.1 h1 with e1 | m1 <;> rcases List.mem_cons.1 h2 with e2 | m2
    · rw [← e1] at e2
      cases e2
      rfl
    · subst e1
      exact absurd (List.mem_map_of_mem Prod.fst m2) hnd.1
    · subst e2
      exact absurd (List.mem_map_of_mem Prod.fst m1) hnd.1
    · exact ih (by simpa [mapKeys] using hnd.2) m1 m2

/-! ## The decoding of template data -/

/-- C14: for an entry of the template data of a response, the chain of
`mapIncarnation` gives the value of accessor 0 when it succeeds, whatever
accessors 1 and 2 would give; otherwise the value of accessor 1 when it
succeeds, whatever accessor 2 would give; otherwise the value of accessor 2
when it succeeds; otherwise no value and the error of accessor 2. For a body
that decodes with distinct keys, the value stored under the key of an entry
is the value the chain gives for it. -/
theorem C14_first_successful_accessor_is_stored (lib : Lib) (value : TemplateDataUnion) :
    (∀ lib2 : Lib, lib2.UnmarshalString = lib.UnmarshalString →
      ∀ v, value.AsTemplateData0 lib = .ok v →
        decodeTemplateDatum lib2 value = (some (.str v), none)) ∧
    (∀ lib2 : Lib, lib2.UnmarshalString = lib.UnmarshalString →
      lib2.UnmarshalInt = lib.UnmarshalInt →
      ∀ e v, value.AsTemplateData0 lib = .error e → value.AsTemplateData1 lib = .ok v →
        decodeTemplateDatum lib2 value = (some (.int v), none)) ∧
    (∀ e1 e2 v, value.AsTemplateData0 lib = .error e1 → value.AsTemplateData1 lib = .error e2 →
      value.AsTemplateData2 lib = .ok v →
        decodeTemplateDatum lib value = (some (.float lib.TemplateData2 v), none)) ∧
    (∀ e1 e2 e3, value.AsTemplateData0 lib = .error e1 → value.AsTemplateData1 lib = .error e2 →
      value.AsTemplateData2 lib = .error e3 → decodeTemplateDatum lib value = (none, some e3)) ∧
    (∀ body data tr tv key v, lib.DecodeIncarnation body = .ok data →
      data.TemplateRepository = some tr → data.TemplateRepositoryVersion = some tv →
      (mapKeys (data.TemplateData.getD [])).Nodup → (key, value) ∈ data.TemplateData.getD [] →
      (decodeTemplateDatum lib value).1 = some v →
      ∃ inc err, mapIncarnation lib body = .ret (inc, err) ∧ mapGet inc.TemplateData key = some v) := by
  refine ⟨?_, ?_, ?_, ?_, ?_⟩
  · intro lib2 hs v h0
    simp only [TemplateDataUnion.AsTemplateData0] at h0
    simp [decodeTemplateDatum, TemplateDataUnion.AsTemplateData0, hs, h0]
  · intro lib2 hs hi e v h0 h1
    simp only [TemplateDataUnion.AsTemplateData0, TemplateDataUnion.AsTemplateData1] at h0 h1
    simp [decodeTemplateDatum, TemplateDataUnion.AsTemplateData0, TemplateDataUnion.AsTemplateData1,
      hs, hi, h0, h1]
  · intro e1 e2 v h0 h1 h2
    simp [decodeTemplateDatum, h0, h1, h2]
  · intro e1 e2 e3 h0 h1 h2
    simp [decodeTemplateDatum, h0, h1, h2]
  · intro body data tr tv key v hdec htr htv hkeys hmem hv
    refine ⟨_, _, mapIncarnation_ret lib body data tr tv hdec htr htv, ?_⟩
    exact mapTemplateData_get lib key value v _ ([], none) hkeys hmem hv

/-- C14, an example: the text `3` is not a string, so accessor 1 gives the
`int` 3, which is what is stored under its key; the text `"demo"` is stored as
a string by accessor 0. -/
theorem C14_example_entries :
    decodeTemplateDatum exampleLib { union := some "3" } = (some (.int 3), none) ∧
    decodeTemplateDatum exampleLib { union := some "\"demo\"" } = (some (.str "demo"), none) ∧
    ∃ inc err, mapIncarnation (decodingTo exampleDetailsWithData) someBody = .ret (inc, err) ∧
      mapGet inc.TemplateData "replicas" = some (.int 3) :=
  ⟨(C14_first_successful_accessor_is_stored exampleLib { union := some "3" }).2.1 exampleLib rfl rfl
      (.leaf "json: cannot unmarshal into Go value of type string") 3 (by decide) (by decide),
    (C14_first_successful_accessor_is_stored exampleLib { union := some "\"demo\"" }).1 exampleLib rfl
      "demo" (by decide),
    (C14_first_successful_accessor_is_stored (decodingTo exampleDetailsWithData)
      { union := some "3" }).2.2.2.2 someBody exampleDetailsWithData "template/repo"
      "template/repo/version" "replicas" (.int 3) rfl rfl rfl (by decide) (by decide) (by decide)⟩

/-- C15: for a body that decodes (with the two required fields and distinct
template-data keys; the errors of the accessors are not themselves joined
errors), `mapIncarnation` returns an error exactly when an entry fails all
three accessors; the errors held by the joined error are the errors of the
last accessor for the failing entries, one for each, in the order of the loop;
every entry that some accessor accepts is in the template data returned, with
the value of that accessor, whether or not other entries fail; the key of a
failing entry is absent. This holds for every order of the entries. -/
theorem C15_partial_failure_decode (lib : Lib) (body : Body) (data : IncarnationWithDetails)
    (tr tv : String) (td : List (String × TemplateDataUnion))
    (hdec : lib.DecodeIncarnation body = .ok data)
    (htr : data.TemplateRepository = some tr) (htv : data.TemplateRepositoryVersion = some tv)
    (htd : data.TemplateData.getD [] = td) (hkeys : (mapKeys td).Nodup)
    (hleaf : ∀ ku ∈ td, ∀ e, ku.2.AsTemplateData2 lib = .error e → joinLeaves e = [e]) :
    ∃ inc err, mapIncarnation lib body = .ret (inc, err) ∧
      (err ≠ none ↔ ∃ ku ∈ td, failsAllAccessors lib ku.2 = true) ∧
      heldErrors err =
        (td.filter (fun ku => failsAllAccessors lib ku.2)).filterMap
          (fun ku => lastAccessorError lib ku.2) ∧
      (heldErrors err).length = (td.filter (fun ku => failsAllAccessors lib ku.2)).length ∧
      (∀ key u, (key, u) ∈ td → failsAllAccessors lib u = false →
        ∃ v, (decodeTemplateDatum lib u).1 = some v ∧ mapGet inc.TemplateData key = some v) ∧
      (∀ key u, (key, u) ∈ td → failsAllAccessors lib u = true →
        mapGet inc.TemplateData key = none) := by
  refine ⟨_, _, mapIncarnation_ret lib body data tr tv hdec htr htv, ?_⟩
  have hheld : heldErrors (mappedTemplateData lib data).2 =
      (td.filter (fun ku => failsAllAccessors lib ku.2)).filterMap
        (fun ku => lastAccessorError lib ku.2) := by
    have := mapTemplateData_heldErrors lib td ([], none) hleaf
    simpa [mappedTemplateData, htd, heldErrors] using this
  have hlen := failing_filterMap_length lib td
  refine ⟨?_, hheld, by rw [hheld, hlen], ?_, ?_⟩
  · rw [Ne, ← heldErrors_eq_nil, ← List.length_eq_zero, hheld, hlen, List.length_eq_zero]
    constructor
    · intro h
      obtain ⟨ku, hku⟩ := List.exists_mem_of_ne_nil _ h
      obtain ⟨hmem, hf⟩ := List.mem_filter.1 hku
      exact ⟨ku, hmem, by simpa using hf⟩
    · rintro ⟨ku, hmem, hf⟩ hnil
      have : ku ∈ td.filter (fun ku => failsAllAccessors lib ku.2) :=
        List.mem_filter.2 ⟨hmem, by simpa using hf⟩
      rw [hnil] at this
      cases this
  · intro key u hmem hf
    obtain ⟨v, hv⟩ := decodeTemplateDatum_succeeds lib u hf
    refine ⟨v, by rw [hv], ?_⟩
    simp only [mappedTemplateData, htd]
    exact mapTemplateData_get lib key u v td ([], none) hkeys hmem (by rw [hv])
  · intro key u hmem hf
    simp only [mappedTemplateData, htd]
    rw [mapTemplateData_absent lib key td ([], none)]
    · rfl
    · intro u2 hmem2
      have := mem_unique_of_nodup_keys key u u2 td hkeys hmem hmem2
      subst this
      rw [(decodeTemplateDatum_fails lib u2 hf).1]

/-- C15, an example: of the entries "name", "replicas", "flag" and "ratio"
only "flag", the boolean `true`, fails; the error returned holds its one
error, "flag" is absent and the three others are present. -/
theorem C15_example_one_failing_key :
    ∃ inc err, mapIncarnation (decodingTo exampleDetailsWithData) someBody = .ret (inc, err) ∧
      heldErrors err = [.leaf "json: cannot unmarshal into Go value of type float32"] ∧
      mapGet inc.TemplateData "flag" = none ∧
      mapGet inc.TemplateData "name" = some (.str "demo") ∧
      mapGet inc.TemplateData "replicas" = some (.int 3) ∧
      mapGet inc.TemplateData "ratio" = some (.float .float32 float32ThreeAndHalf) := by
  obtain ⟨inc, err, hmap, _, hheld, _, hpresent, habsent⟩ :=
    C15_partial_failure_decode (decodingTo exampleDetailsWithData) someBody exampleDetailsWithData
      "template/repo" "template/repo/version" exampleWireTemplateData rfl rfl rfl rfl (by decide)
      (fun ku _ e h => by
        have he : e = .leaf "json: cannot unmarshal into Go value of type float32" := by
          simp only [TemplateDataUnion.AsTemplateData2, decodingTo, exampleLib] at h
          split_ifs at h
          cases h
          rfl
        subst he
        rfl)
  refine ⟨inc, err, hmap, hheld.trans (by decide),
    habsent "flag" { union := some "true" } (by decide) (by decide), ?_, ?_, ?_⟩
  · obtain ⟨v, hv, hget⟩ := hpresent "name" { union := some "\"demo\"" } (by decide) (by decide)
    rw [hget, ← hv]
    decide
  · obtain ⟨v, hv, hget⟩ := hpresent "replicas" { union := some "3" } (by decide) (by decide)
    rw [hget, ← hv]
    decide
  · obtain ⟨v, hv, hget⟩ := hpresent "ratio" { union := some "3.5" } (by decide) (by decide)
    rw [hget, ← hv]
    decide

/-! ## The optional and the required fields of a response -/

/-- C16: for a body that decodes (with the two required fields),
`mapIncarnation` returns an incarnation whose merge-request status is a string
`s` exactly when the decoded `merge_request_status` holds the string `s`; a
number, a boolean, an object, an array or an absent field leave it nil; and
the error returned is the one returned for the same body with any other
content of that field, so the field alone never produces an error. -/
theorem C16_status_is_set_only_from_a_string (lib : Lib) (body : Body)
    (data : IncarnationWithDetails) (tr tv : String)
    (hdec : lib.DecodeIncarnation body = .ok data)
    (htr : data.TemplateRepository = some tr) (htv : data.TemplateRepositoryVersion = some tv) :
    ∃ inc err, mapIncarnation lib body = .ret (inc, err) ∧
      (∀ s, inc.MergeRequestStatus = some s ↔ data.MergeRequestStatus = some (.str s)) ∧
      (data.MergeRequestStatus = none → inc.MergeRequestStatus = none) ∧
      (∀ kind f, data.MergeRequestStatus = some (.float kind f) → inc.MergeRequestStatus = none) ∧
      (∀ b, data.MergeRequestStatus = some (.bool b) → inc.MergeRequestStatus = none) ∧
      (∀ typeName, data.MergeRequestStatus = some (.other typeName) →
        inc.MergeRequestStatus = none) ∧
      (∀ x : Option GoValue,
        mapIncarnation { lib with DecodeIncarnation := fun _ => .ok { data with MergeRequestStatus := x } }
            body =
          .ret ({ inc with MergeRequestStatus := stringStatus x }, err)) := by
  refine ⟨_, _, mapIncarnation_ret lib body data tr tv hdec htr htv, ?_, ?_, ?_, ?_, ?_, ?_⟩
  · intro s
    simp only
    rcases hs : data.MergeRequestStatus with _ | v
    · simp [stringStatus]
    · cases v <;> simp [stringStatus]
  · intro h
    simp [h, stringStatus]
  · intro kind f h
    simp [h, stringStatus]
  · intro b h
    simp [h, stringStatus]
  · intro typeName h
    simp [h, stringStatus]
  · intro x
    rw [mapIncarnation_ret
      { lib with DecodeIncarnation := fun _ => .ok { data with MergeRequestStatus := x } } body
      { data with MergeRequestStatus := x } tr tv rfl htr htv]
    rfl

/-- C16, an example: the incarnation 1234 whose `merge_request_status` is the
number 3 is returned with a merge-request id, no status and no error. -/
theorem C16_example_numeric_status :
    mapIncarnation
        (decodingTo
          { exampleDetails (some "open") with
            MergeRequestStatus := some (.float .float64 { bits := 0x4008000000000000 }) })
        someBody =
      .ret ({ exampleIncarnation (some "open") with MergeRequestStatus := none }, none) := by
  obtain ⟨inc, err, hmap, _, _, hnum, _⟩ :=
    C16_status_is_set_only_from_a_string
      (decodingTo
        { exampleDetails (some "open") with
          MergeRequestStatus := some (.float .float64 { bits := 0x4008000000000000 }) })
      someBody
      { exampleDetails (some "open") with
        MergeRequestStatus := some (.float .float64 { bits := 0x4008000000000000 }) }
      "template/repo" "template/repo/version" rfl rfl rfl
  have hstatus := hnum .float64 { bits := 0x4008000000000000 } rfl
  rw [hmap]
  have hd : mapIncarnation
        (decodingTo
          { exampleDetails (some "open") with
            MergeRequestStatus := some (.float .float64 { bits := 0x4008000000000000 }) })
        someBody =
      .ret ({ exampleIncarnation (some "open") with MergeRequestStatus := none }, none) := by
    decide
  rw [hmap] at hd
  exact hd

/-- C18: `mapIncarnation` returns for every body that does not decode (the
zero incarnation and the error) and for every body that decodes with both
`template_repository` and `template_repository_version`; for a body that
decodes without one of them it panics on the nil pointer. -/
theorem C18_fault_exactly_when_required_field_is_nil (lib : Lib) (body : Body) :
    (∀ e, lib.DecodeIncarnation body = .error e →
      mapIncarnation lib body = .ret (Incarnation.zero, some (.withStack e))) ∧
    (∀ data, lib.DecodeIncarnation body = .ok data →
      ((∃ tr tv, data.TemplateRepository = some tr ∧ data.TemplateRepositoryVersion = some tv) →
        ∃ inc err, mapIncarnation lib body = .ret (inc, err)) ∧
      ((data.TemplateRepository = none ∨ data.TemplateRepositoryVersion = none) →
        ∃ msg, mapIncarnation lib body = .fault msg)) := by
  refine ⟨?_, ?_⟩
  · intro e he
    simp [mapIncarnation, he]
  · intro data hdec
    refine ⟨?_, ?_⟩
    · rintro ⟨tr, tv, htr, htv⟩
      exact ⟨_, _, mapIncarnation_ret lib body data tr tv hdec htr htv⟩
    · intro hnil
      exact ⟨_, mapIncarnation_fault lib body data hdec hnil⟩

/-- C18, examples: the incarnation 1234 is returned; the same body without
`template_repository_version` makes `mapIncarnation`, and `GetIncarnation`
with it, panic. -/
theorem C18_examples :
    (∃ inc err, mapIncarnation exampleLib (exampleBody none) = .ret (inc, err)) ∧
    (∃ msg, mapIncarnation
        (decodingTo { exampleDetails none with TemplateRepositoryVersion := none }) someBody =
      .fault msg) ∧
    ((answering (.ok { StatusCode := 200, Body := someBody })).GetIncarnation
        (decodingTo { exampleDetails none with TemplateRepositoryVersion := none }) .background
        "1234" World.initial).1 =
      .fault "invalid memory address or nil pointer dereference" :=
  ⟨((C18_fault_exactly_when_required_field_is_nil exampleLib (exampleBody none)).2
      (exampleDetails none) (by decide)).1 ⟨_, _, rfl, rfl⟩,
    ((C18_fault_exactly_when_required_field_is_nil
      (decodingTo { exampleDetails none with TemplateRepositoryVersion := none }) someBody).2
      { exampleDetails none with TemplateRepositoryVersion := none } rfl).2 (Or.inr rfl),
    by decide⟩

/-- C17 as stated fails: `CreateIncarnation` answered with 201 and a body that
carries a merge request returns an incarnation with the merge-request id and
status of that body. (`GetIncarnation` returns them from such a body as well,
so they are not limited to the results of an update.) -/
theorem C17_create_returns_merge_request_of_body :
    ((answeringIncarnation 201 (some "merged")).CreateIncarnation exampleLib .background
        (exampleCreateRequest []) World.initial).1 =
      .ret (exampleIncarnation (some "merged"), none) ∧
    (exampleIncarnation (some "merged")).MergeRequestId = some "1234" ∧
    (exampleIncarnation (some "merged")).MergeRequestStatus = some "merged" ∧
    ((answeringIncarnation 200 (some "merged")).GetIncarnation exampleLib .background "1234"
        World.initial).1 =
      .ret (exampleIncarnation (some "merged"), none) := by
  refine ⟨?_, ?_, ?_, ?_⟩ <;> decide

/-- C17, amended: the merge-request id, url and status of the incarnation
`CreateIncarnation` returns for a response with the status 201 are those of
the body of the response (the status when it is a string, nil otherwise); they
are all nil when the body carries none of them. -/
theorem C17_create_copies_merge_request_fields (c : client) (lib : Lib) (ctx : Context)
    (req : CreateIncarnationRequest) (w : World) (resp : Response) (data : IncarnationWithDetails)
    (inc : Incarnation) (err : Option GoError)
    (henc : (encodeTemplateData lib req.TemplateData).2 = none)
    (hresp : c.impl.respond w ctx (.post (createBody lib req)) = .ok resp)
    (hcode : resp.StatusCode = 201)
    (hdec : lib.DecodeIncarnation resp.Body = .ok data)
    (hret : (c.CreateIncarnation lib ctx req w).1 = .ret (inc, err)) :
    inc.MergeRequestId = data.MergeRequestId ∧
    inc.MergeRequestUrl = data.MergeRequestUrl ∧
    inc.MergeRequestStatus = stringStatus data.MergeRequestStatus ∧
    (data.MergeRequestId = none → data.MergeRequestUrl = none → data.MergeRequestStatus = none →
      inc.MergeRequestId = none ∧ inc.MergeRequestUrl = none ∧ inc.MergeRequestStatus = none) := by
  have hcreate : (c.CreateIncarnation lib ctx req w).1 = mapIncarnation lib resp.Body := by
    simp [client.CreateIncarnation, henc, ClientInterface.call, hresp,
      checkResponseStatus_expected lib StatusCreated resp hcode, WithStack]
  rw [hcreate] at hret
  rcases htr : data.TemplateRepository with _ | tr
  · rw [mapIncarnation_fault lib resp.Body data hdec (Or.inl htr)] at hret
    cases hret
  · rcases htv : data.TemplateRepositoryVersion with _ | tv
    · rw [mapIncarnation_fault lib resp.Body data hdec (Or.inr htv)] at hret
      cases hret
    · rw [mapIncarnation_ret lib resp.Body data tr tv hdec htr htv] at hret
      simp only [Outcome.ret.injEq, Prod.mk.injEq] at hret
      obtain ⟨rfl, _⟩ := hret
      refine ⟨rfl, rfl, rfl, ?_⟩
      intro h1 h2 h3
      simp [h1, h2, h3, stringStatus]

/-- C17, an example: the creation of the test answered with a body without
merge request returns an incarnation whose three merge-request fields are nil. -/
theorem C17_example_without_merge_request :
    (exampleIncarnation none).MergeRequestId = none ∧
    (exampleIncarnation none).MergeRequestUrl = none ∧
    (exampleIncarnation none).MergeRequestStatus = none :=
  (C17_create_copies_merge_request_fields (answeringIncarnation 201 none) exampleLib .background
    (exampleCreateRequest exampleTemplateData) World.initial
    { StatusCode := 201, Body := exampleBody none } (exampleDetails none) (exampleIncarnation none)
    none (by decide) (by rfl) (by decide) (by decide) (by decide)).2.2.2 rfl rfl rfl

/-! ## The round trip of template data -/

/-- C11 as stated fails: the `float32` value 3.0 is written as the JSON text
`3`, which accessor 1 accepts before accessor 2 is tried; it comes back as the
`int` 3, a value of another kind. And a float that is not of the type of
variant 2 (a `float64`, with `float32` for that type) is not written by any
setter: nothing comes back for it, only an error. -/
theorem C11_integral_float_comes_back_as_int :
    exampleLib.MarshalFloat float32Three = .ok "3" ∧
    roundTrip exampleLib "ratio" (.float .float32 float32Three) = ([("ratio", .int 3)], none) ∧
    GoValue.int 3 ≠ GoValue.float .float32 float32Three ∧
    exampleLib.TemplateData2 = .float32 ∧
    (roundTrip exampleLib "ratio" (.float .float64 float64ThreeAndHalf)).1 = [] ∧
    (roundTrip exampleLib "ratio" (.float .float64 float64ThreeAndHalf)).2 ≠ none := by
  refine ⟨?_, ?_, ?_, ?_, ?_, ?_⟩ <;> decide

/-- C11, amended: given that `encoding/json` reads back what it wrote at the
type it wrote it from, and refuses a number as a string: a string comes back
as the same string; an `int` comes back as the same `int`; a float of the
type of variant 2 whose JSON text is refused as an `int` (it has a fraction
or an exponent) comes back as the same float; a float of that type whose JSON
text is accepted as an `int` comes back as that `int`. -/
theorem C11_round_trip_by_first_accepting_variant (lib : Lib) (key : String) :
    (∀ s raw, lib.MarshalString s = .ok raw → lib.UnmarshalString raw = .ok s →
      roundTrip lib key (.str s) = ([(key, .str s)], none)) ∧
    (∀ n raw e, lib.MarshalInt n = .ok raw → lib.UnmarshalString raw = .error e →
      lib.UnmarshalInt raw = .ok n → roundTrip lib key (.int n) = ([(key, .int n)], none)) ∧
    (∀ f raw e1 e2, lib.MarshalFloat f = .ok raw → lib.UnmarshalString raw = .error e1 →
      lib.UnmarshalInt raw = .error e2 → lib.UnmarshalFloat raw = .ok f →
      roundTrip lib key (.float lib.TemplateData2 f) = ([(key, .float lib.TemplateData2 f)], none)) ∧
    (∀ f raw e1 n, lib.MarshalFloat f = .ok raw → lib.UnmarshalString raw = .error e1 →
      lib.UnmarshalInt raw = .ok n →
      roundTrip lib key (.float lib.TemplateData2 f) = ([(key, .int n)], none)) := by
  refine ⟨?_, ?_, ?_, ?_⟩
  · intro s raw hm hu
    simp [roundTrip, encodeTemplateData, encodeTemplateDataStep, TemplateDataUnion.From, hm, mapSet,
      mapTemplateDataStep, decodeTemplateDatum, TemplateDataUnion.AsTemplateData0, hu, Join]
  · intro n raw e hm hs hi
    simp [roundTrip, encodeTemplateData, encodeTemplateDataStep, TemplateDataUnion.From, hm, mapSet,
      mapTemplateDataStep, decodeTemplateDatum, TemplateDataUnion.AsTemplateData0,
      TemplateDataUnion.AsTemplateData1, hs, hi, Join]
  · intro f raw e1 e2 hm hs hi hf
    simp [roundTrip, encodeTemplateData, encodeTemplateDataStep, TemplateDataUnion.From, hm, mapSet,
      mapTemplateDataStep, decodeTemplateDatum, TemplateDataUnion.AsTemplateData0,
      TemplateDataUnion.AsTemplateData1, TemplateDataUnion.AsTemplateData2, hs, hi, hf, Join]
  · intro f raw e1 n hm hs hi
    simp [roundTrip, encodeTemplateData, encodeTemplateDataStep, TemplateDataUnion.From, hm, mapSet,
      mapTemplateDataStep, decodeTemplateDatum, TemplateDataUnion.AsTemplateData0,
      TemplateDataUnion.AsTemplateData1, hs, hi, Join]

/-- C11, examples: the string "demo", the `int` 3 and the `float32` 3.5 come
back as they were sent. -/
theorem C11_round_trip_examples :
    roundTrip exampleLib "name" (.str "demo") = ([("name", .str "demo")], none) ∧
    roundTrip exampleLib "replicas" (.int 3) = ([("replicas", .int 3)], none) ∧
    roundTrip exampleLib "ratio" (.float .float32 float32ThreeAndHalf) =
      ([("ratio", .float .float32 float32ThreeAndHalf)], none) :=
  ⟨(C11_round_trip_by_first_accepting_variant exampleLib "name").1 "demo" "\"demo\""
      (by decide) (by decide),
    (C11_round_trip_by_first_accepting_variant exampleLib "replicas").2.1 3 "3"
      (.leaf "json: cannot unmarshal into Go value of type string") (by decide) (by decide)
      (by decide),
    (C11_round_trip_by_first_accepting_variant exampleLib "ratio").2.2.1 float32ThreeAndHalf "3.5"
      (.leaf "json: cannot unmarshal into Go value of type string")
      (.leaf "json: cannot unmarshal into Go value of type int") (by decide) (by decide)
      (by decide) (by decide)⟩

/-! ## The transport that stamps the User-Agent -/

/-- C19: `RoundTrip` of the transport built by `NewTransport` leaves the
method, the URL and the body of the request as they were, adds the value
"Foxops Terraform Provider/<version> (<GOOS>; <GOARCH>)" after the values the
header User-Agent had, leaves every other header as it was, and returns what
the inner transport returns for that request. -/
theorem C19_round_trip_adds_user_agent_only {ρ : Type} (rt : Runtime) (version : String)
    (inner : HttpRequest → ρ) (req : HttpRequest) :
    ((NewTransport version inner).RoundTrip rt req).2.Method = req.Method ∧
    ((NewTransport version inner).RoundTrip rt req).2.URL = req.URL ∧
    ((NewTransport version inner).RoundTrip rt req).2.Body = req.Body ∧
    mapGet ((NewTransport version inner).RoundTrip rt req).2.Header "User-Agent" =
      some ((mapGet req.Header "User-Agent").getD [] ++
        ["Foxops Terraform Provider/" ++ version ++ " (" ++ rt.GOOS ++ "; " ++ rt.GOARCH ++ ")"]) ∧
    (∀ key, key ≠ "User-Agent" →
      mapGet ((NewTransport version inner).RoundTrip rt req).2.Header key = mapGet req.Header key) ∧
    ((NewTransport version inner).RoundTrip rt req).1 =
      inner ((NewTransport version inner).RoundTrip rt req).2 := by
  refine ⟨rfl, rfl, rfl, ?_, ?_, rfl⟩
  · simp only [transport.RoundTrip, NewTransport, HeaderAdd, userAgent]
    exact mapGet_mapSet_self _ _ _
  · intro key hkey
    simp only [transport.RoundTrip, NewTransport, HeaderAdd]
    exact mapGet_mapSet_ne _ _ _ _ hkey

/-- C19, an example: version "testing" on Linux for amd64; the request keeps
its bearer token and gets the User-Agent
"Foxops Terraform Provider/testing (linux; amd64)". -/
theorem C19_example_headers :
    ((NewTransport "testing" (fun r => r.URL)).RoundTrip linuxAmd64 exampleHttpRequest).2.Header =
      [("Authorization", ["Bearer dev-token"]),
        ("User-Agent", ["Foxops Terraform Provider/testing (linux; amd64)"])] ∧
    mapGet ((NewTransport "testing" (fun r => r.URL)).RoundTrip linuxAmd64
        exampleHttpRequest).2.Header "Authorization" = some ["Bearer dev-token"] :=
  ⟨by decide,
    ((C19_round_trip_adds_user_agent_only linuxAmd64 "testing" (fun r => r.URL)
      exampleHttpRequest).2.2.2.2.1 "Authorization" (by decide)).trans (by decide)⟩

/-! ## The retries of the HTTP client -/

theorem retryLoop_again (method url : String) (attempt : Nat → Attempt) (r i : Nat)
    (hretry : (DefaultRetryPolicy (attempt i)).1 = true) (hwait : (attempt i).waitErr = none) :
    retryLoop method url attempt (r + 1) i = retryLoop method url attempt r (i + 1) := by
  rw [retryLoop]
  simp [hretry, hwait]

theorem retryLoop_answer (method url : String) (attempt : Nat → Attempt) (remain i : Nat)
    (resp : Response)
    (hresult : (attempt i).result = .ok resp) (hctx : (attempt i).ctxErr = none)
    (hstatus : retriedStatus resp.StatusCode = false) :
    retryLoop method url attempt remain i = (.ok resp, i + 1) := by
  rw [retryLoop.eq_def]
  simp [DefaultRetryPolicy, hresult, hctx, hstatus]

theorem DefaultRetryPolicy_retried_status (a : Attempt) (resp : Response)
    (hresult : a.result = .ok resp) (hctx : a.ctxErr = none)
    (hstatus : retriedStatus resp.StatusCode = true) : DefaultRetryPolicy a = (true, none) := by
  simp [DefaultRetryPolicy, hresult, hctx, hstatus]

theorem checkResponseStatus_message (lib : Lib) (expected : Int) (resp : Response)
    (body m : String) (hcode : resp.StatusCode ≠ expected) (hread : ReadAll resp.Body = .ok body)
    (hm : lib.UnmarshalApiError body = .ok { Message := m }) :
    (WithStack (checkResponseStatus lib expected resp)).map GoError.Error =
      some (mismatchText resp.StatusCode expected m) := by
  unfold checkResponseStatus
  rw [if_pos hcode, hread]
  simp [hm, Wrap, WithStack, errorsNew, GoError.Error, mismatchText, String.append_assoc]

theorem retryLoop_count (method url : String) (attempt : Nat → Attempt) :
    ∀ remain i, i + 1 ≤ (retryLoop method url attempt remain i).2 := by
  intro remain
  induction remain with
  | zero =>
    intro i
    rw [retryLoop.eq_def]
    simp only
    split_ifs
    · simp
    · split <;> simp
  | succ r ih =>
    intro i
    rw [retryLoop.eq_def]
    simp only
    split_ifs
    · cases (attempt i).waitErr with
      | some e => simp
      | none => exact le_trans (by omega) (ih (i + 1))
    · split <;> simp

theorem retryLoop_gives_up (method url : String) (attempt : Nat → Attempt) (i : Nat)
    (resp : Response)
    (hresult : (attempt i).result = .ok resp) (hctx : (attempt i).ctxErr = none)
    (hstatus : retriedStatus resp.StatusCode = true) :
    retryLoop method url attempt 0 i = (.error (giveUp method url (i + 1) none), i + 1) := by
  rw [retryLoop.eq_def]
  simp [DefaultRetryPolicy, hresult, hctx, hstatus]

/-- C20 as stated fails: the client `New` builds sends its requests through
`retryablehttp.NewClient()`, whose default policy retries a response with the
status 500 (and 429). When every attempt is answered with 500 and the error
object of the server, one call makes five round trips and `GetIncarnation`
returns the error of the retrying client inside the `*url.Error` of
`http.Client.Do`; the message of the server does not occur in it. -/
theorem C20_status_500_is_retried :
    roundTrips localhostURL (alwaysAnswering (errorResponse 500)) World.initial .background
      (.get 1234) = 5 ∧
    roundTrips localhostURL (alwaysAnswering (errorResponse 429)) World.initial .background
      (.get 1234) = 5 ∧
    ((New localhostURL (alwaysAnswering (errorResponse 500))).GetIncarnation exampleLib .background
        "1234" World.initial).1 =
      .ret (Incarnation.zero,
        some (.withStack (urlError "Get" "http://localhost/api/incarnations/1234"
          (giveUp "GET" "http://localhost/api/incarnations/1234" 5 none)))) ∧
    (GoError.withStack (urlError "Get" "http://localhost/api/incarnations/1234"
        (giveUp "GET" "http://localhost/api/incarnations/1234" 5 none))).Error =
      "Get \"http://localhost/api/incarnations/1234\": " ++
        "GET http://localhost/api/incarnations/1234 giving up after 5 attempt(s)" ∧
    containsText
      ("Get \"http://localhost/api/incarnations/1234\": " ++
        "GET http://localhost/api/incarnations/1234 giving up after 5 attempt(s)")
      "incarnation not found" = false := by
  refine ⟨?_, ?_, ?_, ?_, ?_⟩ <;> decide

/-- C20, amended: the default policy of the retrying client retries a
response exactly when its status code is 429, 0, or 500 or more and not 501.
A response with any other unexpected status code ends the call after a
single round trip, and `GetIncarnation` reports the status mismatch with the
message of the server and the two codes. A response with a retried status is
followed by another round trip, like a recoverable transport failure, and
when `RetryMax + 1` attempts in a row meet a retried status the call returns,
instead of a response, the error "<METHOD> <url> giving up after 5
attempt(s)" of the retrying client inside the `*url.Error` of
`http.Client.Do`. -/
theorem C20_retries_depend_on_the_status (lib : Lib) (url : Request → String)
    (attempts : World → Context → Request → Nat → Attempt) (w : World) (ctx : Context)
    (req : Request) :
    (∀ code : Int, retriedStatus code = true ↔ code = 429 ∨ code = 0 ∨ (500 ≤ code ∧ code ≠ 501)) ∧
    (∀ resp, (attempts w ctx req 0).result = .ok resp → (attempts w ctx req 0).ctxErr = none →
      retriedStatus resp.StatusCode = false →
      roundTrips url attempts w ctx req = 1 ∧ (New url attempts).impl.respond w ctx req = .ok resp ∧
      (∀ id idInt, Atoi id = .ok idInt → req = .get idInt → resp.StatusCode ≠ 200 →
        ((New url attempts).GetIncarnation lib ctx id w).1 =
          .ret (Incarnation.zero, WithStack (checkResponseStatus lib 200 resp)) ∧
        (∀ body m, ReadAll resp.Body = .ok body → lib.UnmarshalApiError body = .ok { Message := m } →
          (WithStack (checkResponseStatus lib 200 resp)).map GoError.Error =
            some (mismatchText resp.StatusCode 200 m)))) ∧
    (∀ resp, (attempts w ctx req 0).result = .ok resp → (attempts w ctx req 0).ctxErr = none →
      (attempts w ctx req 0).waitErr = none → retriedStatus resp.StatusCode = true →
      2 ≤ roundTrips url attempts w ctx req) ∧
    (∀ e, (attempts w ctx req 0).result = .error e → (attempts w ctx req 0).ctxErr = none →
      (attempts w ctx req 0).waitErr = none → (attempts w ctx req 0).recoverable = true →
      2 ≤ roundTrips url attempts w ctx req) ∧
    ((∀ i, i ≤ RetryMax → ∃ resp, (attempts w ctx req i).result = .ok resp ∧
        retriedStatus resp.StatusCode = true ∧ (attempts w ctx req i).ctxErr = none ∧
        (attempts w ctx req i).waitErr = none) →
      roundTrips url attempts w ctx req = RetryMax + 1 ∧
      (New url attempts).impl.respond w ctx req =
        .error (urlError req.Op (url req) (giveUp req.Method (url req) (RetryMax + 1) none)) ∧
      (urlError req.Op (url req) (giveUp req.Method (url req) (RetryMax + 1) none)).Error =
        req.Op ++ " \"" ++ url req ++ "\": " ++
          (req.Method ++ " " ++ url req ++ " giving up after 5 attempt(s)")) := by
  refine ⟨?_, ?_, ?_, ?_, ?_⟩
  · intro code
    simp only [retriedStatus, Bool.or_eq_true, Bool.and_eq_true, beq_iff_eq, decide_eq_true_eq,
      bne_iff_ne, ne_eq, ge_iff_le]
    tauto
  · intro resp hresult hctx hstatus
    have hloop := retryLoop_answer req.Method (url req) (attempts w ctx req) RetryMax 0 resp hresult
      hctx hstatus
    refine ⟨by simp [roundTrips, retryablehttpDo, hloop],
      by simp [New, retryablehttpDo, hloop], ?_⟩
    intro id idInt hid hreq hcode
    subst hreq
    refine ⟨?_, ?_⟩
    · have hne : checkResponseStatus lib StatusOK resp ≠ none := by
        obtain ⟨e, he⟩ := checkResponseStatus_mismatch lib StatusOK resp hcode
        rw [he]
        simp
      obtain ⟨e, he⟩ := Option.ne_none_iff_exists'.1 hne
      have he2 : checkResponseStatus lib 200 resp = some e := he
      simp [client.GetIncarnation, hid, ClientInterface.call, New, retryablehttpDo, hloop, he, he2,
        WithStack]
    · intro body m hread hm
      exact checkResponseStatus_message lib 200 resp body m hcode hread hm
  · intro resp hresult hctx hwait hstatus
    have hpol := DefaultRetryPolicy_retried_status _ resp hresult hctx hstatus
    have := retryLoop_count req.Method (url req) (attempts w ctx req) 3 1
    simpa [roundTrips, retryablehttpDo, RetryMax,
      retryLoop_again req.Method (url req) (attempts w ctx req) 3 0 (by rw [hpol]) hwait] using this
  · intro e hresult hctx hwait hrec
    have hpol : (DefaultRetryPolicy (attempts w ctx req 0)).1 = true := by
      simp [DefaultRetryPolicy, hresult, hctx, hrec]
    have := retryLoop_count req.Method (url req) (attempts w ctx req) 3 1
    simpa [roundTrips, retryablehttpDo, RetryMax,
      retryLoop_again req.Method (url req) (attempts w ctx req) 3 0 hpol hwait] using this
  · intro hall
    have hstep : ∀ i, i ≤ RetryMax → (DefaultRetryPolicy (attempts w ctx req i)).1 = true ∧
        (attempts w ctx req i).waitErr = none := by
      intro i hi
      obtain ⟨resp, hresult, hstatus, hctx, hwait⟩ := hall i hi
      exact ⟨by rw [DefaultRetryPolicy_retried_status _ resp hresult hctx hstatus], hwait⟩
    obtain ⟨resp, hresult, hstatus, hctx, _⟩ := hall 4 (by decide)
    have hloop : retryLoop req.Method (url req) (attempts w ctx req) RetryMax 0 =
        (.error (giveUp req.Method (url req) 5 none), 5) := by
      simp only [RetryMax]
      rw [retryLoop_again _ _ _ 3 0 (hstep 0 (by decide)).1 (hstep 0 (by decide)).2,
        retryLoop_again _ _ _ 2 1 (hstep 1 (by decide)).1 (hstep 1 (by decide)).2,
        retryLoop_again _ _ _ 1 2 (hstep 2 (by decide)).1 (hstep 2 (by decide)).2,
        retryLoop_again _ _ _ 0 3 (hstep 3 (by decide)).1 (hstep 3 (by decide)).2,
        retryLoop_gives_up _ _ _ 4 resp hresult hctx hstatus]
    simp only [RetryMax] at hloop
    refine ⟨by simp [roundTrips, retryablehttpDo, hloop, RetryMax],
      by simp [New, retryablehttpDo, hloop, RetryMax], ?_⟩
    have h5 : toString (5 : Nat) = "5" := by decide
    simp [urlError, giveUp, GoError.Error, RetryMax, h5, String.append_assoc]

/-- C20, examples: a request answered with 404 and the error object of the
server makes one round trip, and `GetIncarnation` reports
"unexpected status code 404, wants 200: incarnation not found"; so does one
answered with 501, while the codes 500, 600 and 999 are retried. -/
theorem C20_example_404_is_not_retried :
    roundTrips localhostURL (alwaysAnswering (errorResponse 404)) World.initial .background
      (.get 1234) = 1 ∧
    (WithStack (checkResponseStatus exampleLib 200 (errorResponse 404))).map GoError.Error =
      some "unexpected status code 404, wants 200: incarnation not found" ∧
    roundTrips localhostURL (alwaysAnswering (errorResponse 501)) World.initial .background
      (.get 1234) = 1 ∧
    roundTrips localhostURL (alwaysAnswering (errorResponse 600)) World.initial .background
      (.get 1234) = 5 ∧
    roundTrips localhostURL (alwaysAnswering (errorResponse 999)) World.initial .background
      (.get 1234) = 5 := by
  have h := (C20_retries_depend_on_the_status exampleLib localhostURL
    (alwaysAnswering (errorResponse 404)) World.initial .background (.get 1234)).2.1
    (errorResponse 404) rfl rfl (by decide)
  refine ⟨h.1, ?_, by decide, by decide, by decide⟩
  rw [(h.2.2 "1234" 1234 (by decide) rfl (by decide)).2 (errorResponse 404).Body.content
    "incarnation not found" (by decide) (by decide)]
  decide

/-! ## The end of the polling loop -/

/-- A loop whose successful results all carry a merge-request id and no
status returns, when it returns, an error or a fault. -/
theorem poll_ends_on_failure (c : client) (lib : Lib) (ctx : Context) (id : IncarnationId)
    (status : String) : ∀ (fuel : Nat) (w : World),
      (∀ i inc, pollResult c lib ctx id i w = .ret (inc, none) →
        inc.MergeRequestId ≠ none ∧ inc.MergeRequestStatus = none) →
      ∀ r w1, c.GetIncarnationWithMergeRequestStatus lib ctx id status fuel w = some (r, w1) →
        (∃ inc err, r = .ret (inc, some err)) ∨ ∃ msg, r = .fault msg := by
  intro fuel
  induction fuel with
  | zero =>
    intro w _ r w1 h
    simp [client.GetIncarnationWithMergeRequestStatus] at h
  | succ fuel ih =>
    intro w hall r w1 h
    rcases hg : c.GetIncarnation lib ctx id w with ⟨r0, w0⟩
    have h0 : pollResult c lib ctx id 0 w = r0 := by simp [pollResult, pollWorld, hg]
    rw [client.GetIncarnationWithMergeRequestStatus, hg] at h
    cases r0 with
    | fault msg =>
      simp only [Option.some.injEq, Prod.mk.injEq] at h
      exact Or.inr ⟨msg, h.1.symm⟩
    | ret a =>
      obtain ⟨inc, err⟩ := a
      cases err with
      | some e =>
        simp only [Option.some.injEq, Prod.mk.injEq] at h
        exact Or.inl ⟨inc, e, h.1.symm⟩
      | none =>
        obtain ⟨hid, hst⟩ := hall 0 inc h0
        simp only [hid, hst, if_false] at h
        simp only [reduceCtorEq, if_false] at h
        refine ih (sleepSecond w0) ?_ r w1 h
        intro i inc2 hi
        refine hall (i + 1) inc2 ?_
        simpa [pollResult, pollWorld, hg] using hi

/-- The four failures of `GetIncarnation` before the template data are read
return the zero incarnation. -/
theorem GetIncarnation_failure_zero (c : client) (lib : Lib) (ctx : Context) (id : IncarnationId)
    (w : World) (inc : Incarnation) (err : GoError)
    (h : (c.GetIncarnation lib ctx id w).1 = .ret (inc, some err))
    (hkind : (∃ e, Atoi id = .error e) ∨
      ∃ idInt, Atoi id = .ok idInt ∧
        ((∃ e, c.impl.respond w ctx (.get idInt) = .error e) ∨
          ∃ resp, c.impl.respond w ctx (.get idInt) = .ok resp ∧
            (resp.StatusCode ≠ StatusOK ∨ ∃ e, lib.DecodeIncarnation resp.Body = .error e))) :
    inc = Incarnation.zero := by
  unfold client.GetIncarnation at h
  rcases hkind with ⟨e, he⟩ | ⟨idInt, hid, hrest⟩
  · simp only [he, WithStack, Outcome.ret.injEq, Prod.mk.injEq] at h
    exact h.1.symm
  · simp only [hid, ClientInterface.call] at h
    rcases hrest with ⟨e, he⟩ | ⟨resp, hresp, hrest2⟩
    · simp only [he, WithStack, Outcome.ret.injEq, Prod.mk.injEq] at h
      exact h.1.symm
    · simp only [hresp] at h
      rcases hrest2 with hcode | ⟨e, he⟩
      · obtain ⟨e2, he2⟩ := checkResponseStatus_mismatch lib StatusOK resp hcode
        simp only [he2, WithStack, Outcome.ret.injEq, Prod.mk.injEq] at h
        exact h.1.symm
      · cases hc : WithStack (checkResponseStatus lib StatusOK resp) with
        | some e2 =>
          simp only [hc, Outcome.ret.injEq, Prod.mk.injEq] at h
          exact h.1.symm
        | none =>
          simp only [hc, mapIncarnation, he, Outcome.ret.injEq, Prod.mk.injEq] at h
          exact h.1.symm

/-- C28: if every successful result of `GetIncarnation` in the polling loop
carries a merge-request id and no merge-request status, then for every desired
status, the empty string included, `GetIncarnationWithMergeRequestStatus`
never returns a success: as long as the calls succeed it is still polling
(after `n` successes it has slept `n` times and has not returned), and when it
ends, it ends on a call of `GetIncarnation` that returned an error (or that
panicked). -/
theorem C28_poll_without_status_never_succeeds (c : client) (lib : Lib) (ctx : Context)
    (id : IncarnationId) (w : World)
    (hall : ∀ i inc, pollResult c lib ctx id i w = .ret (inc, none) →
      inc.MergeRequestId ≠ none ∧ inc.MergeRequestStatus = none)
    (status : String) :
    (∀ fuel inc w1,
      c.GetIncarnationWithMergeRequestStatus lib ctx id status fuel w ≠ some (.ret (inc, none), w1)) ∧
    (∀ n, (∀ i, i < n → ∃ inc, pollResult c lib ctx id i w = .ret (inc, none)) →
      c.GetIncarnationWithMergeRequestStatus lib ctx id status n w = none ∧
        (pollWorld c lib ctx id n w).sleeps = w.sleeps + n) ∧
    (∀ fuel r w1, c.GetIncarnationWithMergeRequestStatus lib ctx id status fuel w = some (r, w1) →
      (∃ inc err, r = .ret (inc, some err)) ∨ ∃ msg, r = .fault msg) := by
  refine ⟨?_, ?_, ?_⟩
  · intro fuel inc w1 h
    rcases poll_ends_on_failure c lib ctx id status fuel w hall _ _ h with ⟨i2, e2, h2⟩ | ⟨msg, h2⟩
    · simp at h2
    · simp at h2
  · intro n hn
    refine ⟨?_, pollWorld_sleeps c lib ctx id n w⟩
    have hskip := poll_skip c lib ctx id status n 0 w (fun i hi => by
      obtain ⟨inc, hinc⟩ := hn i hi
      obtain ⟨h1, h2⟩ := hall i inc hinc
      rw [keepsPolling_iff]
      exact ⟨inc, hinc, h1, by simp [h2]⟩)
    rw [Nat.zero_add] at hskip
    rw [hskip]
    rfl
  · intro fuel
    exact poll_ends_on_failure c lib ctx id status fuel w hall

/-- C28, an example: a server that always reports the merge request 1234
without a status. The loop never returns a success, whatever the desired
status; after three turns it has slept three times and is still polling, for
the desired status "merged" and for the empty one. -/
theorem C28_example_status_never_reported :
    (∀ i inc, pollResult (answering (.ok { StatusCode := 200, Body := someBody }))
        (decodingTo detailsWithoutStatus) .background "1234" i World.initial = .ret (inc, none) →
      inc.MergeRequestId ≠ none ∧ inc.MergeRequestStatus = none) ∧
    (∀ status fuel inc w1,
      (answering (.ok { StatusCode := 200, Body := someBody })).GetIncarnationWithMergeRequestStatus
        (decodingTo detailsWithoutStatus) .background "1234" status fuel World.initial ≠
          some (.ret (inc, none), w1)) ∧
    (answering (.ok { StatusCode := 200, Body := someBody })).GetIncarnationWithMergeRequestStatus
        (decodingTo detailsWithoutStatus) .background "1234" "merged" 3 World.initial = none ∧
    (answering (.ok { StatusCode := 200, Body := someBody })).GetIncarnationWithMergeRequestStatus
        (decodingTo detailsWithoutStatus) .background "1234" "" 3 World.initial = none := by
  have hget : ∀ w : World,
      ((answering (.ok { StatusCode := 200, Body := someBody })).GetIncarnation
        (decodingTo detailsWithoutStatus) .background "1234" w).1 =
        .ret (incarnationWithoutStatus, none) := by
    intro w
    rfl
  have hall : ∀ i inc, pollResult (answering (.ok { StatusCode := 200, Body := someBody }))
        (decodingTo detailsWithoutStatus) .background "1234" i World.initial = .ret (inc, none) →
      inc.MergeRequestId ≠ none ∧ inc.MergeRequestStatus = none := by
    intro i inc h
    rw [pollResult, hget] at h
    simp only [Outcome.ret.injEq, Prod.mk.injEq, and_true] at h
    subst h
    decide
  have hsucc : ∀ i, ∃ inc, pollResult (answering (.ok { StatusCode := 200, Body := someBody }))
        (decodingTo detailsWithoutStatus) .background "1234" i World.initial = .ret (inc, none) :=
    fun i => ⟨incarnationWithoutStatus, by rw [pollResult, hget]⟩
  exact ⟨hall,
    fun status => (C28_poll_without_status_never_succeeds _ _ _ _ _ hall status).1,
    ((C28_poll_without_status_never_succeeds _ _ _ _ _ hall "merged").2.1 3 (fun i _ => hsucc i)).1,
    ((C28_poll_without_status_never_succeeds _ _ _ _ _ hall "").2.1 3 (fun i _ => hsucc i)).1⟩

/-- C29: when the polling loop ends because the `k`-th call of
`GetIncarnation` returned an error (no earlier result having ended it),
`GetIncarnationWithMergeRequestStatus` returns the incarnation of that failing
call together with its error. That incarnation is the zero value, so its
merge-request id is nil, when the call failed on the identifier, on the
transport, on the status code or on the decoding of the body, whatever the
polls before it had returned. -/
theorem C29_poll_returns_incarnation_of_failing_call (c : client) (lib : Lib) (ctx : Context)
    (id : IncarnationId) (status : String) (k : Nat) (w : World) (inc : Incarnation) (err : GoError)
    (hk : 0 < k)
    (hearlier : ∀ i, i + 1 < k → keepsPolling status (pollResult c lib ctx id i w) = true)
    (hfail : pollResult c lib ctx id (k - 1) w = .ret (inc, some err))
    (fuel : Nat) (hfuel : k ≤ fuel) :
    (∃ w1, c.GetIncarnationWithMergeRequestStatus lib ctx id status fuel w =
        some (.ret (inc, some err), w1)) ∧
    (((∃ e, Atoi id = .error e) ∨
      ∃ idInt, Atoi id = .ok idInt ∧
        ((∃ e, c.impl.respond (pollWorld c lib ctx id (k - 1) w) ctx (.get idInt) = .error e) ∨
          ∃ resp, c.impl.respond (pollWorld c lib ctx id (k - 1) w) ctx (.get idInt) = .ok resp ∧
            (resp.StatusCode ≠ StatusOK ∨ ∃ e, lib.DecodeIncarnation resp.Body = .error e))) →
      inc = Incarnation.zero ∧ inc.MergeRequestId = none ∧
        (∀ w1, c.GetIncarnationWithMergeRequestStatus lib ctx id status fuel w ≠
          some (.ret (inc, none), w1)) ∧
        ∀ i prev, i + 1 < k → pollResult c lib ctx id i w = .ret (prev, none) →
          prev.MergeRequestId ≠ inc.MergeRequestId) := by
  obtain ⟨n, rfl⟩ : ∃ n, k = n + 1 := ⟨k - 1, by omega⟩
  obtain ⟨f, rfl⟩ : ∃ f, fuel = (f + 1) + n := ⟨fuel - (n + 1), by omega⟩
  simp only [Nat.add_sub_cancel] at hfail ⊢
  have hres : c.GetIncarnationWithMergeRequestStatus lib ctx id status (f + 1 + n) w =
      some (.ret (inc, some err), (c.GetIncarnation lib ctx id (pollWorld c lib ctx id n w)).2) := by
    rw [poll_skip c lib ctx id status n (f + 1) w (fun i hi => hearlier i (by omega))]
    exact poll_stop c lib ctx id status f _ inc (some err) hfail (Or.inl (by simp))
  refine ⟨⟨_, hres⟩, ?_⟩
  intro hkind
  have hzero : inc = Incarnation.zero :=
    GetIncarnation_failure_zero c lib ctx id (pollWorld c lib ctx id n w) inc err hfail hkind
  refine ⟨hzero, by rw [hzero]; rfl, fun w1 => by rw [hres]; simp, ?_⟩
  intro i prev hi hprev
  have hkeep := hearlier i hi
  obtain ⟨inc0, h1, h2, _⟩ := (keepsPolling_iff status _).1 hkeep
  rw [hprev] at h1
  simp only [Outcome.ret.injEq, Prod.mk.injEq, and_true] at h1
  subst h1
  rw [hzero]
  exact h2

/-- C29, an example: the first poll finds the merge request 1234 open, the
second request fails on the deadline. The loop returns the zero incarnation
with the error: the merge-request id it returns is nil, not the "1234" of the
poll before. -/
theorem C29_example_open_then_deadline :
    (∃ w1, openThenDeadline.GetIncarnationWithMergeRequestStatus exampleLib .background "1234"
        "merged" 2 World.initial =
        some (.ret (Incarnation.zero, some (.withStack exampleDeadlineError)), w1)) ∧
    pollResult openThenDeadline exampleLib .background "1234" 0 World.initial =
      .ret (exampleIncarnation (some "open"), none) ∧
    (exampleIncarnation (some "open")).MergeRequestId = some "1234" ∧
    Incarnation.zero.MergeRequestId = none :=
  ⟨(C29_poll_returns_incarnation_of_failing_call openThenDeadline exampleLib .background "1234"
      "merged" 2 World.initial Incarnation.zero (.withStack exampleDeadlineError) (by decide)
      (fun i hi => by
        have hi0 : i = 0 := by omega
        subst hi0
        decide)
      (by decide) 2 (by decide)).1,
    by decide, by decide, by decide⟩

/-! ## The calls of the adapter layer -/

/-- The calls `getIncarnation` makes: at most one, and a read. -/
theorem getIncarnation_recording {σ : Type} (lib : Lib) (ctx : Context) (c : FoxopsClient σ)
    (diags : Diagnostics) (id : IncarnationId) (wait : Option waitForStatusMRModel) (s : σ)
    (log : List Call) :
    ∃ rest, (getIncarnation lib ctx c.recording diags id wait (s, log)).world.2 = log ++ rest ∧
      rest.length ≤ 1 ∧ ∀ call ∈ rest, call.isRead = true := by
  cases wait with
  | none =>
    refine ⟨[.GetIncarnation ctx id], ?_, by simp, by simp [Call.isRead]⟩
    unfold getIncarnation
    simp only [FoxopsClient.recording]
    rcases c.GetIncarnation ctx id s with ⟨⟨inc, err⟩, s1⟩
    cases err <;> rfl
  | some wait =>
    unfold getIncarnation
    simp only
    cases (if !wait.Timeout.IsNull then lib.ParseDuration wait.Timeout.ValueString
        else .ok (10 * Second)) with
    | error e => exact ⟨[], by simp, by simp, by simp⟩
    | ok timeout =>
      refine ⟨[.GetIncarnationWithMergeRequestStatus (.withTimeout ctx timeout) id
        wait.Status.ValueString], ?_, by simp, by simp [Call.isRead]⟩
      simp only [FoxopsClient.recording]
      rcases c.GetIncarnationWithMergeRequestStatus (.withTimeout ctx timeout) id
        wait.Status.ValueString s with ⟨⟨inc, err⟩, s1⟩
      cases err with
      | none => rfl
      | some e => by_cases h : e.Is DeadlineExceeded = true <;> simp [h]

/-- C23: `getIncarnation` without a wait block calls `GetIncarnation` once,
with the given id and context, and nothing else. With a wait block it calls
`GetIncarnationWithMergeRequestStatus` once, with the given id and the status
of the block, under the context with a timeout of ten seconds when the block
sets no timeout and of the configured duration when it sets one, and nothing
else; in both cases it returns the incarnation that call returned. (A
configured timeout that is no duration ends the function before any call.) -/
theorem C23_getIncarnation_dispatch {σ : Type} (lib : Lib) (ctx : Context) (c : FoxopsClient σ)
    (diags : Diagnostics) (id : IncarnationId) (s : σ) (log : List Call) :
    ((getIncarnation lib ctx c.recording diags id none (s, log)).world =
        ((c.GetIncarnation ctx id s).2, log ++ [.GetIncarnation ctx id]) ∧
      (getIncarnation lib ctx c.recording diags id none (s, log)).inc =
        (c.GetIncarnation ctx id s).1.1) ∧
    (∀ wait : waitForStatusMRModel, wait.Timeout.IsNull = true →
      (getIncarnation lib ctx c.recording diags id (some wait) (s, log)).world =
        ((c.GetIncarnationWithMergeRequestStatus (.withTimeout ctx (10 * Second)) id
            wait.Status.ValueString s).2,
          log ++ [.GetIncarnationWithMergeRequestStatus (.withTimeout ctx (10 * Second)) id
            wait.Status.ValueString]) ∧
      (getIncarnation lib ctx c.recording diags id (some wait) (s, log)).inc =
        (c.GetIncarnationWithMergeRequestStatus (.withTimeout ctx (10 * Second)) id
          wait.Status.ValueString s).1.1) ∧
    (∀ (wait : waitForStatusMRModel) (d : Int), wait.Timeout.IsNull = false →
      lib.ParseDuration wait.Timeout.ValueString = .ok d →
      (getIncarnation lib ctx c.recording diags id (some wait) (s, log)).world =
        ((c.GetIncarnationWithMergeRequestStatus (.withTimeout ctx d) id
            wait.Status.ValueString s).2,
          log ++ [.GetIncarnationWithMergeRequestStatus (.withTimeout ctx d) id
            wait.Status.ValueString]) ∧
      (getIncarnation lib ctx c.recording diags id (some wait) (s, log)).inc =
        (c.GetIncarnationWithMergeRequestStatus (.withTimeout ctx d) id
          wait.Status.ValueString s).1.1) ∧
    (∀ (wait : waitForStatusMRModel) (e : GoError), wait.Timeout.IsNull = false →
      lib.ParseDuration wait.Timeout.ValueString = .error e →
      (getIncarnation lib ctx c.recording diags id (some wait) (s, log)).world = (s, log)) := by
  have hpoll : ∀ (wait : waitForStatusMRModel) (d : Int),
      (if !wait.Timeout.IsNull then lib.ParseDuration wait.Timeout.ValueString
        else .ok (10 * Second)) = .ok d →
      (getIncarnation lib ctx c.recording diags id (some wait) (s, log)).world =
        ((c.GetIncarnationWithMergeRequestStatus (.withTimeout ctx d) id
            wait.Status.ValueString s).2,
          log ++ [.GetIncarnationWithMergeRequestStatus (.withTimeout ctx d) id
            wait.Status.ValueString]) ∧
      (getIncarnation lib ctx c.recording diags id (some wait) (s, log)).inc =
        (c.GetIncarnationWithMergeRequestStatus (.withTimeout ctx d) id
          wait.Status.ValueString s).1.1 := by
    intro wait d hd
    unfold getIncarnation
    simp only [hd, FoxopsClient.recording]
    rcases c.GetIncarnationWithMergeRequestStatus (.withTimeout ctx d) id
      wait.Status.ValueString s with ⟨⟨inc, err⟩, s1⟩
    cases err with
    | none => exact ⟨rfl, rfl⟩
    | some e => by_cases h : e.Is DeadlineExceeded = true <;> simp [h]
  refine ⟨?_, ?_, ?_, ?_⟩
  · unfold getIncarnation
    simp only [FoxopsClient.recording]
    rcases c.GetIncarnation ctx id s with ⟨⟨inc, err⟩, s1⟩
    cases err <;> exact ⟨rfl, rfl⟩
  · intro wait hnull
    exact hpoll wait (10 * Second) (by simp [hnull])
  · intro wait d hnull hd
    exact hpoll wait d (by simp [hnull, hd])
  · intro wait e hnull he
    unfold getIncarnation
    simp [hnull, he]

/-- C23, an example: with a client whose calls succeed and an empty record,
no wait block gives the single call `GetIncarnation`; the wait block for
"merged" with the timeout "30s" gives the single polling call under a timeout
of thirty seconds, the one without timeout under ten seconds. -/
theorem C23_example_calls :
    (getIncarnation exampleLib .background callsSucceed.recording [] "1234" none (0, [])).world =
      (1, [.GetIncarnation .background "1234"]) ∧
    (getIncarnation exampleLib .background callsSucceed.recording [] "1234"
        (some { Status := .value "merged", Timeout := .value "30s" }) (0, [])).world =
      (1, [.GetIncarnationWithMergeRequestStatus (.withTimeout .background (30 * Second)) "1234"
        "merged"]) ∧
    (getIncarnation exampleLib .background callsSucceed.recording [] "1234"
        (some { Status := .value "merged", Timeout := .null }) (0, [])).world =
      (1, [.GetIncarnationWithMergeRequestStatus (.withTimeout .background (10 * Second)) "1234"
        "merged"]) :=
  ⟨(C23_getIncarnation_dispatch exampleLib .background callsSucceed [] "1234" 0 []).1.1,
    ((C23_getIncarnation_dispatch exampleLib .background callsSucceed [] "1234" 0 []).2.2.1
      { Status := .value "merged", Timeout := .value "30s" } (30 * Second) (by decide)
      (by decide)).1,
    ((C23_getIncarnation_dispatch exampleLib .background callsSucceed [] "1234" 0 []).2.1
      { Status := .value "merged", Timeout := .null } (by decide)).1⟩

/-- The calls `Update` makes when the plan decodes without error: the one
call of `UpdateIncarnation`, with the planned id and the request built from
the plan, then at most one read. -/
theorem Update_recording {σ τ : Type} (lib : Lib) (c : FoxopsClient σ)
    (store : StateStore incarnationResourceModel τ) (ctx : Context)
    (plan : Decoded incarnationResourceModel) (resp : Resp τ) (s : σ) (log : List Call)
    (hdiags : (resp.Diagnostics.Append plan.diags).HasError = false) :
    ∃ rest, (incarnationResource.Update lib { client := c.recording } store ctx plan resp
        (s, log)).2.2 =
      log ++ Call.UpdateIncarnation ctx plan.data.Id.ValueString
        { AutoMerge := if !plan.data.AutoMerge.IsNull then plan.data.AutoMerge.ValueBool else true
          TemplateData :=
            if !plan.data.TemplateData.IsNull then planTemplateData plan.data.TemplateData.Elements
            else []
          TemplateRepositoryVersion := plan.data.TemplateRepositoryVersion.ValueString } :: rest ∧
      rest.length ≤ 1 ∧ ∀ call ∈ rest, call.isRead = true := by
  unfold incarnationResource.Update
  simp only [hdiags, Bool.false_eq_true, if_false]
  generalize hreq : ({ AutoMerge := if !plan.data.AutoMerge.IsNull then plan.data.AutoMerge.ValueBool else true
                       TemplateData :=
                         if !plan.data.TemplateData.IsNull then planTemplateData plan.data.TemplateData.Elements
                         else []
                       TemplateRepositoryVersion := plan.data.TemplateRepositoryVersion.ValueString } :
      UpdateIncarnationRequest) = req
  simp only [FoxopsClient.recording]
  rcases c.UpdateIncarnation ctx plan.data.Id.ValueString req s with ⟨⟨inc, err⟩, s1⟩
  cases err with
  | some e => exact ⟨[], rfl, by simp, by simp⟩
  | none =>
    simp only
    split_ifs with h1
    · exact ⟨[], rfl, by simp, by simp⟩
    · obtain ⟨rest, hrest, hlen, hread⟩ := getIncarnation_recording lib ctx c
        ((resp.Diagnostics.Append plan.diags).Append
          (incarnationResource.setState lib store inc resp.State).1)
        inc.Id plan.data.WaitForMRStatus s1
        (log ++ [Call.UpdateIncarnation ctx plan.data.Id.ValueString req])
      refine ⟨rest, ?_, hlen, hread⟩
      simp only [FoxopsClient.recording] at hrest
      rw [hrest]
      simp

/-- C27: when the plan decodes without error, `Update` of the resource calls
`UpdateIncarnation` once (the calls after it only read), and the request of
that call has `AutoMerge` equal to the planned `auto_merge_on_update` when the
plan sets it, and `true` when the attribute is null. -/
theorem C27_update_auto_merge_defaults_to_true {σ τ : Type} (lib : Lib) (c : FoxopsClient σ)
    (store : StateStore incarnationResourceModel τ) (ctx : Context)
    (plan : Decoded incarnationResourceModel) (resp : Resp τ) (s : σ) (log : List Call)
    (hdiags : (resp.Diagnostics.Append plan.diags).HasError = false) :
    ∃ req rest, (incarnationResource.Update lib { client := c.recording } store ctx plan resp
        (s, log)).2.2 = log ++ Call.UpdateIncarnation ctx plan.data.Id.ValueString req :: rest ∧
      (∀ call ∈ rest, call.isRead = true) ∧
      (∀ b, plan.data.AutoMerge = .value b → req.AutoMerge = b) ∧
      (plan.data.AutoMerge = .null → req.AutoMerge = true) := by
  obtain ⟨rest, hrest, _, hread⟩ := Update_recording lib c store ctx plan resp s log hdiags
  refine ⟨_, rest, hrest, hread, ?_, ?_⟩
  · intro b hb
    simp [hb, TfBool.IsNull, TfBool.ValueBool]
  · intro hnull
    simp [hnull, TfBool.IsNull]

/-- C27, an example: the update of the incarnation 1234 without
`auto_merge_on_update` sends `AutoMerge` true, with it set to false sends
false, with it set to true sends true; each time one `UpdateIncarnation` and
one `GetIncarnation`. -/
theorem C27_example_requests :
    (∃ req rest, (incarnationResource.Update exampleLib { client := callsSucceed.recording }
          (recordingStore incarnationResourceModel) .background (examplePlanAutoMerge .null)
          { Diagnostics := [], State := [] } (0, [])).2.2 =
        [] ++ Call.UpdateIncarnation .background
          (examplePlanAutoMerge .null).data.Id.ValueString req :: rest ∧
      (∀ call ∈ rest, call.isRead = true) ∧
      (∀ b, (examplePlanAutoMerge .null).data.AutoMerge = .value b → req.AutoMerge = b) ∧
      ((examplePlanAutoMerge .null).data.AutoMerge = .null → req.AutoMerge = true)) ∧
    (incarnationResource.Update exampleLib { client := callsSucceed.recording }
        (recordingStore incarnationResourceModel) .background (examplePlanAutoMerge .null)
        { Diagnostics := [], State := [] } (0, [])).2.2 =
      [.UpdateIncarnation .background "1234"
          { AutoMerge := true, TemplateData := [],
            TemplateRepositoryVersion := "template/repo/version" },
        .GetIncarnation .background "1234"] ∧
    (incarnationResource.Update exampleLib { client := callsSucceed.recording }
        (recordingStore incarnationResourceModel) .background (examplePlanAutoMerge (.value false))
        { Diagnostics := [], State := [] } (0, [])).2.2 =
      [.UpdateIncarnation .background "1234"
          { AutoMerge := false, TemplateData := [],
            TemplateRepositoryVersion := "template/repo/version" },
        .GetIncarnation .background "1234"] ∧
    (incarnationResource.Update exampleLib { client := callsSucceed.recording }
        (recordingStore incarnationResourceModel) .background (examplePlanAutoMerge (.value true))
        { Diagnostics := [], State := [] } (0, [])).2.2 =
      [.UpdateIncarnation .background "1234"
          { AutoMerge := true, TemplateData := [],
            TemplateRepositoryVersion := "template/repo/version" },
        .GetIncarnation .background "1234"] :=
  ⟨C27_update_auto_merge_defaults_to_true exampleLib callsSucceed
      (recordingStore incarnationResourceModel) .background (examplePlanAutoMerge .null)
      { Diagnostics := [], State := [] } 0 [] (by decide),
    by decide, by decide, by decide⟩

/-! ## The validators of the wait block -/

/-- C24 (the code departs from it): the expression of the validator of
`timeout` is matched anywhere in the string, so a string that merely contains
a run of digits followed by `s`, `m` or `h` is accepted: "abc1s", "1sx" and
"1d5s" pass, although none of them as a whole is a sequence of such groups,
as "1m30s" is. (A string without any such group, "abc", is rejected, and every
string that as a whole is such a sequence is accepted.) The accepted "abc1s"
is then refused by `time.ParseDuration` in `getIncarnation`, which returns the
zero incarnation without calling the client. -/
theorem C24_timeout_validator_accepts_partial_matches :
    (waitForSchemaTimeoutValidator (.value "abc1s") = true ∧
      waitForSchemaTimeoutRegexp.matchesWhole "abc1s" = false) ∧
    (waitForSchemaTimeoutValidator (.value "1sx") = true ∧
      waitForSchemaTimeoutRegexp.matchesWhole "1sx" = false) ∧
    (waitForSchemaTimeoutValidator (.value "1d5s") = true ∧
      waitForSchemaTimeoutRegexp.matchesWhole "1d5s" = false) ∧
    (waitForSchemaTimeoutValidator (.value "1m30s") = true ∧
      waitForSchemaTimeoutRegexp.matchesWhole "1m30s" = true) ∧
    waitForSchemaTimeoutValidator (.value "abc") = false ∧
    (∀ s, waitForSchemaTimeoutRegexp.matchesWhole s = true →
      waitForSchemaTimeoutValidator (.value s) = true) ∧
    ((getIncarnation exampleLib .background callsSucceed.recording [] "1234"
        (some { Status := .value "merged", Timeout := .value "abc1s" }) (0, [])).world = (0, []) ∧
      (getIncarnation exampleLib .background callsSucceed.recording [] "1234"
        (some { Status := .value "merged", Timeout := .value "abc1s" }) (0, [])).inc =
          Incarnation.zero ∧
      (getIncarnation exampleLib .background callsSucceed.recording [] "1234"
        (some { Status := .value "merged", Timeout := .value "abc1s" }) (0, [])).diags.map
          (fun d => d.summary) = ["invalid timeout"]) := by
  refine ⟨by decide, by decide, by decide, by decide, by decide, ?_, by decide⟩
  intro s h
  simp only [waitForSchemaTimeoutValidator, RegexMatches, Regexp.MatchString, List.any_eq_true]
  simp only [Regexp.matchesWhole, List.any_eq_true] at h
  obtain ⟨r, hr, _⟩ := h
  refine ⟨s.toList, by simp, ?_⟩
  cases hrest : waitForSchemaTimeoutRegexp.rests s.toList with
  | nil => rw [hrest] at hr; cases hr
  | cons a l => rfl

/-- C25 (as stated it fails): the value `merge` of the description of the
attribute `status` does not pass its validator, and the string "merged",
which is not among the four values of the description, passes. -/
theorem C25_documented_merge_is_rejected :
    containsText waitForSchemaStatusDescription "one of `open`, `merge`, `closed` or `unknown`" =
      true ∧
    waitForSchemaStatusValidator (.value "merge") = false ∧
    waitForSchemaStatusValidator (.value "merged") = true := by
  decide

/-- C25, amended: a string passes the validator of the attribute `status` of
the wait block exactly when it is one of "open", "merged", "closed" and
"unknown". -/
theorem C25_status_validator_accepts_exactly_four (s : String) :
    waitForSchemaStatusValidator (.value s) = true ↔
      s = "open" ∨ s = "merged" ∨ s = "closed" ∨ s = "unknown" := by
  simp [waitForSchemaStatusValidator, OneOf]

/-- C25, examples: "merged" passes, "Merged" and the empty string do not. -/
theorem C25_example_statuses :
    waitForSchemaStatusValidator (.value "merged") = true ∧
    waitForSchemaStatusValidator (.value "Merged") ≠ true ∧
    waitForSchemaStatusValidator (.value "") ≠ true :=
  ⟨(C25_status_validator_accepts_exactly_four "merged").2 (by decide),
    fun h => absurd ((C25_status_validator_accepts_exactly_four "Merged").1 h) (by decide),
    fun h => absurd ((C25_status_validator_accepts_exactly_four "").1 h) (by decide)⟩

/-! ## The configuration of the provider -/

theorem mapSet_new {α : Type} (m : List (String × α)) (k : String) (v : α)
    (h : k ∉ mapKeys m) : mapSet m k v = m ++ [(k, v)] := by
  induction m with
  | nil => rfl
  | cons kv rest ih =>
    obtain ⟨k0, v0⟩ := kv
    simp only [mapKeys, List.map_cons, List.mem_cons, not_or] at h
    have h0 : k0 ≠ k := fun e => h.1 e.symm
    simp [mapSet, h0, ih (by simpa [mapKeys] using h.2)]

/-- Over distinct keys the type switch keeps, in their order, the entries
that match one of its cases. -/
theorem templateDataStrings_fold (lib : Lib) :
    ∀ (td : List (String × GoValue)) (acc : List (String × String)),
      (mapKeys acc ++ mapKeys td).Nodup →
      td.foldl
        (fun acc kv =>
          match kv.2 with
          | .str value => mapSet acc kv.1 value
          | .int value => mapSet acc kv.1 (sprintfD value)
          | .float .float64 value => mapSet acc kv.1 (lib.SprintfF value)
          | _ => acc)
        acc =
      acc ++ td.filterMap (fun kv => (switchString lib kv.2).map (fun v => (kv.1, v))) := by
  intro td
  induction td with
  | nil => intro acc _; simp
  | cons e rest ih =>
    intro acc hnd
    obtain ⟨k, v⟩ := e
    have hnew : k ∉ mapKeys acc := by
      intro hin
      exact (List.nodup_append.1 hnd).2.2 hin (by simp [mapKeys])
    have hrest : (mapKeys acc ++ mapKeys rest).Nodup := by
      simp only [mapKeys, List.map_cons] at hnd
      exact (List.nodup_middle.1 hnd).of_cons
    have hrest2 : ∀ s : String, (mapKeys (acc ++ [(k, s)]) ++ mapKeys rest).Nodup := by
      intro s
      simpa [mapKeys, List.append_assoc] using hnd
    simp only [List.foldl_cons]
    cases v with
    | str s =>
      have hs : switchString lib (GoValue.str s) = some s := rfl
      simp only [List.filterMap_cons, hs, Option.map_some']
      rw [mapSet_new _ _ _ hnew, ih _ (hrest2 _)]
      simp
    | int n =>
      have hs : switchString lib (GoValue.int n) = some (sprintfD n) := rfl
      simp only [List.filterMap_cons, hs, Option.map_some']
      rw [mapSet_new _ _ _ hnew, ih _ (hrest2 _)]
      simp
    | float kind f =>
      cases kind with
      | float32 =>
        have hs : switchString lib (GoValue.float .float32 f) = none := rfl
        simp only [List.filterMap_cons, hs, Option.map_none']
        exact ih _ hrest
      | float64 =>
        have hs : switchString lib (GoValue.float .float64 f) = some (lib.SprintfF f) := rfl
        simp only [List.filterMap_cons, hs, Option.map_some']
        rw [mapSet_new _ _ _ hnew, ih _ (hrest2 _)]
        simp
    | bool b =>
      have hs : switchString lib (GoValue.bool b) = none := rfl
      simp only [List.filterMap_cons, hs, Option.map_none']
      exact ih _ hrest
    | nil =>
      have hs : switchString lib GoValue.nil = none := rfl
      simp only [List.filterMap_cons, hs, Option.map_none']
      exact ih _ hrest
    | other t =>
      have hs : switchString lib (GoValue.other t) = none := rfl
      simp only [List.filterMap_cons, hs, Option.map_none']
      exact ih _ hrest

theorem templateDataStrings_eq (lib : Lib) (td : List (String × GoValue))
    (hnd : (mapKeys td).Nodup) :
    templateDataStrings lib td =
      td.filterMap (fun kv => (switchString lib kv.2).map (fun v => (kv.1, v))) := by
  have := templateDataStrings_fold lib td [] (by simpa [mapKeys] using hnd)
  simpa [templateDataStrings] using this

theorem switch_keys_of_kept (lib : Lib) :
    ∀ td : List (String × GoValue), (∀ kv ∈ td, (switchString lib kv.2).isSome = true) →
      mapKeys (td.filterMap (fun kv => (switchString lib kv.2).map (fun v => (kv.1, v)))) =
        mapKeys td := by
  intro td
  induction td with
  | nil => intro _; rfl
  | cons e rest ih =>
    intro h
    obtain ⟨v, hv⟩ := Option.isSome_iff_exists.1 (h e (List.mem_cons_self _ _))
    have := ih (fun kv hkv => h kv (List.mem_cons_of_mem _ hkv))
    simp only [mapKeys] at this
    simp [mapKeys, List.filterMap_cons, hv, this]

/-- C30 (the code departs from it): the type switch of `setState` and of the
`Read` of the data source has the cases `string`, `int` and `float64`. Over
distinct keys it keeps every key, strings unchanged and integers in decimal,
when the values are of these three types; a `float32` value matches no case
and its key is dropped. With a generated alias `...TemplateData2` that is
`float32`, the body with the template data "demo", 3 and 3.5 is mapped by
`mapIncarnation` to an incarnation with the keys name, replicas and ratio, and
both `setState` and the `Read` of the data source write a `template_data`
without the key ratio. -/
theorem C30_float32_template_data_is_dropped :
    (∀ (lib : Lib) (td : List (String × GoValue)), (mapKeys td).Nodup →
      (∀ kv ∈ td, (∃ s, kv.2 = .str s) ∨ (∃ n, kv.2 = .int n) ∨ ∃ f, kv.2 = .float .float64 f) →
      mapKeys (templateDataStrings lib td) = mapKeys td ∧
        (∀ k s, (k, GoValue.str s) ∈ td → (k, s) ∈ templateDataStrings lib td) ∧
        (∀ k n, (k, GoValue.int n) ∈ td → (k, sprintfD n) ∈ templateDataStrings lib td)) ∧
    (∀ (lib : Lib) (td : List (String × GoValue)) (k : String) (f : GoFloat), (mapKeys td).Nodup →
      (k, GoValue.float .float32 f) ∈ td → k ∉ mapKeys (templateDataStrings lib td)) ∧
    mapIncarnation (decodingTo threeKindsDetails) someBody = .ret (threeKindsIncarnation, none) ∧
    mapKeys threeKindsIncarnation.TemplateData = ["name", "replicas", "ratio"] ∧
    (incarnationResource.setState (decodingTo threeKindsDetails)
        (recordingStore incarnationResourceModel) threeKindsIncarnation []).2.map
        (fun m => m.TemplateData) =
      [TfMap.value [("name", .string (.value "demo")), ("replicas", .string (.value "3"))]] ∧
    (incarnationDataSource.Read (decodingTo threeKindsDetails)
        { client := returning threeKindsIncarnation } (recordingStore incarnationDatasourceModel)
        .background { data := exampleConfig none, diags := [] } { Diagnostics := [], State := [] }
        0).1.State.map (fun m => m.TemplateData) =
      [TfMap.value [("name", .string (.value "demo")), ("replicas", .string (.value "3"))]] := by
  refine ⟨?_, ?_, by decide, by decide, by decide, by decide⟩
  · intro lib td hnd hkept
    rw [templateDataStrings_eq lib td hnd]
    refine ⟨?_, ?_, ?_⟩
    · apply switch_keys_of_kept
      intro kv hkv
      rcases hkept kv hkv with ⟨s, hs⟩ | ⟨n, hn⟩ | ⟨f, hf⟩
      · rw [hs]; rfl
      · rw [hn]; rfl
      · rw [hf]; rfl
    · intro k s hmem
      rw [List.mem_filterMap]
      exact ⟨(k, .str s), hmem, rfl⟩
    · intro k n hmem
      rw [List.mem_filterMap]
      exact ⟨(k, .int n), hmem, rfl⟩
  · intro lib td k f hnd hmem hin
    rw [templateDataStrings_eq lib td hnd] at hin
    simp only [mapKeys, List.mem_map, List.mem_filterMap] at hin
    obtain ⟨⟨k2, s⟩, ⟨⟨k3, v⟩, hv, hsome⟩, hk⟩ := hin
    simp only at hk
    subst hk
    cases hsw : switchString lib v with
    | none => simp [hsw] at hsome
    | some s2 =>
      simp only [hsw, Option.map_some', Option.some.injEq, Prod.mk.injEq] at hsome
      obtain ⟨hk3, _⟩ := hsome
      subst hk3
      have := mem_unique_of_nodup_keys k3 (GoValue.float .float32 f) v td hnd hmem hv
      subst this
      cases hsw

/-! ## The sleep between two polls -/

/-- C21 (as stated it fails): under a context whose deadline passes half a
second into the first sleep, the loop still sleeps the whole second: it
returns the deadline error only from the request that follows the sleep, with
one full sleep on the record, and with fuel for one turn only (the first call
and the sleep) it has not returned. -/
theorem C21_sleep_outlasts_the_deadline :
    (500000000 : Int) < 1 * Second ∧
    openUntilDeadline.GetIncarnationWithMergeRequestStatus exampleLib halfSecondContext "1234"
        "merged" 5 World.initial =
      some (.ret (Incarnation.zero, some (.withStack exampleDeadlineError)),
        { requests := [Request.get 1234, Request.get 1234], sleeps := 1 }) ∧
    openUntilDeadline.GetIncarnationWithMergeRequestStatus exampleLib halfSecondContext "1234"
        "merged" 1 World.initial = none := by
  decide

/-- C21, amended: time counted as the seconds slept (a request takes none),
under a context with the timeout `d` and with an HTTP client that fails every
request made at or after the deadline with an error `e` of the context (its
chain holds `target`, `context.DeadlineExceeded` or `context.Canceled`),
while every poll before the deadline finds the merge request in another
status. Let the `n`-th sleep be the first to end at or after the deadline.
Then the loop returns the error `e`, in which `errors.Is` finds `target`, from
the request that follows that sleep, after `n` full sleeps: not before the
deadline, and when the loop slept at all, less than one sleep interval after
it. Until that request the loop has not returned: with the first `n` polls
and the `n` sleeps behind it, the last of which the deadline falls into, it
is still running. -/
theorem C21_deadline_is_seen_after_the_full_sleep (c : client) (lib : Lib) (parent : Context)
    (d : Int) (id : IncarnationId) (status : String) (w : World) (idInt : Int) (e target : GoError)
    (n : Nat) (hid : Atoi id = .ok idInt)
    (hbefore : ∀ w1 : World, (w1.sleeps : Int) * Second < d →
      keepsPolling status (c.GetIncarnation lib (.withTimeout parent d) id w1).1 = true)
    (hafter : ∀ w1 : World, d ≤ (w1.sleeps : Int) * Second →
      c.impl.respond w1 (.withTimeout parent d) (.get idInt) = .error e)
    (hIs : e.Is target = true)
    (hlate : d ≤ ((w.sleeps + n : Nat) : Int) * Second)
    (hearly : ∀ m, m < n → ((w.sleeps + m : Nat) : Int) * Second < d)
    (fuel : Nat) (hfuel : n + 1 ≤ fuel) :
    (∃ w1, c.GetIncarnationWithMergeRequestStatus lib (.withTimeout parent d) id status fuel w =
        some (.ret (Incarnation.zero, some (.withStack e)), w1) ∧
      w1.sleeps = w.sleeps + n ∧
      d ≤ (w1.sleeps : Int) * Second ∧
      (0 < n → (w1.sleeps : Int) * Second < d + Second)) ∧
    (GoError.withStack e).Is target = true ∧
    (∀ m, m ≤ n →
      c.GetIncarnationWithMergeRequestStatus lib (.withTimeout parent d) id status m w = none ∧
        (pollWorld c lib (.withTimeout parent d) id m w).sleeps = w.sleeps + m) := by
  have hkeep : ∀ i, i < n →
      keepsPolling status (pollResult c lib (.withTimeout parent d) id i w) = true := by
    intro i hi
    apply hbefore
    rw [pollWorld_sleeps]
    exact hearly i hi
  refine ⟨?_, Is_withStack e _ hIs, ?_⟩
  · have hfail := GetIncarnation_transport_error c lib (.withTimeout parent d) id
      (pollWorld c lib (.withTimeout parent d) id n w) idInt e hid
      (hafter _ (by rw [pollWorld_sleeps]; exact hlate))
    obtain ⟨f, rfl⟩ : ∃ f, fuel = (f + 1) + n := ⟨fuel - (n + 1), by omega⟩
    have hsleeps : (c.GetIncarnation lib (.withTimeout parent d) id
        (pollWorld c lib (.withTimeout parent d) id n w)).2.sleeps = w.sleeps + n := by
      rw [GetIncarnation_world, pollWorld_sleeps]
    refine ⟨_, ?_, hsleeps, ?_, ?_⟩
    · rw [poll_skip c lib (.withTimeout parent d) id status n (f + 1) w hkeep]
      exact poll_stop c lib (.withTimeout parent d) id status f _ _ _ hfail (Or.inl (by simp))
    · rw [hsleeps]
      exact hlate
    · intro hn
      rw [hsleeps]
      have h := hearly (n - 1) (by omega)
      have hcast : ((w.sleeps + n : Nat) : Int) = ((w.sleeps + (n - 1) : Nat) : Int) + 1 := by
        omega
      rw [hcast]
      linarith
  · intro m hm
    refine ⟨?_, pollWorld_sleeps c lib (.withTimeout parent d) id m w⟩
    have hskip := poll_skip c lib (.withTimeout parent d) id status m 0 w
      (fun i hi => hkeep i (by omega))
    rw [Nat.zero_add] at hskip
    rw [hskip]
    rfl

/-- C21, an example: under the context with a timeout of half a second, with
the merge request open until the deadline. The deadline falls into the first
sleep; the loop returns the deadline error after that sleep, one second
after the start and half a second after the deadline, and has not returned
before. -/
theorem C21_example_half_second :
    (∃ w1, openUntilDeadline.GetIncarnationWithMergeRequestStatus exampleLib
        (.withTimeout .background 500000000) "1234" "merged" 2 World.initial =
        some (.ret (Incarnation.zero, some (.withStack exampleDeadlineError)), w1) ∧
      w1.sleeps = World.initial.sleeps + 1 ∧
      (500000000 : Int) ≤ (w1.sleeps : Int) * Second ∧
      (0 < 1 → (w1.sleeps : Int) * Second < 500000000 + Second)) ∧
    (GoError.withStack exampleDeadlineError).Is DeadlineExceeded = true ∧
    (∀ m, m ≤ 1 →
      openUntilDeadline.GetIncarnationWithMergeRequestStatus exampleLib
          (.withTimeout .background 500000000) "1234" "merged" m World.initial = none ∧
        (pollWorld openUntilDeadline exampleLib (.withTimeout .background 500000000) "1234" m
          World.initial).sleeps = World.initial.sleeps + m) :=
  C21_deadline_is_seen_after_the_full_sleep openUntilDeadline exampleLib .background 500000000
    "1234" "merged" World.initial 1234 exampleDeadlineError DeadlineExceeded 1 (by decide)
    (fun w1 h => by
      have hresp : openUntilDeadline.impl.respond w1 (.withTimeout .background 500000000)
          (.get 1234) = .ok { StatusCode := 200, Body := exampleBody (some "open") } := by
        simp only [openUntilDeadline]
        rw [if_neg (not_le.2 h)]
      have hA : Atoi "1234" = .ok 1234 := by decide
      have hcheck : WithStack (checkResponseStatus exampleLib StatusOK
          { StatusCode := 200, Body := exampleBody (some "open") }) = none := by decide
      have hmap : mapIncarnation exampleLib (exampleBody (some "open")) =
          .ret (exampleIncarnation (some "open"), none) := by decide
      simp only [client.GetIncarnation, hA, ClientInterface.call, hresp, hcheck, hmap]
      decide)
    (fun w1 h => by
      simp only [openUntilDeadline]
      rw [if_pos h])
    (by decide) (by decide)
    (fun m hm => by
      have hm0 : m = 0 := by omega
      subst hm0
      decide)
    2 (by decide)

/-! ## The life cycle of a change of the resource -/

/-- The plan modifiers of the schema, run on a plan: the id may be taken from
the state, and replacement is required by a change of
`incarnation_repository`, of a configured `target_directory` or of
`template_repository`. -/
theorem modifyPlan_Schema (state config plan : incarnationResourceModel) :
    modifyPlan incarnationResource.Schema state config plan =
      ({ plan with
          Id := (StringPlanModifier.UseStateForUnknown.PlanModifyString state.Id config.Id plan.Id).1 },
        (decide (plan.IncarnationRepository ≠ state.IncarnationRepository) ||
          (decide (plan.TargetDirectory ≠ state.TargetDirectory) && !config.TargetDirectory.IsNull)) ||
          decide (plan.TemplateRepository ≠ state.TemplateRepository)) := by
  have hid : (StringPlanModifier.UseStateForUnknown.PlanModifyString state.Id config.Id plan.Id).2 =
      false := by
    simp only [StringPlanModifier.PlanModifyString]
    split_ifs <;> rfl
  simp only [modifyPlan, incarnationResource.Schema, List.foldl_cons, List.foldl_nil, hid,
    Bool.false_or, Bool.or_false]
  rfl

/-- A loop over distinct keys that are new to the map, whose turn stores
under the key of the entry the value a function gives for it, when it gives
one: the map at the end is the old one followed by the entries that got a
value. -/
theorem foldl_mapSet_filterMap {α β : Type}
    (step : List (String × α) → String × β → List (String × α)) (g : β → Option α)
    (hstep : ∀ acc e, step acc e = match g e.2 with
      | some v => mapSet acc e.1 v
      | none => acc) :
    ∀ (l : List (String × β)) (acc : List (String × α)),
      (mapKeys acc ++ mapKeys l).Nodup →
      l.foldl step acc = acc ++ l.filterMap (fun e => (g e.2).map (fun v => (e.1, v))) := by
  intro l
  induction l with
  | nil => intro acc _; simp
  | cons e rest ih =>
    intro acc hnd
    obtain ⟨k, u⟩ := e
    have hnew : k ∉ mapKeys acc := by
      intro hin
      exact (List.nodup_append.1 hnd).2.2 hin (by simp [mapKeys])
    simp only [List.foldl_cons, List.filterMap_cons]
    rw [hstep]
    cases hg : g u with
    | none =>
      simp only [Option.map_none']
      apply ih
      simp only [mapKeys, List.map_cons] at hnd
      exact (List.nodup_middle.1 hnd).of_cons
    | some v =>
      simp only [Option.map_some']
      rw [mapSet_new _ _ _ hnew, ih]
      · simp
      · simpa [mapKeys, List.append_assoc] using hnd

/-- Over distinct keys, every `types.String` element of the planned template
data is in the template data of the request. -/
theorem planTemplateData_mem (elements : List (String × AttrValue))
    (hnd : (mapKeys elements).Nodup) (k : String) (v : TfString)
    (hmem : (k, AttrValue.string v) ∈ elements) :
    (k, GoValue.str v.ValueString) ∈ planTemplateData elements := by
  have h := foldl_mapSet_filterMap
    (fun acc (kv : String × AttrValue) =>
      match kv.2 with
      | .string value => mapSet acc kv.1 (GoValue.str value.ValueString)
      | _ => acc)
    (fun a => match a with
      | .string value => some (GoValue.str value.ValueString)
      | _ => none)
    (fun acc e => by
      obtain ⟨k0, a⟩ := e
      cases a <;> rfl)
    elements [] (by simpa [mapKeys] using hnd)
  unfold planTemplateData
  rw [h]
  simp only [List.nil_append, List.mem_filterMap]
  exact ⟨(k, .string v), hmem, rfl⟩

/-- C22: a planned change of the resource, applied with a client that
records its calls, for a state, a configuration and a plan that decode
without error. When the plan differs from the state in
`incarnation_repository`, in `template_repository`, or in a `target_directory`
that the configuration sets, the plan modifiers of the schema require
replacement: the calls are one `DeleteIncarnation` on the id of the state and
one `CreateIncarnation` with the request built from the configuration (when
both succeed), no `UpdateIncarnation`, and the state is written from the
incarnation the creation returned, id included. When none of the three
differs in that way (so that the change is one of `template_data`, of
`template_repository_version` or of another attribute without such a
modifier), with the id of the state kept by the plan, the calls are one
`UpdateIncarnation` on that id, whose request carries the planned version and
the planned template data (every `types.String` element, over distinct keys),
followed by at most one read, and no creation or deletion. -/
theorem C22_replacement_or_update_in_place {σ τ : Type} (lib : Lib) (c : FoxopsClient σ)
    (store : StateStore incarnationResourceModel τ) (ctx : Context)
    (state config plan : incarnationResourceModel) (resp : Resp τ) (s : σ) (log : List Call)
    (hresp : resp.Diagnostics.HasError = false) :
    ((plan.IncarnationRepository ≠ state.IncarnationRepository ∨
        plan.TemplateRepository ≠ state.TemplateRepository ∨
        (plan.TargetDirectory ≠ state.TargetDirectory ∧ config.TargetDirectory.IsNull = false)) →
      ∀ s1 s2 inc, c.DeleteIncarnation ctx state.Id.ValueString s = (none, s1) →
        c.CreateIncarnation ctx
          { IncarnationRepository := config.IncarnationRepository.ValueString
            TargetDirectory := config.TargetDirectory.ValueStringPointer
            TemplateRepository := config.TemplateRepository.ValueString
            AutoMerge := false
            TemplateData :=
              if !config.TemplateData.IsNull then planTemplateData config.TemplateData.Elements
              else []
            TemplateRepositoryVersion := config.TemplateRepositoryVersion.ValueString } s1 =
          ((inc, none), s2) →
        (applyChange lib { client := c.recording } store ctx { data := state, diags := [] }
            { data := config, diags := [] } { data := plan, diags := [] } resp (s, log)).2 =
          (s2, log ++ [.DeleteIncarnation ctx state.Id.ValueString,
            .CreateIncarnation ctx
              { IncarnationRepository := config.IncarnationRepository.ValueString
                TargetDirectory := config.TargetDirectory.ValueStringPointer
                TemplateRepository := config.TemplateRepository.ValueString
                AutoMerge := false
                TemplateData :=
                  if !config.TemplateData.IsNull then planTemplateData config.TemplateData.Elements
                  else []
                TemplateRepositoryVersion := config.TemplateRepositoryVersion.ValueString }]) ∧
        (applyChange lib { client := c.recording } store ctx { data := state, diags := [] }
            { data := config, diags := [] } { data := plan, diags := [] } resp (s, log)).1.State =
          (incarnationResource.setState lib store inc (store.RemoveResource resp.State)).2) ∧
    (plan.IncarnationRepository = state.IncarnationRepository →
      plan.TemplateRepository = state.TemplateRepository →
      (plan.TargetDirectory = state.TargetDirectory ∨ config.TargetDirectory.IsNull = true) →
      ∀ id, state.Id = .value id → (plan.Id = .unknown ∨ plan.Id = state.Id) → config.Id = .null →
      ∃ rest,
        (applyChange lib { client := c.recording } store ctx { data := state, diags := [] }
            { data := config, diags := [] } { data := plan, diags := [] } resp (s, log)).2.2 =
          log ++ Call.UpdateIncarnation ctx id
            { AutoMerge := if !plan.AutoMerge.IsNull then plan.AutoMerge.ValueBool else true
              TemplateData :=
                if !plan.TemplateData.IsNull then planTemplateData plan.TemplateData.Elements
                else []
              TemplateRepositoryVersion := plan.TemplateRepositoryVersion.ValueString } :: rest ∧
        rest.length ≤ 1 ∧ (∀ call ∈ rest, call.isRead = true)) ∧
    (∀ elements k v, plan.TemplateData = .value elements → (mapKeys elements).Nodup →
      (k, AttrValue.string v) ∈ elements →
      (k, GoValue.str v.ValueString) ∈
        (if !plan.TemplateData.IsNull then planTemplateData plan.TemplateData.Elements else [])) := by
  have happend : resp.Diagnostics.Append [] = resp.Diagnostics := rfl
  refine ⟨?_, ?_, ?_⟩
  · intro hchange s1 s2 inc hdel hcreate
    have hflag : (modifyPlan incarnationResource.Schema state config plan).2 = true := by
      rw [modifyPlan_Schema]
      rcases hchange with h | h | ⟨h1, h2⟩
      · simp [h]
      · simp [h]
      · simp [h1, h2]
    unfold applyChange
    simp only [hflag, if_true]
    unfold incarnationResource.Delete
    simp only [happend, hresp, Bool.false_eq_true, if_false, FoxopsClient.recording, hdel]
    unfold incarnationResource.Create
    simp only [Diagnostics.Append, List.foldl_nil, Diagnostics.HasError, List.any_nil,
      Bool.false_eq_true, if_false, FoxopsClient.recording, hcreate]
    simp
  · intro hIR hTR hTD id hstate hplan hconfig
    have hflag : (modifyPlan incarnationResource.Schema state config plan).2 = false := by
      rw [modifyPlan_Schema]
      rcases hTD with h | h
      · simp [hIR, hTR, h]
      · simp [hIR, hTR, h]
    have hid : (modifyPlan incarnationResource.Schema state config plan).1.Id = .value id := by
      rw [modifyPlan_Schema]
      rcases hplan with h | h
      · simp [StringPlanModifier.PlanModifyString, hstate, h, hconfig, TfString.IsNull,
          TfString.IsUnknown]
      · simp [StringPlanModifier.PlanModifyString, hstate, h, TfString.IsNull,
          TfString.IsUnknown]
    have hrest : ∀ m : incarnationResourceModel,
        (modifyPlan incarnationResource.Schema state config plan).1 = m →
          m.AutoMerge = plan.AutoMerge ∧ m.TemplateData = plan.TemplateData ∧
            m.TemplateRepositoryVersion = plan.TemplateRepositoryVersion := by
      intro m hm
      rw [modifyPlan_Schema] at hm
      subst hm
      exact ⟨rfl, rfl, rfl⟩
    obtain ⟨h1, h2, h3⟩ := hrest _ rfl
    unfold applyChange
    simp only [hflag, Bool.false_eq_true, if_false]
    obtain ⟨rest, hlog, hlen, hread⟩ := Update_recording lib c store ctx
      { data := (modifyPlan incarnationResource.Schema state config plan).1, diags := [] }
      resp s log (by rw [happend]; exact hresp)
    refine ⟨rest, ?_, hlen, hread⟩
    rw [hlog]
    simp only [hid, h1, h2, h3, TfString.ValueString]
  · intro elements k v hvalue hnd hmem
    simp only [hvalue, TfMap.IsNull, TfMap.Elements, Bool.not_false, if_true]
    exact planTemplateData_mem elements hnd k v hmem

/-- C22, examples, on the state of the incarnation 1234. A configuration with
another incarnation repository is applied by one deletion of 1234 and one
creation, and the state then holds the id of the created incarnation. A
configuration with another version and template data is applied by one update
of 1234 that carries both, followed by one read. -/
theorem C22_example_changes :
    (appliedChange recreatedIncarnation replacingConfig).2 =
      (2, [] ++ [.DeleteIncarnation .background (examplePlan none).Id.ValueString,
        .CreateIncarnation .background
          { IncarnationRepository := replacingConfig.IncarnationRepository.ValueString
            TargetDirectory := replacingConfig.TargetDirectory.ValueStringPointer
            TemplateRepository := replacingConfig.TemplateRepository.ValueString
            AutoMerge := false
            TemplateData :=
              if !replacingConfig.TemplateData.IsNull then
                planTemplateData replacingConfig.TemplateData.Elements
              else []
            TemplateRepositoryVersion := replacingConfig.TemplateRepositoryVersion.ValueString }]) ∧
    (appliedChange recreatedIncarnation replacingConfig).2.2 =
      [.DeleteIncarnation .background "1234",
        .CreateIncarnation .background
          { IncarnationRepository := "other/repo", TargetDirectory := none,
            TemplateRepository := "template/repo", AutoMerge := false, TemplateData := [],
            TemplateRepositoryVersion := "template/repo/version" }] ∧
    (appliedChange recreatedIncarnation replacingConfig).1.State.map (fun m => m.Id) =
      [.value "0002"] ∧
    (appliedChange (exampleIncarnation (some "merged")) updatingConfig).2.2 =
      [.UpdateIncarnation .background "1234"
          { AutoMerge := true, TemplateData := [("name", .str "demo")],
            TemplateRepositoryVersion := "v2" },
        .GetIncarnation .background "1234"] :=
  ⟨((C22_replacement_or_update_in_place exampleLib (returning recreatedIncarnation)
      (recordingStore incarnationResourceModel) .background (examplePlan none) replacingConfig
      (proposedPlan replacingConfig) { Diagnostics := [], State := [examplePlan none] } 0 []
      (by decide)).1 (Or.inl (by decide)) 1 2 recreatedIncarnation rfl rfl).1,
    by decide, by decide, by decide⟩

/-! ## A deadline that passes while a response is read -/

/-- C5 (the code departs from it): when the deadline of the context passes
while the body of a response with an unexpected status is read,
`checkResponseStatus` replaces the error of the read by
`errors.New("failed to read response body")`. The first poll finds the merge
request open, the second is answered with 404 and its body read fails with
`context.DeadlineExceeded`: the loop returns an error in whose chain
`errors.Is` does not find the deadline, and `getIncarnation`, given that
error, files it under "failed to retrieve incarnation" and not under the
summary of the timeout. (A deadline the transport reports is found:
`errors.WithStack` keeps the chain.) -/
theorem C5_deadline_during_body_read_is_not_recognised :
    ReadAll unreadableNotFound.Body = .error DeadlineExceeded ∧
    openThenUnreadable.GetIncarnationWithMergeRequestStatus exampleLib
        (.withTimeout .background (10 * Second)) "1234" "merged" 5 World.initial =
      some (.ret (Incarnation.zero,
          some (.withStack (.fundamental "failed to read response body"))),
        { requests := [Request.get 1234, Request.get 1234], sleeps := 1 }) ∧
    (GoError.withStack (.fundamental "failed to read response body")).Is DeadlineExceeded = false ∧
    (getIncarnation exampleLib .background
        (readsFail (.withStack (.fundamental "failed to read response body"))) [] "1234"
        (some { Status := .value "merged", Timeout := .null }) 0).diags.map (fun d => d.summary) =
      ["failed to retrieve incarnation"] ∧
    (GoError.withStack exampleDeadlineError).Is DeadlineExceeded = true ∧
    (getIncarnation exampleLib .background (readsFail (.withStack exampleDeadlineError)) [] "1234"
        (some { Status := .value "merged", Timeout := .null }) 0).diags.map (fun d => d.summary) =
      ["operation timed out before the merge request status reached the expected status"] := by
  refine ⟨?_, ?_, ?_, ?_, ?_, ?_⟩ <;> decide

end Foxops
